import Mathlib

/-!
# POV-Ray writer of Open Babel (`src/formats/povrayformat.cpp`)

A shallow embedding of the POV-Ray output format: the centroid and bounding-box
helpers, the bond geometry, and the emitters that write the scene description.

* Coordinates are elements of a linearly ordered field `α` (exact arithmetic in
  place of `double`).  The functions of `<math.h>` and the stream formatting of a
  `double` are not part of the source file; they are the fields of `Env`.
* The output stream is the list of the lines written to it, in order; a line
  ends at each `endl` and at each line break inside a string literal.  The
  strings held by a molecule (title, element symbols, atom types) are single
  line strings.
-/

namespace Povray

/-! ## Environment and data model -/

/-- What the source takes from outside the file: `sqrt` and `acos` of `<math.h>`,
the constant `PI` (defined in the source only when the build has not defined
it), and the text `ostream << double` writes. -/
structure Env (α : Type) where
  sqrt : α → α
  acos : α → α
  PI : α
  fmt : α → String

/-- The value the source gives `PI` when nothing else defines it. -/
def PI_default : ℚ := 3.1415926535897932384626433

/-- `OpenBabel::vector3`. -/
structure vector3 (α : Type) where
  x : α
  y : α
  z : α

/-- `OpenBabel::VZero`. -/
def VZero {α : Type} [Zero α] : vector3 α := ⟨0, 0, 0⟩

/-- An atom as the writer reads it: `GetX/GetY/GetZ`, the element symbol
`OBElements::GetSymbol(GetAtomicNum())` and the type string `GetType()`. -/
structure OBAtom (α : Type) where
  x : α
  y : α
  z : α
  symbol : String
  type : String

/-- A bond as the writer reads it: the atoms `GetBeginAtom()` and `GetEndAtom()`
point to, their indices `GetBeginAtomIdx()` and `GetEndAtomIdx()`, and
`GetBondOrder()`. -/
structure OBBond (α : Type) where
  beginAtom : OBAtom α
  endAtom : OBAtom α
  beginIdx : Nat
  endIdx : Nat
  order : Nat

/-- A molecule: atoms `1..N` (`GetAtom(i)` is the `i`-th of the list), bonds
`0..M-1` and the title. -/
structure OBMol (α : Type) where
  atoms : List (OBAtom α)
  bonds : List (OBBond α)
  title : String

/-- `mol.NumAtoms()`. -/
def OBMol.NumAtoms {α : Type} (mol : OBMol α) : Nat := mol.atoms.length

/-- `mol.NumBonds()`. -/
def OBMol.NumBonds {α : Type} (mol : OBMol α) : Nat := mol.bonds.length

/-- Modelled from the spec: `mol.GetCoordinates()`, the flat coordinate array
`x1,y1,z1,x2,y2,z2,...` of the atoms (the accessor is not in the source file). -/
def OBMol.GetCoordinates {α : Type} [Zero α] (mol : OBMol α) (k : Nat) : α :=
  match mol.atoms.get? (k / 3) with
  | none => 0
  | some a => if k % 3 = 0 then a.x else if k % 3 = 1 then a.y else a.z

section Numeric

variable {α : Type} [LinearOrderedField α]

/-- `#define MAXRADIUS (double) 3.0`. -/
def MAXRADIUS : α := 3

/-- `#define EPSILON (double) 1e-4`. -/
def EPSILON : α := 1 / 10000

/-- `#define SQUARE(x) ((x) * (x))`. -/
def SQUARE (x : α) : α := x * x

/-- `#define RAD2DEG(r) (((double) 180.0 * r) / PI)`. -/
def RAD2DEG (env : Env α) (r : α) : α := (180 * r) / env.PI

/-! ## Centroid -/

/-- Width of `unsigned int`, the type of the loop index of `my_center_coords`. -/
def UINT_MOD : Nat := 4294967296

/-- The loop of `my_center_coords`: adds point `i` to the running sums.  The
indices `i*3`, `i*3+1`, `i*3+2` are computed in `unsigned int`. -/
def centerStep (c : Nat → α) (acc : α × α × α) (i : Nat) : α × α × α :=
  (acc.1 + c ((i * 3) % UINT_MOD),
   acc.2.1 + c ((i * 3 + 1) % UINT_MOD),
   acc.2.2 + c ((i * 3 + 2) % UINT_MOD))

/-- `my_center_coords(double *c, unsigned int size)`. -/
def my_center_coords (c : Nat → α) (size : Nat) : vector3 α :=
  if size = 0 then VZero
  else
    let s := (List.range size).foldl (centerStep c) (0, 0, 0)
    ⟨s.1 / (size : α), s.2.1 / (size : α), s.2.2 / (size : α)⟩

/-! ## Bounding box -/

/-- The six reference parameters of `CalcBoundingBox`. -/
structure BoundingBox (α : Type) where
  min_x : α
  max_x : α
  min_y : α
  max_y : α
  min_z : α
  max_z : α

/-- One pass of the loop body of `CalcBoundingBox` for the atom `atom`. -/
def boxStep (b : BoundingBox α) (atom : OBAtom α) : BoundingBox α :=
  let min_x := if atom.x < b.min_x then atom.x else b.min_x
  let max_x := if atom.x > b.max_x then atom.x else b.max_x
  let min_y := if atom.y < b.min_y then atom.y else b.min_y
  let max_y := if atom.y > b.max_y then atom.y else b.max_y
  let min_z := if atom.z < b.min_z then atom.z else b.min_z
  let max_z := if atom.z > b.max_z then atom.z else b.max_z
  ⟨min_x, max_x, min_y, max_y, min_z, max_z⟩

/-- `CalcBoundingBox`: all six values start at `0.0`, then every atom is checked. -/
def CalcBoundingBox (mol : OBMol α) : BoundingBox α :=
  mol.atoms.foldl boxStep ⟨0, 0, 0, 0, 0, 0⟩

/-! ## Bond geometry -/

/-- The local variables `dist`, `dy`, `phi`, `theta` of a bond emitter. -/
structure BondGeometry (α : Type) where
  dist : α
  dy : α
  phi : α
  theta : α

/-- Lines 398-418 of `OutputBASBonds`: length of the bond, length of its
projection on the x-z plane, and the two angles. -/
def basGeometry (env : Env α) (bond : OBBond α) : BondGeometry α :=
  let x1 := bond.beginAtom.x
  let y1 := bond.beginAtom.y
  let z1 := bond.beginAtom.z
  let x2 := bond.endAtom.x
  let y2 := bond.endAtom.y
  let z2 := bond.endAtom.z
  let dist := env.sqrt (SQUARE (x2 - x1) + SQUARE (y2 - y1) + SQUARE (z2 - z1))
  let dy := env.sqrt (SQUARE (x2 - x1) + SQUARE (z2 - z1))
  let phi := if |dist| ≥ EPSILON then env.acos ((y2 - y1) / dist) else 0
  let theta := if |dy| ≥ EPSILON then env.acos ((x2 - x1) / dy) else 0
  ⟨dist, dy, phi, theta⟩

/-- Lines 495-515 of `OutputCSTBonds`: the same computation, written a second
time in the source. -/
def cstGeometry (env : Env α) (bond : OBBond α) : BondGeometry α :=
  let x1 := bond.beginAtom.x
  let y1 := bond.beginAtom.y
  let z1 := bond.beginAtom.z
  let x2 := bond.endAtom.x
  let y2 := bond.endAtom.y
  let z2 := bond.endAtom.z
  let dist := env.sqrt (SQUARE (x2 - x1) + SQUARE (y2 - y1) + SQUARE (z2 - z1))
  let dy := env.sqrt (SQUARE (x2 - x1) + SQUARE (z2 - z1))
  let phi := if |dist| ≥ EPSILON then env.acos ((y2 - y1) / dist) else 0
  let theta := if |dy| ≥ EPSILON then env.acos ((x2 - x1) / dy) else 0
  ⟨dist, dy, phi, theta⟩

/-! ## Emitters

Every emitter returns the lines it appends to the stream. -/

/-- Lines 354-358, one pass of the first loop of `OutputAtoms`: the position of
atom `i`. -/
def atomPosLine (env : Env α) (pfx : String) (i : Nat) (atom : OBAtom α) : String :=
  "#declare " ++ pfx ++ "_pos_" ++ toString i ++ " = <"
    ++ env.fmt atom.x ++ "," ++ env.fmt atom.y ++ "," ++ env.fmt atom.z ++ ">;"

/-- The first loop of `OutputAtoms`, from atom `i` on. -/
def atomPosLoop (env : Env α) (pfx : String) : Nat → List (OBAtom α) → List String
  | _, [] => []
  | i, atom :: rest => atomPosLine env pfx i atom :: atomPosLoop env pfx (i + 1) rest

/-- Lines 371-374, one pass of the second loop of `OutputAtoms`: the object of
atom `i`. -/
def atomObject (pfx : String) (i : Nat) (atom : OBAtom α) : List String :=
  [ "#declare " ++ pfx ++ "_atom" ++ toString i ++ " = " ++ "object \x7b",
    "\t  Atom_" ++ atom.symbol,
    "\t  translate " ++ pfx ++ "_pos_" ++ toString i,
    "\t \x7d" ]

/-- The second loop of `OutputAtoms`, from atom `i` on. -/
def atomObjectLoop (pfx : String) : Nat → List (OBAtom α) → List String
  | _, [] => []
  | i, atom :: rest => atomObject pfx i atom ++ atomObjectLoop pfx (i + 1) rest

/-- `OutputAtoms`. -/
def OutputAtoms (env : Env α) (mol : OBMol α) (pfx : String) : List String :=
  [ "//Coodinates of atoms 1 - " ++ toString mol.NumAtoms ]
    ++ atomPosLoop env pfx 1 mol.atoms
    ++ [ "", "//Povray-description of atoms 1 - " ++ toString mol.NumAtoms ]
    ++ atomObjectLoop pfx 1 mol.atoms
    ++ [ "" ]

/-- Lines 445-469 (and 551-573, 613-636 with the indentation `ind` of the
capped-sticks halves): the rotation about the y axis, written when `guard`
holds, with the sign chosen by `z2 - z1`. -/
def thetaRotate (env : Env α) (ind : String) (guard : Bool) (theta z1 z2 : α) :
    List String :=
  if guard then
    if (z2 - z1) ≥ 0 then
      [ ind ++ "rotate <0.0000," ++ env.fmt ((180 * (-1) * theta) / env.PI) ++ ",0.0000>" ]
    else
      [ ind ++ "rotate <0.0000," ++ env.fmt (RAD2DEG env theta) ++ ",0.0000>" ]
  else []

/-- One pass of the loop of `OutputBASBonds`: the object of bond `i`. -/
def basBond (env : Env α) (pfx : String) (i : Nat) (bond : OBBond α) : List String :=
  let g := basGeometry env bond
  let z1 := bond.beginAtom.z
  let z2 := bond.endAtom.z
  [ "#declare " ++ pfx ++ "_bond" ++ toString i ++ " = object \x7b",
    "\t  bond_" ++ toString bond.order ]
    ++ (if |g.dist| ≥ EPSILON then
          [ "\t  scale <" ++ env.fmt g.dist ++ ",1.0000,1.0000>" ] else [])
    ++ (if |RAD2DEG env (-g.phi) + 90| ≥ EPSILON then
          [ "\t  rotate <0.0000,0.0000," ++ env.fmt (RAD2DEG env (-g.phi) + 90) ++ ">" ]
        else [])
    ++ thetaRotate env "\t  " (decide (g.theta ≥ EPSILON)) g.theta z1 z2
    ++ [ "\t  translate " ++ pfx ++ "_pos_" ++ toString bond.beginIdx,
         "\t \x7d" ]

/-- The loop of `OutputBASBonds`, from bond `i` on. -/
def basBondLoop (env : Env α) (pfx : String) : Nat → List (OBBond α) → List String
  | _, [] => []
  | i, bond :: rest => basBond env pfx i bond ++ basBondLoop env pfx (i + 1) rest

/-- `OutputBASBonds`. -/
def OutputBASBonds (env : Env α) (mol : OBMol α) (pfx : String) : List String :=
  basBondLoop env pfx 0 mol.bonds

/-- Lines 526 and 587: the atom type with every `.` erased. -/
def eraseDots (s : String) : String := String.mk (s.data.filter (fun ch => ch != '.'))

/-- Lines 522-580 of `OutputCSTBonds`: the start half of bond `i`. -/
def cstStartHalf (env : Env α) (pfx : String) (bond : OBBond α) : List String :=
  let g := cstGeometry env bond
  let z1 := bond.beginAtom.z
  let z2 := bond.endAtom.z
  [ "\t   object \x7b",
    "\t    bond_" ++ toString bond.order,
    "\t    pigment\x7bcolor Color_" ++ eraseDots bond.beginAtom.type ++ "\x7d" ]
    ++ (if |2 * g.dist| ≥ EPSILON then
          [ "\t    scale <" ++ env.fmt (0.5 * g.dist) ++ ",1.0000,1.0000>" ] else [])
    ++ (if |RAD2DEG env (-g.phi) + 90| ≥ EPSILON then
          [ "\t    rotate <0.0000,0.0000," ++ env.fmt (RAD2DEG env (-g.phi) + 90) ++ ">" ]
        else [])
    ++ thetaRotate env "\t    " (decide (g.theta ≥ EPSILON)) g.theta z1 z2
    ++ [ "\t    translate " ++ pfx ++ "_pos_" ++ toString bond.beginIdx,
         "\t   \x7d" ]

/-- Lines 583-642 of `OutputCSTBonds`: the end half of bond `i`. -/
def cstEndHalf (env : Env α) (pfx : String) (bond : OBBond α) : List String :=
  let g := cstGeometry env bond
  let z1 := bond.beginAtom.z
  let z2 := bond.endAtom.z
  [ "\t   object \x7b",
    "\t    bond_" ++ toString bond.order,
    "\t    pigment\x7bcolor Color_" ++ eraseDots bond.endAtom.type ++ "\x7d" ]
    ++ (if |2 * g.dist| ≥ EPSILON then
          [ "\t    scale <" ++ env.fmt (0.5 * g.dist) ++ ",1.0000,1.0000>" ] else [])
    ++ (if |RAD2DEG env (-g.phi) + 270| ≥ EPSILON then
          [ "\t    rotate <0.0000,0.0000,"
              ++ env.fmt ((RAD2DEG env (-g.phi) + 90) + 180) ++ ">" ]
        else [])
    ++ thetaRotate env "\t    " (decide (|g.theta| ≥ EPSILON)) g.theta z1 z2
    ++ [ "\t    translate " ++ pfx ++ "_pos_" ++ toString bond.endIdx,
         "\t   \x7d" ]

/-- One pass of the loop of `OutputCSTBonds`: the object of bond `i`, a union of
its two halves. -/
def cstBond (env : Env α) (pfx : String) (i : Nat) (bond : OBBond α) : List String :=
  [ "#declare " ++ pfx ++ "_bond" ++ toString i ++ " = object \x7b",
    "\t  union \x7b" ]
    ++ cstStartHalf env pfx bond
    ++ cstEndHalf env pfx bond
    ++ [ "\t  \x7d", "\t \x7d", "" ]

/-- The loop of `OutputCSTBonds`, from bond `i` on. -/
def cstBondLoop (env : Env α) (pfx : String) : Nat → List (OBBond α) → List String
  | _, [] => []
  | i, bond :: rest => cstBond env pfx i bond ++ cstBondLoop env pfx (i + 1) rest

/-- `OutputCSTBonds`. -/
def OutputCSTBonds (env : Env α) (mol : OBMol α) (pfx : String) : List String :=
  cstBondLoop env pfx 0 mol.bonds

/-- Line 666, the loop of `OutputUnions` over the atoms, from atom `i` on; only
the number of atoms is read. -/
def unionAtomLoop (pfx : String) : Nat → Nat → List String
  | _, 0 => []
  | i, n + 1 => ("\t  object\x7b" ++ pfx ++ "_atom" ++ toString i ++ "\x7d")
      :: unionAtomLoop pfx (i + 1) n

/-- Line 685, the loop of `OutputUnions` over the bonds, from bond `i` on. -/
def unionBondLoop (pfx : String) : Nat → Nat → List String
  | _, 0 => []
  | i, n + 1 => ("\t  object\x7b" ++ pfx ++ "_bond" ++ toString i ++ "\x7d")
      :: unionBondLoop pfx (i + 1) n

/-- `OutputUnions`. -/
def OutputUnions (mol : OBMol α) (pfx : String) : List String :=
  [ "",
    "//All atoms of molecule " ++ pfx,
    "#ifdef (TRANS)",
    "#declare " ++ pfx ++ "_atoms = merge \x7b",
    "#else",
    "#declare " ++ pfx ++ "_atoms = union \x7b",
    "#end //(End of TRANS)" ]
    ++ unionAtomLoop pfx 1 mol.NumAtoms
    ++ [ "\t \x7d", "" ]
    ++ (if mol.NumBonds > 0 then
          [ "//Bonds only needed for ball and sticks or capped sticks models",
            "#if (BAS | CST)",
            "#declare " ++ pfx ++ "_bonds = union \x7b" ]
            ++ unionBondLoop pfx 0 mol.NumBonds
            ++ [ "\t \x7d", "#end", "" ]
        else [])

/-- `OutputMoleculeBonds`. -/
def OutputMoleculeBonds (env : Env α) (pfx : String) (b : BoundingBox α) : List String :=
  [ "",
    "//Definition of molecule " ++ pfx,
    "#if (SPF)",
    "#declare " ++ pfx ++ " = object\x7b",
    "\t  " ++ pfx ++ "_atoms",
    "#else",
    "#declare " ++ pfx ++ " = union \x7b",
    "\t  object\x7b" ++ pfx ++ "_atoms\x7d",
    "#if (BAS | CST)//(Not really needed at moment!)",
    "#if (TRANS)",
    "\t  difference \x7b",
    "\t   object\x7b" ++ pfx ++ "_bonds\x7d",
    "\t   object\x7b" ++ pfx ++ "_atoms\x7d",
    "\t  \x7d",
    "#else",
    "\t  object\x7b" ++ pfx ++ "_bonds\x7d",
    "#end //(End of TRANS)",
    "#end //(End of (BAS|CST))",
    "#end //(End of SPF)",
    "//\t  bounded_by \x7b",
    "//\t   box \x7b",
    "//\t    <" ++ env.fmt (b.min_x - MAXRADIUS) ++ "," ++ env.fmt (b.min_y - MAXRADIUS)
      ++ "," ++ env.fmt (b.min_z - MAXRADIUS) ++ ">",
    "//\t    <" ++ env.fmt (b.max_x + MAXRADIUS) ++ "," ++ env.fmt (b.max_y + MAXRADIUS)
      ++ "," ++ env.fmt (b.max_z + MAXRADIUS) ++ ">",
    "\t \x7d",
    "" ]

/-- `OutputMoleculeNoBonds`. -/
def OutputMoleculeNoBonds (pfx : String) : List String :=
  [ "",
    "//Definition of Molecule " ++ pfx ++ " (no bonds)",
    "#declare " ++ pfx ++ " = object \x7b" ++ pfx ++ "_atoms\x7d",
    "" ]

/-- The three components of the vector `OutputCenterComment` declares. -/
def centerVector (b : BoundingBox α) : vector3 α :=
  ⟨(-1) * (b.min_x + b.max_x) / 2, (-1) * (b.min_y + b.max_y) / 2,
   (-1) * (b.min_z + b.max_z) / 2⟩

/-- `OutputCenterComment`. -/
def OutputCenterComment (env : Env α) (pfx : String) (b : BoundingBox α) : List String :=
  [ "//Center of molecule " ++ pfx ++ " (bounding box)",
    "#declare " ++ pfx ++ "_center = <" ++ env.fmt (centerVector b).x ++ ","
      ++ env.fmt (centerVector b).y ++ "," ++ env.fmt (centerVector b).z ++ ">;",
    "" ]

/-- The private members of `PovrayFormat` that `WriteMolecule` sets from the
options. -/
structure PovrayFormat where
  model_type : String
  sky : Bool
  sphere : Bool
  trans_texture : Bool
  checkerboard : Bool

/-- Lines 208-241 of `OutputHeader`: the sky with clouds, or the plain
background. -/
def headerBackground (sky : Bool) : List String :=
  if sky then
    [ "// Add some nice sky with clouds",
      "sky_sphere \x7b",
      "    pigment \x7b",
      "      gradient y",
      "      color_map \x7b",
      "        [0.0 1.0 color SkyBlue  color NavyBlue]",
      "      \x7d",
      "      scale 2",
      "      translate -1",
      "    \x7d",
      "    pigment \x7b",
      "      bozo",
      "      turbulence 0.65",
      "      octaves 6",
      "      omega 0.7",
      "      lambda 2",
      "      color_map \x7b",
      "          [0.0 0.1 color rgb <0.85, 0.85, 0.85>",
      "                   color rgb <0.75, 0.75, 0.75>]",
      "          [0.1 0.5 color rgb <0.75, 0.75, 0.75>",
      "                   color rgbt <1, 1, 1, 1>]",
      "          [0.5 1.0 color rgbt <1, 1, 1, 1>",
      "                   color rgbt <1, 1, 1, 1>]",
      "      \x7d",
      "      scale <0.2, 0.5, 0.2>",
      "    \x7d",
      "    rotate -135*x",
      "  \x7d",
      "" ]
  else
    [ "// set a color of the background (sky)",
      "background \x7b color rgb <0.95 0.95 0.95> \x7d",
      "" ]

/-- Lines 184-206 of `OutputHeader`: comments, global settings, the include of
the colors and the light source; `timestr` is the time string `strftime` filled. -/
def headerTop (env : Env α) (self : PovrayFormat) (timestr : String)
    (centroid : vector3 α) : List String :=
  let trans_tex_setting := if self.trans_texture then "true" else "false"
  [ "//Povray v3 code generated by Open Babel",
    "//Author: Steffen Reith <streit@streit.cc>",
    "//Update (2010): Noel O\x27Boyle and Steven Wathen",
    "//Date: " ++ timestr,
    "",
    "//Set some global parameters for display options",
    "#declare " ++ self.model_type ++ " = true;",
    "#declare TRANS = " ++ trans_tex_setting ++ ";",
    "",
    "#include \"colors.inc\"",
    "",
    "// create a regular point light source",
    "light_source \x7b",
    "  <" ++ env.fmt (centroid.x + 2) ++ "," ++ env.fmt (centroid.y + 3) ++ ","
      ++ env.fmt (centroid.z - 8) ++ ">",
    "  color rgb <1,1,1>    // light\x27s color",
    "\x7d",
    "" ]

/-- Lines 243-248 of `OutputHeader`: the camera. -/
def headerCamera (env : Env α) (centroid : vector3 α) : List String :=
  [ "// perspective (default) camera",
    "camera \x7b",
    "  location  <" ++ env.fmt centroid.x ++ "," ++ env.fmt centroid.y ++ ","
      ++ env.fmt (centroid.z - 10) ++ ">",
    "  look_at   <" ++ env.fmt centroid.x ++ "," ++ env.fmt centroid.y ++ ","
      ++ env.fmt centroid.z ++ ">",
    "  right     x*image_width/image_height",
    "\x7d",
    "" ]

/-- Lines 251-259 of `OutputHeader`: the mirror sphere. -/
def headerSphere (env : Env α) (sphere : Bool) (centroid : vector3 α) : List String :=
  if sphere then
    [ "// a mirror sphere",
      "sphere",
      "\x7b <" ++ env.fmt (centroid.x + 8) ++ "," ++ env.fmt (centroid.y - 4) ++ ","
        ++ env.fmt (centroid.z + 8) ++ ">,4",
      "  pigment \x7b rgb <0,0,0> \x7d // A perfect mirror with no color",
      "  finish \x7b reflection 1 \x7d // It reflects all",
      "\x7d",
      "" ]
  else []

/-- Lines 260-270 of `OutputHeader`: the checkerboard. -/
def headerCheckerboard (env : Env α) (checkerboard : Bool) (centroid : vector3 α) :
    List String :=
  if checkerboard then
    [ "// simple Black on White checkerboard... it\x27s a classic",
      "plane \x7b",
      " -y, " ++ env.fmt (-(centroid.y - 8)),
      " pigment \x7b",
      "  checker color Black color White",
      "  scale 2",
      " \x7d",
      "\x7d",
      "" ]
  else []

/-- Lines 277-287 of `OutputHeader`: the warning for a molecule without bonds. -/
def headerNoBondsWarning (mol : OBMol α) : List String :=
  if mol.NumBonds = 0 then
    [ "#if (BAS | CST)\"",
      "#warning \"Molecule without bonds!\"",
      "#warning \"You should do a spacefill-model\"",
      "#end",
      "" ]
  else []

/-- Lines 289-295 of `OutputHeader`: the version and the name of the molecule. -/
def headerTail (mol : OBMol α) : List String :=
  [ "//Use PovRay3.6",
    "#version 3.6;",
    "",
    "//Print name of molecule while rendering",
    "#render \"\\b\\b " ++ mol.title ++ "\\n\\n\"",
    "" ]

/-- `PovrayFormat::OutputHeader`. -/
def OutputHeader (env : Env α) (self : PovrayFormat) (timestr : String) (mol : OBMol α)
    (_pfx : String) : List String :=
  let centroid := my_center_coords mol.GetCoordinates mol.NumAtoms
  headerTop env self timestr centroid
    ++ headerBackground self.sky
    ++ headerCamera env centroid
    ++ headerSphere env self.sphere centroid
    ++ headerCheckerboard env self.checkerboard centroid
    ++ [ "//Include header for povray",
         "#include \"babel_povray3.inc\"",
         "" ]
    ++ headerNoBondsWarning mol
    ++ headerTail mol

/-! ## `WriteMolecule` -/

/-- The options `WriteMolecule` reads from the conversion object: the value of
`IsOption("m")` (`none` for a null pointer) and whether `t`, `s`, `c`, `f` are
set. -/
structure OBConversion where
  m : Option String
  t : Bool
  s : Bool
  c : Bool
  f : Bool

/-- Line 791: `std::toupper` applied to every character. -/
def toUpperStr (s : String) : String := String.mk (s.data.map Char.toUpper)

/-- Lines 786-796: the model type and whether the warning is logged. -/
def resolveModelType (m : Option String) : String × Bool :=
  match m with
  | none => ("BAS", false)
  | some tmp =>
    let model_type := toUpperStr tmp
    if model_type ≠ "BAS" ∧ model_type ≠ "SPF" ∧ model_type ≠ "CST" then ("BAS", true)
    else (model_type, false)

/-- Lines 786-802: the private members after the options are read. -/
def readOptions (pConv : OBConversion) : PovrayFormat :=
  { model_type := (resolveModelType pConv.m).1
    sky := pConv.s
    sphere := pConv.f
    trans_texture := pConv.t
    checkerboard := pConv.c }

/-- Lines 813-832: the identifier prefix for the molecule number `num`. -/
def molPrefix (num : Nat) : String :=
  let pfx := "mol_" ++ toString num
  if num = 0 then pfx else pfx ++ toString num

/-- Lines 837-862 of `WriteMolecule`: the bond declarations, in both styles,
when the molecule has bonds. -/
def bondDeclarations (env : Env α) (mol : OBMol α) (pfx : String) : List String :=
  if mol.NumBonds > 0 then
    [ "//Povray-description of bonds 1 - " ++ toString mol.NumBonds,
      "#if (BAS)" ]
      ++ OutputBASBonds env mol pfx
      ++ [ "#end //(BAS-Bonds)", "", "#if (CST)" ]
      ++ OutputCSTBonds env mol pfx
      ++ [ "#end // (CST-Bonds)", "" ]
  else []

/-- Lines 870-888 of `WriteMolecule`: the definition of the molecule. -/
def moleculeDefinition (env : Env α) (mol : OBMol α) (pfx : String) : List String :=
  if mol.NumBonds > 0 then OutputMoleculeBonds env pfx (CalcBoundingBox mol)
  else OutputMoleculeNoBonds pfx

/-- Lines 834-899: everything `WriteMolecule` writes after the header. -/
def WriteMoleculeBody (env : Env α) (mol : OBMol α) (pfx : String) : List String :=
  OutputAtoms env mol pfx
    ++ bondDeclarations env mol pfx
    ++ OutputUnions mol pfx
    ++ moleculeDefinition env mol pfx
    ++ OutputCenterComment env pfx (CalcBoundingBox mol)
    ++ [ pfx ]

/-- Lines 785-899: the lines one call of `WriteMolecule` writes for a molecule
when the static counter holds `num`. -/
def WriteMoleculeText (env : Env α) (timestr : String) (pConv : OBConversion)
    (num : Nat) (mol : OBMol α) : List String :=
  (if num = 0 then OutputHeader env (readOptions pConv) timestr mol ("mol_" ++ toString num)
   else [])
    ++ WriteMoleculeBody env mol (molPrefix num)

/-- What a call of `WriteMolecule` can change: the static counter `num`, the
lines of the output stream, and the number of warnings sent to `obErrorLog`. -/
structure World where
  num : Nat
  out : List String
  warnings : Nat

/-- `PovrayFormat::WriteMolecule`; `pOb` is `none` when the dynamic cast to
`OBMol` fails. -/
def WriteMolecule (env : Env α) (timestr : String) (pOb : Option (OBMol α))
    (pConv : OBConversion) (w : World) : Bool × World :=
  match pOb with
  | none => (false, w)
  | some mol =>
    (true,
     { num := w.num + 1
       out := w.out ++ WriteMoleculeText env timestr pConv w.num mol
       warnings := w.warnings + (if (resolveModelType pConv.m).2 then 1 else 0) })

/-! ## Reference functions for the statements -/

/-- The least of `0` and the members of `xs`: `min(0, least coordinate)`. -/
def leastWithZero (xs : List α) : α := xs.foldr min 0

/-- The greatest of `0` and the members of `xs`: `max(0, greatest coordinate)`. -/
def greatestWithZero (xs : List α) : α := xs.foldr max 0

/-- The point `p` lies in the box `b`. -/
def BoundingBox.Contains (b : BoundingBox α) (p : vector3 α) : Prop :=
  b.min_x ≤ p.x ∧ p.x ≤ b.max_x ∧ b.min_y ≤ p.y ∧ p.y ≤ b.max_y
    ∧ b.min_z ≤ p.z ∧ p.z ≤ b.max_z

/-- The position of an atom. -/
def OBAtom.pos (a : OBAtom α) : vector3 α := ⟨a.x, a.y, a.z⟩

/-- The arithmetic mean of the `size` points stored in `c` as
`x0,y0,z0,x1,y1,z1,...`. -/
def meanPoint (c : Nat → α) (size : Nat) : vector3 α :=
  ⟨(∑ i in Finset.range size, c (3 * i)) / (size : α),
   (∑ i in Finset.range size, c (3 * i + 1)) / (size : α),
   (∑ i in Finset.range size, c (3 * i + 2)) / (size : α)⟩

end Numeric

/-! ## Reading the emitted text -/

/-- The characters of a line after its indentation (blanks and tabs). -/
def stripIndent (l : String) : List Char :=
  l.data.dropWhile (fun ch => ch == ' ' || ch == '\t')

/-- The line is a `scale` statement. -/
def isScaleLine (l : String) : Bool := "scale ".data.isPrefixOf (stripIndent l)

/-- The line is a `rotate` statement. -/
def isRotateLine (l : String) : Bool := "rotate ".data.isPrefixOf (stripIndent l)

/-! ### Conditional directives -/

/-- The line opens a conditional block: it starts with `#if` (`#if` or `#ifdef`). -/
def isIfLine (l : String) : Bool := "#if".data.isPrefixOf l.data

/-- The line closes a conditional block: it starts with `#end`. -/
def isEndLine (l : String) : Bool := "#end".data.isPrefixOf l.data

/-- The line neither opens nor closes a conditional block. -/
def isPlainLine (l : String) : Bool := !isIfLine l && !isEndLine l

/-- Reading the lines in order from `d` open conditional blocks: the number of
blocks open at the end, or `none` when an `#end` comes with no block open. -/
def condDepth : Nat → List String → Option Nat
  | d, [] => some d
  | d, l :: ls =>
    if isIfLine l then condDepth (d + 1) ls
    else if isEndLine l then (match d with
      | 0 => none
      | d + 1 => condDepth d ls)
    else condDepth d ls

/-- The conditional directives of a text are well nested: in every initial part
there are at most as many `#end` lines as `#if`/`#ifdef` lines, and in the whole
text as many. -/
def ConditionalsNested (ls : List String) : Prop :=
  (∀ k, (ls.take k).countP isEndLine ≤ (ls.take k).countP isIfLine)
    ∧ ls.countP isEndLine = ls.countP isIfLine

/-! ### Declarations and composites -/

/-- The line starts a declaration: it starts with `#declare `. -/
def isDeclareLine (l : String) : Bool := "#declare ".data.isPrefixOf l.data

/-- The line declares the identifier `name`: it starts with `#declare name `. -/
def declaresName (name : String) (l : String) : Bool :=
  ("#declare " ++ name ++ " ").data.isPrefixOf l.data

/-- The line is a preprocessor line: it starts with `#`. -/
def isHashLine (l : String) : Bool := "#".data.isPrefixOf l.data

/-- The line is an object reference: after its indentation it starts with
`object\x7b`. -/
def isObjectRefLine (l : String) : Bool := "object\x7b".data.isPrefixOf (stripIndent l)

/-- The line opens an inner object: after its indentation it is `object \x7b`. -/
def isObjectOpenLine (l : String) : Bool := stripIndent l == "object \x7b".data

/-- The object references a composite lists: those that follow the declaration
of `name` (the first one, and the preprocessor lines after it). -/
def compositeMembers (name : String) (ls : List String) : List String :=
  ((ls.dropWhile (fun l => !declaresName name l)).dropWhile isHashLine).takeWhile isObjectRefLine

/-- One step of `declareBlocks`, reading the lines from the last to the first:
the lines of the block being read, and the blocks read. -/
def blockStep (l : String) (acc : List String × List (List String)) :
    List String × List (List String) :=
  if isDeclareLine l then ([], (l :: acc.1) :: acc.2) else (l :: acc.1, acc.2)

/-- The declarations of a text: each block starts at a `#declare` line and runs
to the line before the next one. -/
def declareBlocks (ls : List String) : List (List String) :=
  (ls.foldr blockStep ([], [])).2

/-! ### Declaration before use -/

/-- The identifier `id` is one generated for the molecule: it starts with the
prefix `pfx`. -/
def Generated (pfx id : String) : Prop := pfx.data <+: id.data

/-- The line `l` uses the identifier `id`: after its indentation it is
`translate id`, or `object\x7bid\x7d`, or `id` alone; or it is the definition of
the molecule as `object \x7bid\x7d`. -/
def UsesIdent (pfx id l : String) : Prop :=
  stripIndent l = ("translate " ++ id).data
    ∨ stripIndent l = ("object\x7b" ++ id ++ "\x7d").data
    ∨ stripIndent l = id.data
    ∨ l = "#declare " ++ pfx ++ " = object \x7b" ++ id ++ "\x7d"

/-- A line of `ctx` declares the identifier `id`. -/
def Declared (ctx : List String) (id : String) : Prop :=
  ∃ d, d ∈ ctx ∧ declaresName id d = true

/-- Every use of a generated identifier in `ls` comes after a line of `ctx` or
an earlier line of `ls` that declares it. -/
def ScopedIn (pfx : String) (ctx ls : List String) : Prop :=
  ∀ (pre : List String) (l : String) (post : List String) (id : String),
    ls = pre ++ l :: post → Generated pfx id → UsesIdent pfx id l → Declared (ctx ++ pre) id

/-- Every use of a generated identifier in the text comes after its own
`#declare`: an earlier line of the text declares it. -/
def DeclaredBeforeUse (pfx : String) (ls : List String) : Prop :=
  ∀ (pre : List String) (l : String) (post : List String) (id : String),
    ls = pre ++ l :: post → Generated pfx id → UsesIdent pfx id l → Declared pre id

/-- The begin and end atom indices of every bond are in `1..N`. -/
def BondIndicesValid {α : Type} (mol : OBMol α) : Prop :=
  ∀ b ∈ mol.bonds, (1 ≤ b.beginIdx ∧ b.beginIdx ≤ mol.NumAtoms)
    ∧ (1 ≤ b.endIdx ∧ b.endIdx ≤ mol.NumAtoms)

/-- The line after its indentation starts with `translate mol_`. -/
def isTranslateMolLine (l : String) : Bool :=
  "translate mol_".data.isPrefixOf (stripIndent l)

/-- The line after its indentation starts with `object\x7bmol_`. -/
def isObjectMolLine (l : String) : Bool := "object\x7bmol_".data.isPrefixOf (stripIndent l)

/-- The line after its indentation starts with `mol_`. -/
def isMolLine (l : String) : Bool := "mol_".data.isPrefixOf (stripIndent l)

/-- The line starts as the definition of the molecule as an object does. -/
def isMolObjectLine (pfx l : String) : Bool :=
  ("#declare " ++ pfx ++ " = object \x7b").data.isPrefixOf l.data

/-- The line has none of the shapes of a use of an identifier that starts with
`mol_`. -/
def isQuietLine (pfx l : String) : Bool :=
  !isTranslateMolLine l && !isObjectMolLine l && !isMolLine l && !isMolObjectLine pfx l

/-! ### Selection by the flags, and braces -/

/-- A truth assignment to the flags the conditionals of the text test, and
whether the identifier `TRANS` is declared at all, which is what `#ifdef` asks. -/
structure Flags where
  SPF : Bool
  BAS : Bool
  CST : Bool
  TRANS : Bool
  definedTRANS : Bool

/-- The line switches to the other branch of a conditional block: it starts
with `#else`. -/
def isElseLine (l : String) : Bool := "#else".data.isPrefixOf l.data

/-- The line is a comment: it starts with `//`. -/
def isCommentLine (l : String) : Bool := "//".data.isPrefixOf l.data

/-- The value of the condition of an `#if`/`#ifdef` line under the flags; an
`#if` takes the truth value of the flags it names, `#ifdef (TRANS)` holds when
`TRANS` is declared, whatever its value. -/
def evalCond (f : Flags) (l : String) : Bool :=
  if "#ifdef (TRANS)".data.isPrefixOf l.data then f.definedTRANS
  else if "#if (BAS | CST)".data.isPrefixOf l.data then f.BAS || f.CST
  else if "#if (BAS)".data.isPrefixOf l.data then f.BAS
  else if "#if (CST)".data.isPrefixOf l.data then f.CST
  else if "#if (SPF)".data.isPrefixOf l.data then f.SPF
  else if "#if (TRANS)".data.isPrefixOf l.data then f.TRANS
  else false

/-- The open conditional blocks, innermost first: for each, whether the lines
around it are selected, and whether its current branch is taken. -/
abbrev CondStack := List (Bool × Bool)

/-- The lines at this point are selected. -/
def stackActive : CondStack → Bool
  | [] => true
  | (outer, taken) :: _ => outer && taken

/-- The stack after one line. -/
def stackStep (f : Flags) (st : CondStack) (l : String) : CondStack :=
  if isIfLine l then (stackActive st, evalCond f l) :: st
  else if isElseLine l then
    (match st with
      | [] => []
      | (outer, taken) :: rest => (outer, !taken) :: rest)
  else if isEndLine l then st.tail
  else st

/-- The line is a conditional directive. -/
def isDirective (l : String) : Bool := isIfLine l || isElseLine l || isEndLine l

/-- The lines the flags select: the directives are resolved and dropped, the
lines of the branches not taken are dropped. -/
def selectLines (f : Flags) : CondStack → List String → List String
  | _, [] => []
  | st, l :: ls =>
    if isDirective l then selectLines f (stackStep f st l) ls
    else if stackActive st then l :: selectLines f st ls
    else selectLines f st ls

/-- The stack after the lines. -/
def stackAfter (f : Flags) (st : CondStack) (ls : List String) : CondStack :=
  ls.foldl (stackStep f) st

/-- The depth of open braces after one character; `none` when a closing brace
comes with none open. -/
def braceStep (d : Option Nat) (c : Char) : Option Nat :=
  match d with
  | none => none
  | some n =>
    if c = '\x7b' then some (n + 1)
    else if c = '\x7d' then (match n with
      | 0 => none
      | k + 1 => some k)
    else some n

/-- The depth of open braces after the characters `cs`, from the depth `d`. -/
def braceDepth (d : Option Nat) (cs : List Char) : Option Nat := cs.foldl braceStep d

/-- The depth of open braces after the lines that are not comments. -/
def textDepth (d : Option Nat) (ls : List String) : Option Nat :=
  (ls.filter (fun l => !isCommentLine l)).foldl (fun e l => braceDepth e l.data) d

/-- The braces of the lines that are not comments are balanced and properly
nested: no closing brace comes with none open, and none stays open. -/
def BracesBalanced (ls : List String) : Prop := textDepth (some 0) ls = some 0

/-- The string contains no brace. -/
def NoBrace (s : String) : Prop := ∀ c ∈ s.data, c ≠ '\x7b' ∧ c ≠ '\x7d'

/-- The element symbols and the atom types of the molecule contain no brace. -/
def MolBraceFree {α : Type} (mol : OBMol α) : Prop :=
  (∀ a ∈ mol.atoms, NoBrace a.symbol ∧ NoBrace a.type)
    ∧ (∀ b ∈ mol.bonds, NoBrace b.beginAtom.type ∧ NoBrace b.endAtom.type)

/-- Read at the top level, the lines `ls` leave no conditional block open, and
the lines the flags select take every brace depth `n + a` to `n + b`. -/
def SectionEffect (f : Flags) (ls : List String) (a b : Nat) : Prop :=
  stackAfter f [] ls = []
    ∧ ∀ n, textDepth (some (n + a)) (selectLines f [] ls) = some (n + b)

/-! ## Sample inputs -/

section Samples

variable {α : Type} [LinearOrderedField α]

/-- A carbon atom at `(x,y,z)`. -/
def carbonAt (x y z : α) : OBAtom α := ⟨x, y, z, "C", "C3"⟩

/-- A single bond from atom 1 at the origin to atom 2 at `(x,y,z)`. -/
def bondFromOrigin (x y z : α) : OBBond α := ⟨carbonAt 0 0 0, carbonAt x y z, 1, 2, 1⟩

end Samples

/-- A concrete environment over `ℚ`, for evaluating the emitters on sample
inputs: `sqrt` is the integer square root of numerator times denominator over
the denominator, `acos` the chord through `acos 1 = 0` and `acos (-1) = PI`, and
a number is written as its numerator, `/`, and its denominator. -/
def sampleEnv : Env ℚ where
  sqrt := fun q => (Nat.sqrt (q.num.toNat * q.den) : ℚ) / q.den
  acos := fun q => (1 - q) * PI_default / 2
  PI := PI_default
  fmt := fun q => (if q < 0 then "-" else "") ++ toString q.num.natAbs ++ "/" ++ toString q.den

/-- A molecule of two carbon atoms joined by a single bond. -/
def sampleMol : OBMol ℚ :=
  ⟨[carbonAt 0 0 0, carbonAt 1 2 (-1)], [bondFromOrigin 1 2 (-1)], "sample"⟩

/-- No option set. -/
def noOptions : OBConversion := ⟨none, false, false, false, false⟩

/-! ## The bond objects as the specification describes them -/

section BondObjectSpec

variable {α : Type} [LinearOrderedField α]

/-- The rotation about the y axis as the specification describes it: present
when `theta` reaches the tolerance, by `-theta` (in degrees) when `z2 - z1 ≥ 0`
and by `+theta` (in degrees) otherwise; `ind` is the indentation. -/
def yRotateSpec (env : Env α) (ind : String) (theta z1 z2 : α) : List String :=
  if theta ≥ EPSILON then
    [ if z2 - z1 ≥ 0 then ind ++ "rotate <0.0000," ++ env.fmt (RAD2DEG env (-theta)) ++ ",0.0000>"
      else ind ++ "rotate <0.0000," ++ env.fmt (RAD2DEG env theta) ++ ",0.0000>" ]
  else []

/-- The rotation about the z axis by `a` degrees, present when `|a|` reaches the
tolerance; `ind` is the indentation. -/
def zRotateSpec (env : Env α) (ind : String) (a : α) : List String :=
  if |a| ≥ EPSILON then [ ind ++ "rotate <0.0000,0.0000," ++ env.fmt a ++ ">" ] else []

/-- The ball-and-stick object of bond `i` as the specification describes it: the
primitive for the bond order, the scale by `dist` when `dist` reaches the
tolerance, the rotation about z by `RAD2DEG(-phi)+90`, the rotation about y, and
the translate to the position of the begin atom. -/
def basBondSpec (env : Env α) (pfx : String) (i : Nat) (bond : OBBond α) : List String :=
  let g := basGeometry env bond
  [ "#declare " ++ pfx ++ "_bond" ++ toString i ++ " = object \x7b",
    "\t  bond_" ++ toString bond.order ]
    ++ (if g.dist ≥ EPSILON then
          [ "\t  scale <" ++ env.fmt g.dist ++ ",1.0000,1.0000>" ] else [])
    ++ zRotateSpec env "\t  " (RAD2DEG env (-g.phi) + 90)
    ++ yRotateSpec env "\t  " g.theta bond.beginAtom.z bond.endAtom.z
    ++ [ "\t  translate " ++ pfx ++ "_pos_" ++ toString bond.beginIdx,
         "\t \x7d" ]

/-- The scale of a capped-sticks half as the specification describes it: along x
by `dist/2`. -/
def cstScaleSpec (env : Env α) (dist : α) : List String :=
  if |2 * dist| ≥ EPSILON then
    [ "\t    scale <" ++ env.fmt (dist / 2) ++ ",1.0000,1.0000>" ] else []

/-- A half object of the capped-sticks style: the primitive for the bond order,
the pigment of the atom type `type`, the given scale and rotations, and the
translate to the position of atom `idx`. -/
def cstHalfSpec (pfx : String) (order : Nat) (type : String)
    (scalePart zRotate yRotate : List String) (idx : Nat) : List String :=
  [ "\t   object \x7b",
    "\t    bond_" ++ toString order,
    "\t    pigment\x7bcolor Color_" ++ eraseDots type ++ "\x7d" ]
    ++ scalePart ++ zRotate ++ yRotate
    ++ [ "\t    translate " ++ pfx ++ "_pos_" ++ toString idx,
         "\t   \x7d" ]

end BondObjectSpec

/-! ### Pigments, prefixes and the guard of the atoms composite -/

/-- The name after `Color_` in a pigment line `pigment\x7bcolor Color_<name>\x7d`;
`none` for any other line. -/
def colorName? (l : String) : Option String :=
  if "pigment\x7bcolor Color_".data.isPrefixOf (stripIndent l) then
    some (String.mk ((stripIndent l).drop 20).dropLast)
  else none

/-- The number a string of decimal digits stands for. -/
def decimalValue (cs : List Char) : Nat :=
  cs.foldl (fun a c => 10 * a + (c.toNat - 48)) 0

/-- The line is the first line of the header. -/
def isHeaderLine (l : String) : Bool := "//Povray v3".data.isPrefixOf l.data

/-- How the renderer resolves `#ifdef (name)` at a point of the document: the
identifier is defined when a line read before declares it, whatever its value. -/
def ifdefHolds (before : List String) (name : String) : Bool :=
  before.any (declaresName name)

/-- One call of `WriteMolecule` on a molecule: the time string of the call, the
options and the molecule. -/
structure MolCall (α : Type) where
  timestr : String
  pConv : OBConversion
  mol : OBMol α

/-- The calls of `WriteMolecule` on the molecules `calls`, one after the other. -/
def writeAll {α : Type} [LinearOrderedField α] (env : Env α) :
    List (MolCall α) → World → World
  | [], w => w
  | c :: cs, w => writeAll env cs (WriteMolecule env c.timestr (some c.mol) c.pConv w).2

/-- A bond between an atom of type `C.3` and an atom of type `C3`. -/
def dottedBond : OBBond ℚ := ⟨⟨0, 0, 0, "C", "C.3"⟩, ⟨1, 0, 0, "C", "C3"⟩, 1, 2, 1⟩

/-! ### The molecule definition and the text of a molecule without bonds -/

section MoleculeDefinitionParts

variable {α : Type} [LinearOrderedField α]

/-- Lines 737-750 of `OutputMoleculeBonds`: the comment with the bounding box,
the closing brace of the definition and the empty line, written after the
conditionals. -/
def moleculeTail (env : Env α) (b : BoundingBox α) : List String :=
  [ "//\t  bounded_by \x7b",
    "//\t   box \x7b",
    "//\t    <" ++ env.fmt (b.min_x - MAXRADIUS) ++ "," ++ env.fmt (b.min_y - MAXRADIUS)
      ++ "," ++ env.fmt (b.min_z - MAXRADIUS) ++ ">",
    "//\t    <" ++ env.fmt (b.max_x + MAXRADIUS) ++ "," ++ env.fmt (b.max_y + MAXRADIUS)
      ++ "," ++ env.fmt (b.max_z + MAXRADIUS) ++ ">",
    "\t \x7d",
    "" ]

end MoleculeDefinitionParts

/-- The line declares a bond identifier of the molecule: it starts with
`#declare <pfx>_bond` (a bond object `<pfx>_bond<i>` or the union `<pfx>_bonds`). -/
def isBondDeclLine (pfx l : String) : Bool :=
  ("#declare " ++ pfx ++ "_bond").data.isPrefixOf l.data

/-- The line opens a block of bond declarations: it starts with `#if (BAS)` or
with `#if (CST)`. -/
def isBondBlockLine (l : String) : Bool :=
  "#if (BAS)".data.isPrefixOf l.data || "#if (CST)".data.isPrefixOf l.data

/-- The line is a warning directive: it starts with `#warning`. -/
def isWarningLine (l : String) : Bool := "#warning".data.isPrefixOf l.data

/-- The line neither declares a bond identifier, nor opens a block of bond
declarations, nor declares the identifier `pfx` itself. -/
def isOtherLine (pfx l : String) : Bool :=
  !isBondDeclLine pfx l && !isBondBlockLine l && !declaresName pfx l

/-! # Theorems -/

section BoundingBoxProofs

variable {α : Type} [LinearOrderedField α]

theorem foldr_min_init (a m : α) (l : List α) :
    l.foldr min (min a m) = min a (l.foldr min m) := by
  induction l with
  | nil => rfl
  | cons b l ih => simp only [List.foldr_cons, ih, min_left_comm]

theorem foldr_max_init (a m : α) (l : List α) :
    l.foldr max (max a m) = max a (l.foldr max m) := by
  induction l with
  | nil => rfl
  | cons b l ih => simp only [List.foldr_cons, ih, max_left_comm]

theorem ite_lt_eq_min (a m : α) : (if a < m then a else m) = min a m := by
  split_ifs with h
  · exact (min_eq_left h.le).symm
  · exact (min_eq_right (not_lt.mp h)).symm

theorem ite_gt_eq_max (a m : α) : (if a > m then a else m) = max a m := by
  split_ifs with h
  · exact (max_eq_left (le_of_lt h)).symm
  · exact (max_eq_right (not_lt.mp h)).symm

theorem boxStep_eq (b : BoundingBox α) (a : OBAtom α) :
    boxStep b a = ⟨min a.x b.min_x, max a.x b.max_x, min a.y b.min_y, max a.y b.max_y,
      min a.z b.min_z, max a.z b.max_z⟩ := by
  simp only [boxStep, ite_lt_eq_min, ite_gt_eq_max]

theorem foldl_boxStep (l : List (OBAtom α)) (b : BoundingBox α) :
    l.foldl boxStep b =
      ⟨(l.map (·.x)).foldr min b.min_x, (l.map (·.x)).foldr max b.max_x,
       (l.map (·.y)).foldr min b.min_y, (l.map (·.y)).foldr max b.max_y,
       (l.map (·.z)).foldr min b.min_z, (l.map (·.z)).foldr max b.max_z⟩ := by
  induction l generalizing b with
  | nil => rfl
  | cons a l ih =>
    simp only [List.foldl_cons, ih, boxStep_eq, List.map_cons, List.foldr_cons,
      foldr_min_init, foldr_max_init]

theorem leastWithZero_le_zero (xs : List α) : leastWithZero xs ≤ 0 := by
  induction xs with
  | nil => exact le_refl _
  | cons a l ih => exact le_trans (min_le_right _ _) ih

theorem zero_le_greatestWithZero (xs : List α) : 0 ≤ greatestWithZero xs := by
  induction xs with
  | nil => exact le_refl _
  | cons a l ih => exact le_trans ih (le_max_right _ _)

theorem leastWithZero_le_mem (xs : List α) (x : α) (h : x ∈ xs) : leastWithZero xs ≤ x := by
  induction xs with
  | nil => cases h
  | cons a l ih =>
    rcases List.mem_cons.mp h with rfl | h
    · exact min_le_left _ _
    · exact le_trans (min_le_right _ _) (ih h)

theorem mem_le_greatestWithZero (xs : List α) (x : α) (h : x ∈ xs) :
    x ≤ greatestWithZero xs := by
  induction xs with
  | nil => cases h
  | cons a l ih =>
    rcases List.mem_cons.mp h with rfl | h
    · exact le_max_left _ _
    · exact le_trans (ih h) (le_max_right _ _)

theorem CalcBoundingBox_eq (mol : OBMol α) :
    CalcBoundingBox mol =
      ⟨leastWithZero (mol.atoms.map (·.x)), greatestWithZero (mol.atoms.map (·.x)),
       leastWithZero (mol.atoms.map (·.y)), greatestWithZero (mol.atoms.map (·.y)),
       leastWithZero (mol.atoms.map (·.z)), greatestWithZero (mol.atoms.map (·.z))⟩ := by
  simp only [CalcBoundingBox, foldl_boxStep, leastWithZero, greatestWithZero]

/-- C5: for every sequence of atoms, empty or not, `CalcBoundingBox` returns on
each axis `min(0, least atom coordinate)` and `max(0, greatest atom coordinate)`;
so the box contains the origin and every atom, and for the empty atom set all
six values are `0`. -/
theorem C5_CalcBoundingBox_smallest_box_with_origin (mol : OBMol α) :
    ((CalcBoundingBox mol).min_x = leastWithZero (mol.atoms.map (·.x))
      ∧ (CalcBoundingBox mol).max_x = greatestWithZero (mol.atoms.map (·.x))
      ∧ (CalcBoundingBox mol).min_y = leastWithZero (mol.atoms.map (·.y))
      ∧ (CalcBoundingBox mol).max_y = greatestWithZero (mol.atoms.map (·.y))
      ∧ (CalcBoundingBox mol).min_z = leastWithZero (mol.atoms.map (·.z))
      ∧ (CalcBoundingBox mol).max_z = greatestWithZero (mol.atoms.map (·.z)))
    ∧ (CalcBoundingBox mol).Contains VZero
    ∧ (∀ a ∈ mol.atoms, (CalcBoundingBox mol).Contains a.pos)
    ∧ (mol.atoms = [] → CalcBoundingBox mol = ⟨0, 0, 0, 0, 0, 0⟩) := by
  rw [CalcBoundingBox_eq]
  refine ⟨⟨rfl, rfl, rfl, rfl, rfl, rfl⟩, ?_, ?_, ?_⟩
  · exact ⟨leastWithZero_le_zero _, zero_le_greatestWithZero _, leastWithZero_le_zero _,
      zero_le_greatestWithZero _, leastWithZero_le_zero _, zero_le_greatestWithZero _⟩
  · intro a ha
    exact ⟨leastWithZero_le_mem _ _ (List.mem_map_of_mem _ ha),
      mem_le_greatestWithZero _ _ (List.mem_map_of_mem _ ha),
      leastWithZero_le_mem _ _ (List.mem_map_of_mem _ ha),
      mem_le_greatestWithZero _ _ (List.mem_map_of_mem _ ha),
      leastWithZero_le_mem _ _ (List.mem_map_of_mem _ ha),
      mem_le_greatestWithZero _ _ (List.mem_map_of_mem _ ha)⟩
  · intro h
    simp [h, leastWithZero, greatestWithZero]

end BoundingBoxProofs

section SingleAtomBox

/-- C6, as stated, fails: for the single atom at `(2,-1,5)` the box is not
`(0,0,0)-(2,0,5)`; the returned `min_y` is `-1`. -/
theorem C6_single_atom_box_counterexample :
    ¬ ((CalcBoundingBox (⟨[⟨2, -1, 5, "C", "C3"⟩], [], ""⟩ : OBMol ℚ)).min_x = 0
      ∧ (CalcBoundingBox (⟨[⟨2, -1, 5, "C", "C3"⟩], [], ""⟩ : OBMol ℚ)).min_y = 0
      ∧ (CalcBoundingBox (⟨[⟨2, -1, 5, "C", "C3"⟩], [], ""⟩ : OBMol ℚ)).min_z = 0
      ∧ (CalcBoundingBox (⟨[⟨2, -1, 5, "C", "C3"⟩], [], ""⟩ : OBMol ℚ)).max_x = 2
      ∧ (CalcBoundingBox (⟨[⟨2, -1, 5, "C", "C3"⟩], [], ""⟩ : OBMol ℚ)).max_y = 0
      ∧ (CalcBoundingBox (⟨[⟨2, -1, 5, "C", "C3"⟩], [], ""⟩ : OBMol ℚ)).max_z = 5) := by
  rintro ⟨-, h, -⟩
  rw [CalcBoundingBox_eq] at h
  norm_num [leastWithZero] at h

/-- C6, amended: for a molecule consisting of a single atom at `(2,-1,5)`,
`CalcBoundingBox` returns the box `(0,-1,0)-(2,0,5)`: `min_x = 0`, `min_y = -1`,
`min_z = 0`, `max_x = 2`, `max_y = 0`, `max_z = 5`. -/
theorem C6_single_atom_box {α : Type} [LinearOrderedField α] (symbol type title : String)
    (bonds : List (OBBond α)) :
    CalcBoundingBox (⟨[⟨2, -1, 5, symbol, type⟩], bonds, title⟩ : OBMol α)
      = ⟨0, 2, -1, 0, 0, 5⟩ := by
  rw [CalcBoundingBox_eq]
  simp [leastWithZero, greatestWithZero]

end SingleAtomBox

section CentroidProofs

variable {α : Type} [LinearOrderedField α]

theorem foldl_centerStep (c : Nat → α) (n : Nat) (h : 3 * n ≤ UINT_MOD) :
    (List.range n).foldl (centerStep c) (0, 0, 0)
      = (∑ i in Finset.range n, c (3 * i), ∑ i in Finset.range n, c (3 * i + 1),
         ∑ i in Finset.range n, c (3 * i + 2)) := by
  induction n with
  | zero => rfl
  | succ n ih =>
    have hn : 3 * n ≤ UINT_MOD := by omega
    have h0 : (n * 3) % UINT_MOD = 3 * n := by
      rw [Nat.mod_eq_of_lt (by omega)]; omega
    have h1 : (n * 3 + 1) % UINT_MOD = 3 * n + 1 := by
      rw [Nat.mod_eq_of_lt (by omega)]; omega
    have h2 : (n * 3 + 2) % UINT_MOD = 3 * n + 2 := by
      rw [Nat.mod_eq_of_lt (by omega)]; omega
    rw [List.range_succ, List.foldl_append, ih hn]
    simp only [List.foldl_cons, List.foldl_nil, centerStep, h0, h1, h2, Finset.sum_range_succ]

/-- C7: `my_center_coords` returns the zero vector when `size = 0`, and otherwise
the point whose coordinates are the sums of the coordinates of the `size` points
divided by `size`; the array holds at most as many points as the `unsigned int`
indices `i*3+2` can address. -/
theorem C7_my_center_coords_mean (c : Nat → α) (size : Nat) (h : 3 * size ≤ UINT_MOD) :
    (size = 0 → my_center_coords c size = VZero)
    ∧ (size ≠ 0 → my_center_coords c size = meanPoint c size) := by
  constructor
  · intro h0
    simp [my_center_coords, h0]
  · intro h0
    simp only [my_center_coords, h0, if_false, foldl_centerStep c size h, meanPoint]

/-- C7 at a concrete array: the two points `(0,1,2)` and `(3,4,5)`. -/
theorem C7_my_center_coords_mean_witness :
    3 * 2 ≤ UINT_MOD
    ∧ ((2 = 0 → my_center_coords (fun k => (k : ℚ)) 2 = VZero)
      ∧ (2 ≠ 0 → my_center_coords (fun k => (k : ℚ)) 2 = meanPoint (fun k => (k : ℚ)) 2)) :=
  ⟨by decide, C7_my_center_coords_mean _ 2 (by decide)⟩

end CentroidProofs

section BondGeometryProofs

/-- C8: both emitters compute the same geometry, and on the bond from the origin
to `(0,0,1e-4)`, where `dist` and `dy` are exactly the tolerance `1e-4`, they
take the `acos` branch: `phi` and `theta` are `pi/2`, not `0`. -/
theorem C8_angles_at_tolerance_boundary (fmt : ℝ → String) :
    (∀ bond : OBBond ℝ, cstGeometry ⟨Real.sqrt, Real.arccos, Real.pi, fmt⟩ bond
        = basGeometry ⟨Real.sqrt, Real.arccos, Real.pi, fmt⟩ bond)
    ∧ (basGeometry ⟨Real.sqrt, Real.arccos, Real.pi, fmt⟩
        (bondFromOrigin 0 0 (1 / 10000))).dist = EPSILON
    ∧ (basGeometry ⟨Real.sqrt, Real.arccos, Real.pi, fmt⟩
        (bondFromOrigin 0 0 (1 / 10000))).dy = EPSILON
    ∧ (basGeometry ⟨Real.sqrt, Real.arccos, Real.pi, fmt⟩
        (bondFromOrigin 0 0 (1 / 10000))).phi = Real.pi / 2
    ∧ (basGeometry ⟨Real.sqrt, Real.arccos, Real.pi, fmt⟩
        (bondFromOrigin 0 0 (1 / 10000))).theta = Real.pi / 2
    ∧ (basGeometry ⟨Real.sqrt, Real.arccos, Real.pi, fmt⟩
        (bondFromOrigin 0 0 (1 / 10000))).phi ≠ 0
    ∧ (basGeometry ⟨Real.sqrt, Real.arccos, Real.pi, fmt⟩
        (bondFromOrigin 0 0 (1 / 10000))).theta ≠ 0 := by
  have hs : Real.sqrt ((10000 : ℝ)⁻¹ * 10000⁻¹) = 10000⁻¹ :=
    Real.sqrt_mul_self (by norm_num)
  have habs : (10000 : ℝ)⁻¹ ≤ |(10000 : ℝ)⁻¹| := le_abs_self _
  have hpi : ¬ Real.pi = 0 := Real.pi_pos.ne.symm
  refine ⟨fun _ => rfl, ?_, ?_, ?_, ?_, ?_, ?_⟩ <;>
    simp [basGeometry, bondFromOrigin, carbonAt, SQUARE, EPSILON, hs, habs, hpi]

end BondGeometryProofs

section DegenerateBondProofs

theorem cstGeometry_along_x (acos : ℝ → ℝ) (PI : ℝ) (fmt : ℝ → String) (x : ℝ)
    (h0 : 0 ≤ x) (h1 : x < 1 / 10000) :
    cstGeometry ⟨Real.sqrt, acos, PI, fmt⟩ (bondFromOrigin x 0 0) = ⟨x, x, 0, 0⟩ := by
  have habs : ¬ (10000 : ℝ)⁻¹ ≤ |x| := by
    rw [abs_of_nonneg h0]; intro h; linarith
  simp [cstGeometry, bondFromOrigin, carbonAt, SQUARE, EPSILON, Real.sqrt_mul_self h0, habs]

theorem basGeometry_zero_length (acos : ℝ → ℝ) (PI : ℝ) (fmt : ℝ → String) (bond : OBBond ℝ)
    (hx : bond.endAtom.x = bond.beginAtom.x) (hy : bond.endAtom.y = bond.beginAtom.y)
    (hz : bond.endAtom.z = bond.beginAtom.z) :
    basGeometry ⟨Real.sqrt, acos, PI, fmt⟩ bond = ⟨0, 0, 0, 0⟩ := by
  simp [basGeometry, SQUARE, EPSILON, hx, hy, hz]

/-- C9: on the bond from the origin to `(0.00006,0,0)`, whose length is below
the tolerance `1e-4`, `phi` and `theta` are `0`, yet both half objects written by
`OutputCSTBonds` contain a scale statement, because the guard tests `2*dist`. -/
theorem C9_capped_sticks_scale_below_tolerance (fmt : ℝ → String) (pfx : String) :
    (cstGeometry ⟨Real.sqrt, Real.arccos, Real.pi, fmt⟩ (bondFromOrigin (3 / 50000) 0 0)).dist
        < EPSILON
    ∧ (cstGeometry ⟨Real.sqrt, Real.arccos, Real.pi, fmt⟩ (bondFromOrigin (3 / 50000) 0 0)).phi
        = 0
    ∧ (cstGeometry ⟨Real.sqrt, Real.arccos, Real.pi, fmt⟩
        (bondFromOrigin (3 / 50000) 0 0)).theta = 0
    ∧ ("\t    scale <" ++ fmt (3 / 100000) ++ ",1.0000,1.0000>")
        ∈ cstStartHalf ⟨Real.sqrt, Real.arccos, Real.pi, fmt⟩ pfx (bondFromOrigin (3 / 50000) 0 0)
    ∧ ("\t    scale <" ++ fmt (3 / 100000) ++ ",1.0000,1.0000>")
        ∈ cstEndHalf ⟨Real.sqrt, Real.arccos, Real.pi, fmt⟩ pfx (bondFromOrigin (3 / 50000) 0 0)
    ∧ isScaleLine ("\t    scale <" ++ fmt (3 / 100000) ++ ",1.0000,1.0000>") = true := by
  have hg := cstGeometry_along_x Real.arccos Real.pi fmt (3 / 50000) (by norm_num) (by norm_num)
  have h2 : |2 * (3 / 50000 : ℝ)| ≥ EPSILON := by
    rw [abs_of_nonneg (by norm_num)]; norm_num [EPSILON]
  have h3 : (0.5 : ℝ) * (3 / 50000) = 3 / 100000 := by norm_num
  refine ⟨?_, ?_, ?_, ?_, ?_, ?_⟩
  · rw [hg]; norm_num [EPSILON]
  · rw [hg]
  · rw [hg]
  · simp only [cstStartHalf, hg, if_pos h2, h3]
    simp
  · simp only [cstEndHalf, hg, if_pos h2, h3]
    simp
  · simp [isScaleLine, stripIndent, List.dropWhile, List.isPrefixOf]

/-- C10, as stated, fails: for the zero-length bond at the origin the object
written by `OutputBASBonds` contains a rotate statement (the number `90` being
written as `90`). -/
theorem C10_zero_length_bond_counterexample :
    "\t  rotate <0.0000,0.0000,90>"
        ∈ basBond ⟨Real.sqrt, Real.arccos, Real.pi, fun _ => "90"⟩ "mol_0" 0
            (bondFromOrigin 0 0 0)
    ∧ isRotateLine "\t  rotate <0.0000,0.0000,90>" = true := by
  have hg := basGeometry_zero_length Real.arccos Real.pi (fun _ => "90") (bondFromOrigin 0 0 0)
    rfl rfl rfl
  have h90 : |RAD2DEG ⟨Real.sqrt, Real.arccos, Real.pi, fun _ => "90"⟩ (-0) + 90| ≥ EPSILON := by
    norm_num [RAD2DEG, EPSILON]
  constructor
  · simp only [basBond, hg, if_pos h90]
    simp
  · simp [isRotateLine, stripIndent, List.dropWhile, List.isPrefixOf]

/-- C10, amended: for every zero-length bond the object written by
`OutputBASBonds` has no scale statement and no rotation about the y axis, but it
does have the rotation about the z axis, by `RAD2DEG(-0)+90 = 90` degrees,
between the bond primitive and the translate to the begin atom. -/
theorem C10_zero_length_bond_object (acos : ℝ → ℝ) (PI : ℝ) (fmt : ℝ → String)
    (pfx : String) (i : Nat) (bond : OBBond ℝ)
    (hx : bond.endAtom.x = bond.beginAtom.x) (hy : bond.endAtom.y = bond.beginAtom.y)
    (hz : bond.endAtom.z = bond.beginAtom.z) :
    basBond ⟨Real.sqrt, acos, PI, fmt⟩ pfx i bond
      = [ "#declare " ++ pfx ++ "_bond" ++ toString i ++ " = object \x7b",
          "\t  bond_" ++ toString bond.order,
          "\t  rotate <0.0000,0.0000," ++ fmt 90 ++ ">",
          "\t  translate " ++ pfx ++ "_pos_" ++ toString bond.beginIdx,
          "\t \x7d" ]
    ∧ (basBond ⟨Real.sqrt, acos, PI, fmt⟩ pfx i bond).filter isScaleLine = []
    ∧ (basBond ⟨Real.sqrt, acos, PI, fmt⟩ pfx i bond).filter isRotateLine
        = [ "\t  rotate <0.0000,0.0000," ++ fmt 90 ++ ">" ] := by
  have hg := basGeometry_zero_length acos PI fmt bond hx hy hz
  have h90 : RAD2DEG ⟨Real.sqrt, acos, PI, fmt⟩ (-0) + 90 = 90 := by
    simp [RAD2DEG]
  have hguard : |(90 : ℝ)| ≥ EPSILON := by
    rw [abs_of_nonneg (by norm_num)]; norm_num [EPSILON]
  have hth : ¬ ((0 : ℝ) ≥ EPSILON) := by norm_num [EPSILON]
  have hb : basBond ⟨Real.sqrt, acos, PI, fmt⟩ pfx i bond
      = [ "#declare " ++ pfx ++ "_bond" ++ toString i ++ " = object \x7b",
          "\t  bond_" ++ toString bond.order,
          "\t  rotate <0.0000,0.0000," ++ fmt 90 ++ ">",
          "\t  translate " ++ pfx ++ "_pos_" ++ toString bond.beginIdx,
          "\t \x7d" ] := by
    simp only [basBond, hg, h90, if_pos hguard, thetaRotate, hth, decide_False]
    simp [EPSILON]
  refine ⟨hb, ?_, ?_⟩
  · rw [hb]
    simp [List.filter, isScaleLine, stripIndent, List.dropWhile, List.isPrefixOf]
  · rw [hb]
    simp [List.filter, isRotateLine, stripIndent, List.dropWhile, List.isPrefixOf]

/-- C10 at a concrete input: a zero-length bond at `(1,2,3)`. -/
theorem C10_zero_length_bond_object_witness :
    (carbonAt (1 : ℝ) 2 3).x = (carbonAt (1 : ℝ) 2 3).x
    ∧ (basBond ⟨Real.sqrt, Real.arccos, Real.pi, fun _ => "90"⟩ "mol_0" 0
          ⟨carbonAt 1 2 3, carbonAt 1 2 3, 1, 2, 1⟩
        = [ "#declare " ++ "mol_0" ++ "_bond" ++ toString 0 ++ " = object \x7b",
            "\t  bond_" ++ toString 1,
            "\t  rotate <0.0000,0.0000," ++ "90" ++ ">",
            "\t  translate " ++ "mol_0" ++ "_pos_" ++ toString 1,
            "\t \x7d" ]
      ∧ (basBond ⟨Real.sqrt, Real.arccos, Real.pi, fun _ => "90"⟩ "mol_0" 0
          ⟨carbonAt 1 2 3, carbonAt 1 2 3, 1, 2, 1⟩).filter isScaleLine = []
      ∧ (basBond ⟨Real.sqrt, Real.arccos, Real.pi, fun _ => "90"⟩ "mol_0" 0
          ⟨carbonAt 1 2 3, carbonAt 1 2 3, 1, 2, 1⟩).filter isRotateLine
          = [ "\t  rotate <0.0000,0.0000," ++ "90" ++ ">" ]) :=
  ⟨rfl, C10_zero_length_bond_object Real.arccos Real.pi (fun _ => "90") "mol_0" 0
    ⟨carbonAt 1 2 3, carbonAt 1 2 3, 1, 2, 1⟩ rfl rfl rfl⟩

end DegenerateBondProofs

section ConditionalNestingProofs

variable {α : Type}

theorem condDepth_append (a b : List String) (d : Nat) :
    condDepth d (a ++ b) = (condDepth d a).bind (fun e => condDepth e b) := by
  induction a generalizing d with
  | nil => rfl
  | cons l a ih =>
    simp only [List.cons_append, condDepth]
    split_ifs
    · exact ih _
    · cases d with
      | zero => rfl
      | succ d => exact ih _
    · exact ih _

theorem condDepth_plain (ls : List String) (d : Nat) (h : ls.all isPlainLine = true) :
    condDepth d ls = some d := by
  induction ls with
  | nil => rfl
  | cons l ls ih =>
    simp only [List.all_cons, isPlainLine, Bool.and_eq_true, Bool.not_eq_true'] at h
    simp only [condDepth, h.1.1, h.1.2]
    exact ih h.2

theorem isEndLine_of_isIfLine (l : String) (h : isIfLine l = true) : isEndLine l = false := by
  rcases l with ⟨cs⟩
  match cs with
  | [] => rfl
  | [_] => simp [isEndLine, List.isPrefixOf]
  | c1 :: c2 :: cs =>
    simp only [isIfLine, isEndLine, List.isPrefixOf, Bool.and_eq_true, beq_iff_eq] at h ⊢
    have h2 : c2 = 'i' := h.2.1.symm
    subst h2
    simp

theorem condDepth_counts (ls : List String) (d e : Nat) (h : condDepth d ls = some e) :
    (∀ k, (ls.take k).countP isEndLine ≤ d + (ls.take k).countP isIfLine)
      ∧ e + ls.countP isEndLine = d + ls.countP isIfLine := by
  induction ls generalizing d with
  | nil =>
    simp only [condDepth, Option.some.injEq] at h
    subst h
    simp
  | cons l ls ih =>
    simp only [condDepth] at h
    by_cases hif : isIfLine l = true
    · have hend := isEndLine_of_isIfLine l hif
      rw [if_pos hif] at h
      obtain ⟨h1, h2⟩ := ih _ h
      constructor
      · intro k
        cases k with
        | zero => simp
        | succ k =>
          have := h1 k
          simp only [List.take_succ_cons, List.countP_cons, hif, hend, if_true]
          simp only [Bool.false_eq_true, if_false]
          omega
      · simp only [List.countP_cons, hif, hend, if_true]
        simp only [Bool.false_eq_true, if_false]
        omega
    · rw [if_neg hif] at h
      have hif' : isIfLine l = false := by simpa using hif
      by_cases hend : isEndLine l = true
      · rw [if_pos hend] at h
        cases d with
        | zero => simp at h
        | succ d =>
          simp only at h
          obtain ⟨h1, h2⟩ := ih _ h
          constructor
          · intro k
            cases k with
            | zero => simp
            | succ k =>
              have := h1 k
              simp only [List.take_succ_cons, List.countP_cons, hif', hend, if_true]
              simp only [Bool.false_eq_true, if_false]
              omega
          · simp only [List.countP_cons, hif', hend, if_true]
            simp only [Bool.false_eq_true, if_false]
            omega
      · rw [if_neg hend] at h
        have hend' : isEndLine l = false := by simpa using hend
        obtain ⟨h1, h2⟩ := ih _ h
        constructor
        · intro k
          cases k with
          | zero => simp
          | succ k =>
            have := h1 k
            simp only [List.take_succ_cons, List.countP_cons, hif', hend']
            simp only [Bool.false_eq_true, if_false]
            omega
        · simp only [List.countP_cons, hif', hend']
          simp only [Bool.false_eq_true, if_false]
          omega

theorem conditionalsNested_of_condDepth (ls : List String) (h : condDepth 0 ls = some 0) :
    ConditionalsNested ls := by
  obtain ⟨h1, h2⟩ := condDepth_counts ls 0 0 h
  exact ⟨fun k => by simpa using h1 k, by simpa using h2⟩

theorem atomPosLoop_plain [LinearOrderedField α] (env : Env α) (pfx : String) (i : Nat)
    (atoms : List (OBAtom α)) :
    (atomPosLoop env pfx i atoms).all isPlainLine = true := by
  induction atoms generalizing i with
  | nil => rfl
  | cons a rest ih =>
    simp only [atomPosLoop, List.all_cons, ih, Bool.and_true, atomPosLine]
    simp [isPlainLine, isIfLine, isEndLine, List.isPrefixOf]

theorem atomObjectLoop_plain [LinearOrderedField α] (pfx : String) (i : Nat) (atoms : List
    (OBAtom α)) :
    (atomObjectLoop pfx i atoms).all isPlainLine = true := by
  induction atoms generalizing i with
  | nil => rfl
  | cons a rest ih =>
    simp only [atomObjectLoop, List.all_append, ih, Bool.and_true, atomObject]
    simp [isPlainLine, isIfLine, isEndLine, List.isPrefixOf]

theorem thetaRotate_plain [LinearOrderedField α] (env : Env α) (ind : String) (g : Bool)
    (theta z1 z2 : α)
    (h : ∀ s, isPlainLine (ind ++ "rotate <0.0000," ++ s) = true) :
    (thetaRotate env ind g theta z1 z2).all isPlainLine = true := by
  simp only [thetaRotate]
  split_ifs
  · simpa [String.append_assoc] using h (env.fmt ((180 * (-1) * theta) / env.PI) ++ ",0.0000>")
  · simpa [String.append_assoc] using h (env.fmt (RAD2DEG env theta) ++ ",0.0000>")
  · rfl

theorem basBond_plain [LinearOrderedField α] (env : Env α) (pfx : String) (i : Nat)
    (bond : OBBond α) :
    (basBond env pfx i bond).all isPlainLine = true := by
  simp only [basBond, List.all_append]
  rw [thetaRotate_plain _ _ _ _ _ _
    (fun s => by simp [isPlainLine, isIfLine, isEndLine, List.isPrefixOf])]
  split_ifs <;> simp [isPlainLine, isIfLine, isEndLine, List.isPrefixOf]

theorem basBondLoop_plain [LinearOrderedField α] (env : Env α) (pfx : String) (i : Nat)
    (bonds : List (OBBond α)) :
    (basBondLoop env pfx i bonds).all isPlainLine = true := by
  induction bonds generalizing i with
  | nil => rfl
  | cons b rest ih => simp only [basBondLoop, List.all_append, ih, basBond_plain, Bool.and_true]

theorem cstStartHalf_plain [LinearOrderedField α] (env : Env α) (pfx : String) (bond : OBBond α) :
    (cstStartHalf env pfx bond).all isPlainLine = true := by
  simp only [cstStartHalf, List.all_append]
  rw [thetaRotate_plain _ _ _ _ _ _
    (fun s => by simp [isPlainLine, isIfLine, isEndLine, List.isPrefixOf])]
  split_ifs <;> simp [isPlainLine, isIfLine, isEndLine, List.isPrefixOf]

theorem cstEndHalf_plain [LinearOrderedField α] (env : Env α) (pfx : String) (bond : OBBond α) :
    (cstEndHalf env pfx bond).all isPlainLine = true := by
  simp only [cstEndHalf, List.all_append]
  rw [thetaRotate_plain _ _ _ _ _ _
    (fun s => by simp [isPlainLine, isIfLine, isEndLine, List.isPrefixOf])]
  split_ifs <;> simp [isPlainLine, isIfLine, isEndLine, List.isPrefixOf]

theorem cstBond_plain [LinearOrderedField α] (env : Env α) (pfx : String) (i : Nat)
    (bond : OBBond α) :
    (cstBond env pfx i bond).all isPlainLine = true := by
  simp only [cstBond, List.all_append, cstStartHalf_plain, cstEndHalf_plain]
  simp [isPlainLine, isIfLine, isEndLine, List.isPrefixOf]

theorem cstBondLoop_plain [LinearOrderedField α] (env : Env α) (pfx : String) (i : Nat)
    (bonds : List (OBBond α)) :
    (cstBondLoop env pfx i bonds).all isPlainLine = true := by
  induction bonds generalizing i with
  | nil => rfl
  | cons b rest ih => simp only [cstBondLoop, List.all_append, ih, cstBond_plain, Bool.and_true]

theorem unionAtomLoop_plain (pfx : String) (i n : Nat) :
    (unionAtomLoop pfx i n).all isPlainLine = true := by
  induction n generalizing i with
  | zero => rfl
  | succ n ih =>
    simp only [unionAtomLoop, List.all_cons, ih, Bool.and_true]
    simp [isPlainLine, isIfLine, isEndLine, List.isPrefixOf]

theorem unionBondLoop_plain (pfx : String) (i n : Nat) :
    (unionBondLoop pfx i n).all isPlainLine = true := by
  induction n generalizing i with
  | zero => rfl
  | succ n ih =>
    simp only [unionBondLoop, List.all_cons, ih, Bool.and_true]
    simp [isPlainLine, isIfLine, isEndLine, List.isPrefixOf]

theorem condDepth_headerTop [LinearOrderedField α] (env : Env α) (self : PovrayFormat)
    (timestr : String)
    (c : vector3 α) (d : Nat) : condDepth d (headerTop env self timestr c) = some d := by
  apply condDepth_plain
  simp [headerTop, isPlainLine, isIfLine, isEndLine, List.isPrefixOf]

theorem condDepth_headerBackground (sky : Bool) (d : Nat) :
    condDepth d (headerBackground sky) = some d := by
  apply condDepth_plain
  cases sky <;> decide

theorem condDepth_headerCamera [LinearOrderedField α] (env : Env α) (c : vector3 α) (d : Nat) :
    condDepth d (headerCamera env c) = some d := by
  apply condDepth_plain
  simp [headerCamera, isPlainLine, isIfLine, isEndLine, List.isPrefixOf]

theorem condDepth_headerSphere [LinearOrderedField α] (env : Env α) (sphere : Bool)
    (c : vector3 α) (d : Nat) :
    condDepth d (headerSphere env sphere c) = some d := by
  apply condDepth_plain
  cases sphere <;> simp [headerSphere, isPlainLine, isIfLine, isEndLine, List.isPrefixOf]

theorem condDepth_headerCheckerboard [LinearOrderedField α] (env : Env α) (cb : Bool)
    (c : vector3 α) (d : Nat) :
    condDepth d (headerCheckerboard env cb c) = some d := by
  apply condDepth_plain
  cases cb <;> simp [headerCheckerboard, isPlainLine, isIfLine, isEndLine, List.isPrefixOf]

theorem condDepth_headerNoBondsWarning [LinearOrderedField α] (mol : OBMol α) (d : Nat) :
    condDepth d (headerNoBondsWarning mol) = some d := by
  simp only [headerNoBondsWarning]
  split_ifs
  · rfl
  · rfl

theorem condDepth_headerTail [LinearOrderedField α] (mol : OBMol α) (d : Nat) :
    condDepth d (headerTail mol) = some d := by
  apply condDepth_plain
  simp [headerTail, isPlainLine, isIfLine, isEndLine, List.isPrefixOf]

theorem condDepth_OutputHeader [LinearOrderedField α] (env : Env α) (self : PovrayFormat)
    (timestr : String)
    (mol : OBMol α) (pfx : String) (d : Nat) :
    condDepth d (OutputHeader env self timestr mol pfx) = some d := by
  have h3 : condDepth d ["//Include header for povray", "#include \"babel_povray3.inc\"", ""]
      = some d := rfl
  simp only [OutputHeader, condDepth_append, condDepth_headerTop, condDepth_headerBackground,
    condDepth_headerCamera, condDepth_headerSphere, condDepth_headerCheckerboard,
    condDepth_headerNoBondsWarning, condDepth_headerTail, h3, Option.some_bind]

theorem condDepth_OutputAtoms [LinearOrderedField α] (env : Env α) (mol : OBMol α)
    (pfx : String) (d : Nat) :
    condDepth d (OutputAtoms env mol pfx) = some d := by
  apply condDepth_plain
  simp only [OutputAtoms, List.all_append, atomPosLoop_plain, atomObjectLoop_plain]
  simp [isPlainLine, isIfLine, isEndLine, List.isPrefixOf]

theorem condDepth_bondDeclarations [LinearOrderedField α] (env : Env α) (mol : OBMol α)
    (pfx : String) (d : Nat) :
    condDepth d (bondDeclarations env mol pfx) = some d := by
  have hb := fun e => condDepth_plain _ e (basBondLoop_plain env pfx 0 mol.bonds)
  have hc := fun e => condDepth_plain _ e (cstBondLoop_plain env pfx 0 mol.bonds)
  have h1 : ∀ s, condDepth d ["//Povray-description of bonds 1 - " ++ s, "#if (BAS)"]
      = some (d + 1) := by
    intro s
    simp [condDepth, isIfLine, isEndLine, List.isPrefixOf]
  have h2 : condDepth (d + 1) ["#end //(BAS-Bonds)", "", "#if (CST)"] = some (d + 1) := rfl
  have h3 : condDepth (d + 1) ["#end // (CST-Bonds)", ""] = some d := rfl
  simp only [bondDeclarations, OutputBASBonds, OutputCSTBonds]
  split_ifs
  · simp only [condDepth_append, h1, hb, hc, h2, h3, Option.some_bind]
  · rfl

theorem condDepth_OutputUnions [LinearOrderedField α] (mol : OBMol α) (pfx : String) (d : Nat) :
    condDepth d (OutputUnions mol pfx) = some d := by
  have ha := fun e => condDepth_plain _ e (unionAtomLoop_plain pfx 1 mol.NumAtoms)
  have hb := fun e => condDepth_plain _ e (unionBondLoop_plain pfx 0 mol.NumBonds)
  have h1 : condDepth d [ "", "//All atoms of molecule " ++ pfx, "#ifdef (TRANS)",
      "#declare " ++ pfx ++ "_atoms = merge \x7b", "#else",
      "#declare " ++ pfx ++ "_atoms = union \x7b", "#end //(End of TRANS)" ] = some d := by
    simp [condDepth, isIfLine, isEndLine, List.isPrefixOf]
  have h2 : ∀ e, condDepth e ["\t \x7d", ""] = some e := fun e => rfl
  have h3 : ∀ e, condDepth e ["//Bonds only needed for ball and sticks or capped sticks models",
      "#if (BAS | CST)", "#declare " ++ pfx ++ "_bonds = union \x7b"] = some (e + 1) := by
    intro e
    simp [condDepth, isIfLine, isEndLine, List.isPrefixOf]
  have h4 : ∀ e, condDepth (e + 1) ["\t \x7d", "#end", ""] = some e := fun e => rfl
  simp only [OutputUnions]
  split_ifs
  · simp only [condDepth_append, h1, h2, h3, h4, ha, hb, Option.some_bind]
  · simp only [condDepth_append, h1, h2, ha, Option.some_bind, List.append_nil]

theorem condDepth_OutputMoleculeBonds [LinearOrderedField α] (env : Env α) (pfx : String)
    (b : BoundingBox α)
    (d : Nat) : condDepth d (OutputMoleculeBonds env pfx b) = some d := by
  simp [OutputMoleculeBonds, condDepth, isIfLine, isEndLine, List.isPrefixOf]

theorem condDepth_OutputMoleculeNoBonds (pfx : String) (d : Nat) :
    condDepth d (OutputMoleculeNoBonds pfx) = some d := by
  simp [OutputMoleculeNoBonds, condDepth, isIfLine, isEndLine, List.isPrefixOf]

theorem condDepth_moleculeDefinition [LinearOrderedField α] (env : Env α) (mol : OBMol α)
    (pfx : String) (d : Nat) :
    condDepth d (moleculeDefinition env mol pfx) = some d := by
  simp only [moleculeDefinition]
  split_ifs
  · exact condDepth_OutputMoleculeBonds _ _ _ _
  · exact condDepth_OutputMoleculeNoBonds _ _

theorem condDepth_OutputCenterComment [LinearOrderedField α] (env : Env α) (pfx : String)
    (b : BoundingBox α)
    (d : Nat) : condDepth d (OutputCenterComment env pfx b) = some d := by
  simp [OutputCenterComment, condDepth, isIfLine, isEndLine, List.isPrefixOf]

theorem condDepth_molPrefix (num d : Nat) : condDepth d [molPrefix num] = some d := by
  simp only [molPrefix]
  split_ifs <;> simp [condDepth, isIfLine, isEndLine, List.isPrefixOf]

theorem condDepth_WriteMoleculeText [LinearOrderedField α] (env : Env α) (timestr : String)
    (pConv : OBConversion)
    (num : Nat) (mol : OBMol α) :
    condDepth 0 (WriteMoleculeText env timestr pConv num mol) = some 0 := by
  have hh : condDepth 0 (if num = 0 then
      OutputHeader env (readOptions pConv) timestr mol ("mol_" ++ toString num) else [])
      = some 0 := by
    split_ifs
    · exact condDepth_OutputHeader _ _ _ _ _ _
    · rfl
  simp only [WriteMoleculeText, WriteMoleculeBody, condDepth_append, hh, condDepth_OutputAtoms,
    condDepth_bondDeclarations, condDepth_OutputUnions, condDepth_moleculeDefinition,
    condDepth_OutputCenterComment, condDepth_molPrefix, Option.some_bind]

/-- C2: for every molecule, every option setting and every sequence number, in
the lines one call of `WriteMolecule` writes the `#end` lines never outnumber the
`#if`/`#ifdef` lines read so far, and over the whole text the two counts are
equal. -/
theorem C2_conditionals_well_nested [LinearOrderedField α] (env : Env α) (timestr : String)
    (pConv : OBConversion)
    (num : Nat) (mol : OBMol α) :
    ConditionalsNested (WriteMoleculeText env timestr pConv num mol) :=
  conditionalsNested_of_condDepth _ (condDepth_WriteMoleculeText env timestr pConv num mol)

end ConditionalNestingProofs

section CountProofs

variable {α : Type}

theorem isPrefixOf_append_cancel (a b c : List Char) :
    (a ++ b).isPrefixOf (a ++ c) = b.isPrefixOf c := by
  induction a with
  | nil => rfl
  | cons x a ih => simp [List.isPrefixOf, ih]

theorem range_succ_map {β : Type} (f : Nat → β) (n : Nat) :
    (List.range (n + 1)).map f = f 0 :: (List.range n).map (fun k => f (k + 1)) := by
  rw [List.range_succ_eq_map, List.map_cons, List.map_map]
  rfl

theorem unionAtomLoop_eq (pfx : String) (i n : Nat) :
    unionAtomLoop pfx i n
      = (List.range n).map
          (fun k => "\t  object\x7b" ++ pfx ++ "_atom" ++ toString (i + k) ++ "\x7d") := by
  induction n generalizing i with
  | zero => rfl
  | succ n ih =>
    rw [range_succ_map, unionAtomLoop, ih]
    simp only [Nat.add_zero, List.cons.injEq, true_and]
    apply List.map_congr_left
    intro k _
    rw [show i + 1 + k = i + (k + 1) by omega]

theorem unionBondLoop_eq (pfx : String) (i n : Nat) :
    unionBondLoop pfx i n
      = (List.range n).map
          (fun k => "\t  object\x7b" ++ pfx ++ "_bond" ++ toString (i + k) ++ "\x7d") := by
  induction n generalizing i with
  | zero => rfl
  | succ n ih =>
    rw [range_succ_map, unionBondLoop, ih]
    simp only [Nat.add_zero, List.cons.injEq, true_and]
    apply List.map_congr_left
    intro k _
    rw [show i + 1 + k = i + (k + 1) by omega]

theorem takeWhile_unionAtomLoop (pfx : String) (i n : Nat) (rest : List String) :
    (unionAtomLoop pfx i n ++ "\t \x7d" :: rest).takeWhile isObjectRefLine
      = unionAtomLoop pfx i n := by
  induction n generalizing i with
  | zero => simp [unionAtomLoop, isObjectRefLine, stripIndent, List.dropWhile, List.isPrefixOf]
  | succ n ih =>
    simp only [unionAtomLoop, List.cons_append]
    rw [List.takeWhile_cons_of_pos, ih]
    simp [isObjectRefLine, stripIndent, List.dropWhile, List.isPrefixOf]

theorem takeWhile_unionBondLoop (pfx : String) (i n : Nat) (rest : List String) :
    (unionBondLoop pfx i n ++ "\t \x7d" :: rest).takeWhile isObjectRefLine
      = unionBondLoop pfx i n := by
  induction n generalizing i with
  | zero => simp [unionBondLoop, isObjectRefLine, stripIndent, List.dropWhile, List.isPrefixOf]
  | succ n ih =>
    simp only [unionBondLoop, List.cons_append]
    rw [List.takeWhile_cons_of_pos, ih]
    simp [isObjectRefLine, stripIndent, List.dropWhile, List.isPrefixOf]

theorem dropWhile_unionAtomLoop (pfx name : String) (i n : Nat) (rest : List String) :
    (unionAtomLoop pfx i n ++ rest).dropWhile (fun l => !declaresName name l)
      = rest.dropWhile (fun l => !declaresName name l) := by
  induction n generalizing i with
  | zero => rfl
  | succ n ih =>
    simp only [unionAtomLoop, List.cons_append]
    rw [List.dropWhile_cons_of_pos, ih]
    simp [declaresName, List.isPrefixOf]

end CountProofs

section CountProofs2

variable {α : Type}

theorem dropWhile_hash_unionAtomLoop (pfx : String) (i n : Nat) (rest : List String) :
    (unionAtomLoop pfx i n ++ "\t \x7d" :: rest).dropWhile isHashLine
      = unionAtomLoop pfx i n ++ "\t \x7d" :: rest := by
  cases n with
  | zero => simp [unionAtomLoop, isHashLine, List.isPrefixOf]
  | succ n =>
    simp only [unionAtomLoop, List.cons_append]
    rw [List.dropWhile_cons_of_neg]
    simp [isHashLine, List.isPrefixOf]

theorem dropWhile_hash_unionBondLoop (pfx : String) (i n : Nat) (rest : List String) :
    (unionBondLoop pfx i n ++ "\t \x7d" :: rest).dropWhile isHashLine
      = unionBondLoop pfx i n ++ "\t \x7d" :: rest := by
  cases n with
  | zero => simp [unionBondLoop, isHashLine, List.isPrefixOf]
  | succ n =>
    simp only [unionBondLoop, List.cons_append]
    rw [List.dropWhile_cons_of_neg]
    simp [isHashLine, List.isPrefixOf]

theorem compositeMembers_atoms [LinearOrderedField α] (mol : OBMol α) (pfx : String) :
    compositeMembers (pfx ++ "_atoms") (OutputUnions mol pfx)
      = unionAtomLoop pfx 1 mol.NumAtoms := by
  simp only [OutputUnions, compositeMembers, List.cons_append, List.nil_append,
    List.append_assoc]
  rw [List.dropWhile_cons_of_pos (by simp [declaresName, List.isPrefixOf]),
    List.dropWhile_cons_of_pos (by simp [declaresName, List.isPrefixOf]),
    List.dropWhile_cons_of_pos (by simp [declaresName, List.isPrefixOf]),
    List.dropWhile_cons_of_neg
      (by simp [declaresName, List.isPrefixOf, isPrefixOf_append_cancel])]
  rw [List.dropWhile_cons_of_pos (by simp [isHashLine, List.isPrefixOf]),
    List.dropWhile_cons_of_pos (by simp [isHashLine, List.isPrefixOf]),
    List.dropWhile_cons_of_pos (by simp [isHashLine, List.isPrefixOf]),
    List.dropWhile_cons_of_pos (by simp [isHashLine, List.isPrefixOf]),
    dropWhile_hash_unionAtomLoop, takeWhile_unionAtomLoop]

theorem compositeMembers_bonds [LinearOrderedField α] (mol : OBMol α) (pfx : String) :
    compositeMembers (pfx ++ "_bonds") (OutputUnions mol pfx)
      = unionBondLoop pfx 0 mol.NumBonds := by
  simp only [OutputUnions, compositeMembers, List.cons_append, List.nil_append,
    List.append_assoc]
  rw [List.dropWhile_cons_of_pos (by simp [declaresName, List.isPrefixOf]),
    List.dropWhile_cons_of_pos (by simp [declaresName, List.isPrefixOf]),
    List.dropWhile_cons_of_pos (by simp [declaresName, List.isPrefixOf]),
    List.dropWhile_cons_of_pos
      (by simp [declaresName, List.isPrefixOf, isPrefixOf_append_cancel]),
    List.dropWhile_cons_of_pos (by simp [declaresName, List.isPrefixOf]),
    List.dropWhile_cons_of_pos
      (by simp [declaresName, List.isPrefixOf, isPrefixOf_append_cancel]),
    List.dropWhile_cons_of_pos (by simp [declaresName, List.isPrefixOf]),
    dropWhile_unionAtomLoop,
    List.dropWhile_cons_of_pos (by simp [declaresName, List.isPrefixOf]),
    List.dropWhile_cons_of_pos (by simp [declaresName, List.isPrefixOf])]
  split_ifs with h
  · rw [List.dropWhile_cons_of_pos (by simp [declaresName, List.isPrefixOf]),
      List.dropWhile_cons_of_pos (by simp [declaresName, List.isPrefixOf]),
      List.dropWhile_cons_of_neg
        (by simp [declaresName, List.isPrefixOf, isPrefixOf_append_cancel]),
      List.dropWhile_cons_of_pos (by simp [isHashLine, List.isPrefixOf]),
      dropWhile_hash_unionBondLoop, takeWhile_unionBondLoop]
  · have h0 : mol.NumBonds = 0 := by omega
    rw [h0]
    rfl

end CountProofs2

section CountProofs3

variable {α : Type}

theorem thetaRotate_filter_declare [LinearOrderedField α] (env : Env α) (ind : String)
    (g : Bool) (theta z1 z2 : α)
    (h : ∀ s, isDeclareLine (ind ++ ("rotate <0.0000," ++ s)) = false) :
    (thetaRotate env ind g theta z1 z2).filter isDeclareLine = [] := by
  simp only [thetaRotate]
  split_ifs
  · simpa [String.append_assoc] using h (env.fmt ((180 * (-1) * theta) / env.PI) ++ ",0.0000>")
  · simpa [String.append_assoc] using h (env.fmt (RAD2DEG env theta) ++ ",0.0000>")
  · rfl

theorem basBond_filter_declare [LinearOrderedField α] (env : Env α) (pfx : String) (i : Nat)
    (bond : OBBond α) :
    (basBond env pfx i bond).filter isDeclareLine
      = [ "#declare " ++ pfx ++ "_bond" ++ toString i ++ " = object \x7b" ] := by
  simp only [basBond, List.filter_append]
  rw [thetaRotate_filter_declare _ _ _ _ _ _ (fun s => by simp [isDeclareLine, List.isPrefixOf])]
  split_ifs <;> simp [List.filter, isDeclareLine, List.isPrefixOf]

theorem basBondLoop_filter_declare [LinearOrderedField α] (env : Env α) (pfx : String)
    (i : Nat) (bonds : List (OBBond α)) :
    (basBondLoop env pfx i bonds).filter isDeclareLine
      = (List.range bonds.length).map
          (fun k => "#declare " ++ pfx ++ "_bond" ++ toString (i + k) ++ " = object \x7b") := by
  induction bonds generalizing i with
  | nil => rfl
  | cons b rest ih =>
    rw [basBondLoop, List.filter_append, basBond_filter_declare, ih, List.length_cons,
      range_succ_map]
    simp only [Nat.add_zero, List.singleton_append, List.cons.injEq, true_and]
    apply List.map_congr_left
    intro k _
    rw [show i + 1 + k = i + (k + 1) by omega]

theorem foldr_blockStep_plain (ls : List String) (acc : List String × List (List String))
    (h : ls.all (fun l => !isDeclareLine l) = true) :
    ls.foldr blockStep acc = (ls ++ acc.1, acc.2) := by
  induction ls with
  | nil => rfl
  | cons l ls ih =>
    simp only [List.all_cons, Bool.and_eq_true, Bool.not_eq_true'] at h
    simp only [List.foldr_cons, ih h.2, blockStep, h.1, Bool.false_eq_true, if_false,
      List.cons_append]

theorem thetaRotate_no_declare [LinearOrderedField α] (env : Env α) (ind : String)
    (g : Bool) (theta z1 z2 : α)
    (h : ∀ s, isDeclareLine (ind ++ ("rotate <0.0000," ++ s)) = false) :
    (thetaRotate env ind g theta z1 z2).all (fun l => !isDeclareLine l) = true := by
  simp only [thetaRotate]
  split_ifs
  · simpa [String.append_assoc] using h (env.fmt ((180 * (-1) * theta) / env.PI) ++ ",0.0000>")
  · simpa [String.append_assoc] using h (env.fmt (RAD2DEG env theta) ++ ",0.0000>")
  · rfl

theorem thetaRotate_countP_open [LinearOrderedField α] (env : Env α) (ind : String)
    (g : Bool) (theta z1 z2 : α)
    (h : ∀ s, isObjectOpenLine (ind ++ ("rotate <0.0000," ++ s)) = false) :
    (thetaRotate env ind g theta z1 z2).countP isObjectOpenLine = 0 := by
  simp only [thetaRotate]
  split_ifs
  · simpa [String.append_assoc] using h (env.fmt ((180 * (-1) * theta) / env.PI) ++ ",0.0000>")
  · simpa [String.append_assoc] using h (env.fmt (RAD2DEG env theta) ++ ",0.0000>")
  · rfl

theorem cstStartHalf_no_declare [LinearOrderedField α] (env : Env α) (pfx : String)
    (bond : OBBond α) :
    (cstStartHalf env pfx bond).all (fun l => !isDeclareLine l) = true := by
  simp only [cstStartHalf, List.all_append]
  rw [thetaRotate_no_declare _ _ _ _ _ _ (fun s => by simp [isDeclareLine, List.isPrefixOf])]
  split_ifs <;> simp [isDeclareLine, List.isPrefixOf]

theorem cstEndHalf_no_declare [LinearOrderedField α] (env : Env α) (pfx : String)
    (bond : OBBond α) :
    (cstEndHalf env pfx bond).all (fun l => !isDeclareLine l) = true := by
  simp only [cstEndHalf, List.all_append]
  rw [thetaRotate_no_declare _ _ _ _ _ _ (fun s => by simp [isDeclareLine, List.isPrefixOf])]
  split_ifs <;> simp [isDeclareLine, List.isPrefixOf]

theorem cstStartHalf_countP_open [LinearOrderedField α] (env : Env α) (pfx : String)
    (bond : OBBond α) :
    (cstStartHalf env pfx bond).countP isObjectOpenLine = 1 := by
  simp only [cstStartHalf, List.countP_append]
  rw [thetaRotate_countP_open _ _ _ _ _ _
    (fun s => by simp [isObjectOpenLine, stripIndent, List.dropWhile])]
  split_ifs <;> simp [List.countP_cons, isObjectOpenLine, stripIndent, List.dropWhile]

theorem cstEndHalf_countP_open [LinearOrderedField α] (env : Env α) (pfx : String)
    (bond : OBBond α) :
    (cstEndHalf env pfx bond).countP isObjectOpenLine = 1 := by
  simp only [cstEndHalf, List.countP_append]
  rw [thetaRotate_countP_open _ _ _ _ _ _
    (fun s => by simp [isObjectOpenLine, stripIndent, List.dropWhile])]
  split_ifs <;> simp [List.countP_cons, isObjectOpenLine, stripIndent, List.dropWhile]

theorem cstBond_countP_open [LinearOrderedField α] (env : Env α) (pfx : String) (i : Nat)
    (bond : OBBond α) :
    (cstBond env pfx i bond).countP isObjectOpenLine = 2 := by
  simp only [cstBond, List.countP_append, cstStartHalf_countP_open, cstEndHalf_countP_open]
  simp [List.countP_cons, isObjectOpenLine, stripIndent, List.dropWhile]

theorem foldr_blockStep_cstBond [LinearOrderedField α] (env : Env α) (pfx : String) (i : Nat)
    (bond : OBBond α) (blocks : List (List String)) :
    (cstBond env pfx i bond).foldr blockStep ([], blocks)
      = ([], cstBond env pfx i bond :: blocks) := by
  have ht : ([ "\t  union \x7b" ] ++ cstStartHalf env pfx bond ++ cstEndHalf env pfx bond
      ++ [ "\t  \x7d", "\t \x7d", "" ]).all (fun l => !isDeclareLine l) = true := by
    simp only [List.all_append, cstStartHalf_no_declare, cstEndHalf_no_declare]
    simp [isDeclareLine, List.isPrefixOf]
  have hd : isDeclareLine ("#declare " ++ pfx ++ "_bond" ++ toString i ++ " = object \x7b")
      = true := by
    simp [isDeclareLine, List.isPrefixOf]
  have hs : cstBond env pfx i bond
      = ("#declare " ++ pfx ++ "_bond" ++ toString i ++ " = object \x7b")
        :: ([ "\t  union \x7b" ] ++ cstStartHalf env pfx bond ++ cstEndHalf env pfx bond
          ++ [ "\t  \x7d", "\t \x7d", "" ]) := by
    simp [cstBond]
  rw [hs, List.foldr_cons, foldr_blockStep_plain _ _ ht]
  simp only [blockStep, hd, if_true, List.append_nil]

theorem foldr_blockStep_cstBondLoop [LinearOrderedField α] (env : Env α) (pfx : String)
    (i : Nat) (bonds : List (OBBond α)) :
    ((cstBondLoop env pfx i bonds).foldr blockStep ([], [])).1 = []
    ∧ (((cstBondLoop env pfx i bonds).foldr blockStep ([], [])).2).map
          (fun b => (b.head?, b.countP isObjectOpenLine))
        = (List.range bonds.length).map
            (fun k => (some ("#declare " ++ pfx ++ "_bond" ++ toString (i + k)
              ++ " = object \x7b"), 2)) := by
  induction bonds generalizing i with
  | nil => exact ⟨rfl, rfl⟩
  | cons b rest ih =>
    obtain ⟨h1, h2⟩ := ih (i + 1)
    have hacc : (cstBondLoop env pfx (i + 1) rest).foldr blockStep ([], [])
        = ([], ((cstBondLoop env pfx (i + 1) rest).foldr blockStep ([], [])).2) :=
      Prod.ext h1 rfl
    rw [cstBondLoop, List.foldr_append, hacc, foldr_blockStep_cstBond]
    refine ⟨rfl, ?_⟩
    rw [List.map_cons, h2, List.length_cons, range_succ_map, cstBond_countP_open]
    simp only [Nat.add_zero, List.cons.injEq]
    refine ⟨by simp [cstBond], ?_⟩
    apply List.map_congr_left
    intro k _
    rw [show i + 1 + k = i + (k + 1) by omega]

/-- C4: the atoms composite written by `OutputUnions` lists the `N` object
references `<prefix>_atom1 .. <prefix>_atomN` in order and the bonds union the
`M` references `<prefix>_bond0 .. <prefix>_bond(M-1)`; `OutputBASBonds` writes
the `M` declarations `#declare <prefix>_bond<i>`, one per bond, and
`OutputCSTBonds` writes the same `M` declarations, each with two inner objects. -/
theorem C4_object_counts [LinearOrderedField α] (env : Env α) (mol : OBMol α) (pfx : String) :
    compositeMembers (pfx ++ "_atoms") (OutputUnions mol pfx)
        = (List.range mol.NumAtoms).map
            (fun k => "\t  object\x7b" ++ pfx ++ "_atom" ++ toString (k + 1) ++ "\x7d")
    ∧ compositeMembers (pfx ++ "_bonds") (OutputUnions mol pfx)
        = (List.range mol.NumBonds).map
            (fun k => "\t  object\x7b" ++ pfx ++ "_bond" ++ toString k ++ "\x7d")
    ∧ (OutputBASBonds env mol pfx).filter isDeclareLine
        = (List.range mol.NumBonds).map
            (fun k => "#declare " ++ pfx ++ "_bond" ++ toString k ++ " = object \x7b")
    ∧ (declareBlocks (OutputCSTBonds env mol pfx)).map
          (fun b => (b.head?, b.countP isObjectOpenLine))
        = (List.range mol.NumBonds).map
            (fun k => (some ("#declare " ++ pfx ++ "_bond" ++ toString k ++ " = object \x7b"),
              2)) := by
  refine ⟨?_, ?_, ?_, ?_⟩
  · rw [compositeMembers_atoms, unionAtomLoop_eq]
    simp only [Nat.add_comm 1]
  · rw [compositeMembers_bonds, unionBondLoop_eq]
    simp only [Nat.zero_add]
  · have h := basBondLoop_filter_declare env pfx 0 mol.bonds
    simpa only [Nat.zero_add] using h
  · have h := (foldr_blockStep_cstBondLoop env pfx 0 mol.bonds).2
    simpa only [Nat.zero_add] using h

end CountProofs3

section ScopeProofs

variable {α : Type}

theorem string_eq_of_data_eq (a b : String) (h : a.data = b.data) : a = b := by
  cases a; cases b; simp_all

theorem declared_mono (ctx ctx' : List String) (id : String) (hsub : ∀ d ∈ ctx, d ∈ ctx')
    (h : Declared ctx id) : Declared ctx' id := by
  obtain ⟨d, hd, hdec⟩ := h
  exact ⟨d, hsub d hd, hdec⟩

theorem declared_append_left (a b : List String) (id : String) (h : Declared a id) :
    Declared (a ++ b) id :=
  declared_mono a (a ++ b) id (fun _ hd => List.mem_append_left _ hd) h

theorem declared_append_right (a b : List String) (id : String) (h : Declared b id) :
    Declared (a ++ b) id :=
  declared_mono b (a ++ b) id (fun _ hd => List.mem_append_right _ hd) h

theorem scopedIn_nil (pfx : String) (ctx : List String) : ScopedIn pfx ctx [] := by
  intro pre l post id h
  simp at h

theorem scopedIn_cons (pfx : String) (ctx : List String) (l : String) (ls : List String)
    (h1 : ∀ id, Generated pfx id → UsesIdent pfx id l → Declared ctx id)
    (h2 : ScopedIn pfx (ctx ++ [l]) ls) : ScopedIn pfx ctx (l :: ls) := by
  intro pre l' post id h hg hu
  cases pre with
  | nil =>
    simp only [List.nil_append, List.cons.injEq] at h
    obtain ⟨rfl, -⟩ := h
    simpa using h1 id hg hu
  | cons p pre =>
    simp only [List.cons_append, List.cons.injEq] at h
    obtain ⟨rfl, h⟩ := h
    have := h2 pre l' post id h hg hu
    simpa [List.append_assoc] using this

theorem scopedIn_append (pfx : String) (ctx a b : List String)
    (h1 : ScopedIn pfx ctx a) (h2 : ScopedIn pfx (ctx ++ a) b) : ScopedIn pfx ctx (a ++ b) := by
  intro pre l post id he hg hu
  rcases List.append_eq_append_iff.mp he with ⟨a', ha, hb⟩ | ⟨c', ha, hb⟩
  · have := h2 a' l post id hb hg hu
    rw [ha]
    simpa [List.append_assoc] using this
  · cases c' with
    | nil =>
      simp only [List.append_nil] at ha
      simp only [List.nil_append] at hb
      subst ha
      have := h2 [] l post id hb.symm hg hu
      simpa using this
    | cons x c' =>
      simp only [List.cons_append, List.cons.injEq] at hb
      obtain ⟨rfl, hb⟩ := hb
      exact h1 pre l c' id ha hg hu

theorem noUse_of_quiet (s l id : String) (hq : isQuietLine ("mol_" ++ s) l = true)
    (hg : Generated ("mol_" ++ s) id) : ¬ UsesIdent ("mol_" ++ s) id l := by
  simp only [isQuietLine, Bool.and_eq_true, Bool.not_eq_true'] at hq
  obtain ⟨⟨⟨h1, h2⟩, h3⟩, h4⟩ := hq
  obtain ⟨t, ht⟩ := hg
  rintro (hu | hu | hu | hu)
  · rw [isTranslateMolLine, hu] at h1
    simp [List.isPrefixOf, ← ht] at h1
  · rw [isObjectMolLine, hu] at h2
    simp [List.isPrefixOf, ← ht] at h2
  · rw [isMolLine, hu, ← ht] at h3
    simp [List.isPrefixOf] at h3
  · rw [isMolObjectLine, hu] at h4
    simp [List.isPrefixOf, isPrefixOf_append_cancel] at h4

theorem scopedIn_of_filter (s : String) (ctx ls : List String)
    (h : ∀ l ∈ ls.filter (fun l => !isQuietLine ("mol_" ++ s) l), ∀ id,
      Generated ("mol_" ++ s) id → UsesIdent ("mol_" ++ s) id l → Declared ctx id) :
    ScopedIn ("mol_" ++ s) ctx ls := by
  intro pre l post id he hg hu
  have hl : l ∈ ls := by rw [he]; simp
  by_cases hq : isQuietLine ("mol_" ++ s) l = true
  · exact absurd hu (noUse_of_quiet s l id hq hg)
  · apply declared_append_left
    apply h l _ id hg hu
    rw [List.mem_filter]
    exact ⟨hl, by simpa using hq⟩

theorem scopedIn_of_quiet (s : String) (ctx ls : List String)
    (h : ls.all (isQuietLine ("mol_" ++ s)) = true) : ScopedIn ("mol_" ++ s) ctx ls := by
  apply scopedIn_of_filter
  intro l hl
  rw [List.mem_filter] at hl
  have := List.all_eq_true.mp h l hl.1
  simp [this] at hl

theorem uses_translate (s l id x : String) (h : stripIndent l = ("translate " ++ x).data)
    (hg : Generated ("mol_" ++ s) id) (hu : UsesIdent ("mol_" ++ s) id l) : id = x := by
  obtain ⟨t, ht⟩ := hg
  rcases hu with hu | hu | hu | hu
  · rw [h] at hu
    apply string_eq_of_data_eq
    simpa using hu.symm
  · rw [h] at hu
    simp at hu
  · rw [h, ← ht] at hu
    simp at hu
  · rw [hu] at h
    simp [stripIndent, List.dropWhile] at h

theorem uses_objectRef (s l id x : String)
    (h : stripIndent l = ("object\x7b" ++ x ++ "\x7d").data)
    (hg : Generated ("mol_" ++ s) id) (hu : UsesIdent ("mol_" ++ s) id l) : id = x := by
  obtain ⟨t, ht⟩ := hg
  rcases hu with hu | hu | hu | hu
  · rw [h] at hu
    simp at hu
  · rw [h] at hu
    apply string_eq_of_data_eq
    simpa using hu.symm
  · rw [h, ← ht] at hu
    simp at hu
  · rw [hu] at h
    simp [stripIndent, List.dropWhile] at h

theorem uses_bare (s l id x : String) (h : stripIndent l = ("mol_" ++ x).data)
    (hu : UsesIdent ("mol_" ++ s) id l) : id = "mol_" ++ x := by
  rcases hu with hu | hu | hu | hu
  · rw [h] at hu
    simp at hu
  · rw [h] at hu
    simp at hu
  · rw [h] at hu
    exact string_eq_of_data_eq _ _ hu.symm
  · rw [hu] at h
    simp [stripIndent, List.dropWhile] at h

theorem uses_molObject (s id x : String) (hg : Generated ("mol_" ++ s) id)
    (hu : UsesIdent ("mol_" ++ s) id
      ("#declare " ++ ("mol_" ++ s) ++ " = object \x7b" ++ x ++ "\x7d")) : id = x := by
  obtain ⟨t, ht⟩ := hg
  rcases hu with hu | hu | hu | hu
  · simp [stripIndent, List.dropWhile] at hu
  · simp [stripIndent, List.dropWhile] at hu
  · rw [← ht] at hu
    simp [stripIndent, List.dropWhile] at hu
  · apply string_eq_of_data_eq
    have := congrArg String.data hu
    simpa using this.symm

end ScopeProofs

section ScopeProofs2

variable {α : Type}

theorem resolveModelType_cases (m : Option String) :
    (resolveModelType m).1 = "BAS" ∨ (resolveModelType m).1 = "SPF"
      ∨ (resolveModelType m).1 = "CST" := by
  cases m with
  | none => exact Or.inl rfl
  | some tmp =>
    simp only [resolveModelType]
    split_ifs with h
    · exact Or.inl rfl
    · by_cases h1 : toUpperStr tmp = "BAS"
      · exact Or.inl h1
      · by_cases h2 : toUpperStr tmp = "SPF"
        · exact Or.inr (Or.inl h2)
        · by_cases h3 : toUpperStr tmp = "CST"
          · exact Or.inr (Or.inr h3)
          · exact absurd ⟨h1, h2, h3⟩ h

theorem headerTop_quiet [LinearOrderedField α] (env : Env α) (self : PovrayFormat)
    (timestr : String) (c : vector3 α) (s : String)
    (hmt : self.model_type = "BAS" ∨ self.model_type = "SPF" ∨ self.model_type = "CST") :
    (headerTop env self timestr c).all (isQuietLine ("mol_" ++ s)) = true := by
  rcases hmt with h | h | h <;>
    simp [headerTop, h, isQuietLine, isTranslateMolLine, isObjectMolLine, isMolLine,
      isMolObjectLine, stripIndent, List.dropWhile, List.isPrefixOf]

theorem headerBackground_quiet (sky : Bool) (s : String) :
    (headerBackground sky).all (isQuietLine ("mol_" ++ s)) = true := by
  cases sky <;>
    simp [headerBackground, isQuietLine, isTranslateMolLine, isObjectMolLine, isMolLine,
      isMolObjectLine, stripIndent, List.dropWhile, List.isPrefixOf]

theorem headerCamera_quiet [LinearOrderedField α] (env : Env α) (c : vector3 α) (s : String) :
    (headerCamera env c).all (isQuietLine ("mol_" ++ s)) = true := by
  simp [headerCamera, isQuietLine, isTranslateMolLine, isObjectMolLine, isMolLine,
    isMolObjectLine, stripIndent, List.dropWhile, List.isPrefixOf]

theorem headerSphere_quiet [LinearOrderedField α] (env : Env α) (sphere : Bool)
    (c : vector3 α) (s : String) :
    (headerSphere env sphere c).all (isQuietLine ("mol_" ++ s)) = true := by
  cases sphere <;>
    simp [headerSphere, isQuietLine, isTranslateMolLine, isObjectMolLine, isMolLine,
      isMolObjectLine, stripIndent, List.dropWhile, List.isPrefixOf]

theorem headerCheckerboard_quiet [LinearOrderedField α] (env : Env α) (cb : Bool)
    (c : vector3 α) (s : String) :
    (headerCheckerboard env cb c).all (isQuietLine ("mol_" ++ s)) = true := by
  cases cb <;>
    simp [headerCheckerboard, isQuietLine, isTranslateMolLine, isObjectMolLine, isMolLine,
      isMolObjectLine, stripIndent, List.dropWhile, List.isPrefixOf]

theorem headerNoBondsWarning_quiet [LinearOrderedField α] (mol : OBMol α) (s : String) :
    (headerNoBondsWarning mol).all (isQuietLine ("mol_" ++ s)) = true := by
  simp only [headerNoBondsWarning]
  split_ifs <;>
    simp [isQuietLine, isTranslateMolLine, isObjectMolLine, isMolLine,
      isMolObjectLine, stripIndent, List.dropWhile, List.isPrefixOf]

theorem headerTail_quiet [LinearOrderedField α] (mol : OBMol α) (s : String) :
    (headerTail mol).all (isQuietLine ("mol_" ++ s)) = true := by
  simp [headerTail, isQuietLine, isTranslateMolLine, isObjectMolLine, isMolLine,
    isMolObjectLine, stripIndent, List.dropWhile, List.isPrefixOf]

theorem OutputHeader_quiet [LinearOrderedField α] (env : Env α) (self : PovrayFormat)
    (timestr : String) (mol : OBMol α) (pfx s : String)
    (hmt : self.model_type = "BAS" ∨ self.model_type = "SPF" ∨ self.model_type = "CST") :
    (OutputHeader env self timestr mol pfx).all (isQuietLine ("mol_" ++ s)) = true := by
  simp only [OutputHeader, List.all_append, headerTop_quiet env self timestr _ s hmt,
    headerBackground_quiet, headerCamera_quiet, headerSphere_quiet, headerCheckerboard_quiet,
    headerNoBondsWarning_quiet, headerTail_quiet, Bool.and_true, Bool.true_and]
  simp [isQuietLine, isTranslateMolLine, isObjectMolLine, isMolLine,
    isMolObjectLine, stripIndent, List.dropWhile, List.isPrefixOf]

end ScopeProofs2

section ScopeProofs3

variable {α : Type}

theorem atomPosLoop_quiet [LinearOrderedField α] (env : Env α) (s : String) (i : Nat)
    (atoms : List (OBAtom α)) :
    (atomPosLoop env ("mol_" ++ s) i atoms).all (isQuietLine ("mol_" ++ s)) = true := by
  induction atoms generalizing i with
  | nil => rfl
  | cons a rest ih =>
    simp only [atomPosLoop, List.all_cons, ih, Bool.and_true, atomPosLine]
    simp [isQuietLine, isTranslateMolLine, isObjectMolLine, isMolLine,
      isMolObjectLine, stripIndent, List.dropWhile, List.isPrefixOf, isPrefixOf_append_cancel]

theorem atomPosLoop_declared [LinearOrderedField α] (env : Env α) (pfx : String) (i : Nat)
    (atoms : List (OBAtom α)) (k : Nat) (hk : k < atoms.length) :
    Declared (atomPosLoop env pfx i atoms) (pfx ++ "_pos_" ++ toString (i + k)) := by
  induction atoms generalizing i k with
  | nil => simp at hk
  | cons a rest ih =>
    cases k with
    | zero =>
      refine ⟨atomPosLine env pfx i a, List.mem_cons_self _ _, ?_⟩
      simp [declaresName, atomPosLine, List.isPrefixOf, isPrefixOf_append_cancel]
    | succ k =>
      obtain ⟨d, hd, hdec⟩ := ih (i + 1) k (by simpa using hk)
      refine ⟨d, List.mem_cons_of_mem _ hd, ?_⟩
      rw [show i + (k + 1) = i + 1 + k by omega]
      exact hdec

theorem atomObject_filter [LinearOrderedField α] (s : String) (i : Nat) (atom : OBAtom α) :
    (atomObject ("mol_" ++ s) i atom).filter (fun l => !isQuietLine ("mol_" ++ s) l)
      = [ "\t  translate " ++ ("mol_" ++ s) ++ "_pos_" ++ toString i ] := by
  simp [atomObject, List.filter, isQuietLine, isTranslateMolLine, isObjectMolLine, isMolLine,
    isMolObjectLine, stripIndent, List.dropWhile, List.isPrefixOf, isPrefixOf_append_cancel]

theorem atomObject_scoped [LinearOrderedField α] (s : String) (i : Nat) (atom : OBAtom α)
    (ctx : List String) (h : Declared ctx ("mol_" ++ s ++ "_pos_" ++ toString i)) :
    ScopedIn ("mol_" ++ s) ctx (atomObject ("mol_" ++ s) i atom) := by
  apply scopedIn_of_filter
  rw [atomObject_filter]
  intro l hl id hg hu
  rw [List.mem_singleton] at hl
  subst hl
  generalize toString i = n at h hu
  have := uses_translate s _ id ("mol_" ++ s ++ "_pos_" ++ n)
    (by simp [stripIndent, List.dropWhile]) hg hu
  rw [this]
  exact h

theorem atomObjectLoop_scoped [LinearOrderedField α] (s : String) (i : Nat)
    (atoms : List (OBAtom α)) (ctx : List String)
    (h : ∀ k, k < atoms.length → Declared ctx ("mol_" ++ s ++ "_pos_" ++ toString (i + k))) :
    ScopedIn ("mol_" ++ s) ctx (atomObjectLoop ("mol_" ++ s) i atoms) := by
  induction atoms generalizing i ctx with
  | nil => exact scopedIn_nil _ _
  | cons a rest ih =>
    rw [atomObjectLoop]
    apply scopedIn_append
    · exact atomObject_scoped s i a ctx (by simpa using h 0 (by simp))
    · apply ih
      intro k hk
      apply declared_append_left
      rw [show i + 1 + k = i + (k + 1) by omega]
      exact h (k + 1) (by simpa using hk)

theorem atomObjectLoop_declared [LinearOrderedField α] (pfx : String) (i : Nat)
    (atoms : List (OBAtom α)) (k : Nat) (hk : k < atoms.length) :
    Declared (atomObjectLoop pfx i atoms) (pfx ++ "_atom" ++ toString (i + k)) := by
  induction atoms generalizing i k with
  | nil => simp at hk
  | cons a rest ih =>
    rw [atomObjectLoop]
    cases k with
    | zero =>
      apply declared_append_left
      refine ⟨_, List.mem_cons_self _ _, ?_⟩
      simp [declaresName, List.isPrefixOf, isPrefixOf_append_cancel]
    | succ k =>
      apply declared_append_right
      rw [show i + (k + 1) = i + 1 + k by omega]
      exact ih (i + 1) k (by simpa using hk)

theorem OutputAtoms_scoped [LinearOrderedField α] (env : Env α) (mol : OBMol α) (s : String)
    (ctx : List String) : ScopedIn ("mol_" ++ s) ctx (OutputAtoms env mol ("mol_" ++ s)) := by
  simp only [OutputAtoms]
  apply scopedIn_append
  · apply scopedIn_append
    · apply scopedIn_append
      · apply scopedIn_append
        · apply scopedIn_of_quiet
          simp [isQuietLine, isTranslateMolLine, isObjectMolLine, isMolLine,
            isMolObjectLine, stripIndent, List.dropWhile, List.isPrefixOf]
        · exact scopedIn_of_quiet _ _ _ (atomPosLoop_quiet env s 1 mol.atoms)
      · apply scopedIn_of_quiet
        simp [isQuietLine, isTranslateMolLine, isObjectMolLine, isMolLine,
          isMolObjectLine, stripIndent, List.dropWhile, List.isPrefixOf]
    · apply atomObjectLoop_scoped
      intro k hk
      apply declared_append_right
      apply declared_append_left
      apply declared_append_right
      exact atomPosLoop_declared env _ 1 mol.atoms k hk
  · apply scopedIn_of_quiet
    simp [isQuietLine, isTranslateMolLine, isObjectMolLine, isMolLine,
      isMolObjectLine, stripIndent, List.dropWhile, List.isPrefixOf]

theorem OutputAtoms_declared_pos [LinearOrderedField α] (env : Env α) (mol : OBMol α)
    (pfx : String) (j : Nat) (h1 : 1 ≤ j) (h2 : j ≤ mol.NumAtoms) :
    Declared (OutputAtoms env mol pfx) (pfx ++ "_pos_" ++ toString j) := by
  simp only [OutputAtoms]
  apply declared_append_left
  apply declared_append_left
  apply declared_append_left
  apply declared_append_right
  have hj : j - 1 < mol.atoms.length := by
    simp only [OBMol.NumAtoms] at h2
    omega
  have := atomPosLoop_declared env pfx 1 mol.atoms (j - 1) hj
  rwa [show 1 + (j - 1) = j by omega] at this

theorem OutputAtoms_declared_atom [LinearOrderedField α] (env : Env α) (mol : OBMol α)
    (pfx : String) (j : Nat) (h1 : 1 ≤ j) (h2 : j ≤ mol.NumAtoms) :
    Declared (OutputAtoms env mol pfx) (pfx ++ "_atom" ++ toString j) := by
  simp only [OutputAtoms]
  apply declared_append_left
  apply declared_append_right
  have hj : j - 1 < mol.atoms.length := by
    simp only [OBMol.NumAtoms] at h2
    omega
  have := atomObjectLoop_declared pfx 1 mol.atoms (j - 1) hj
  rwa [show 1 + (j - 1) = j by omega] at this

end ScopeProofs3

section ScopeProofs4

variable {α : Type}

theorem thetaRotate_filter_quiet [LinearOrderedField α] (env : Env α) (ind s : String)
    (g : Bool) (theta z1 z2 : α)
    (h : ∀ t, isQuietLine ("mol_" ++ s) (ind ++ ("rotate <0.0000," ++ t)) = true) :
    (thetaRotate env ind g theta z1 z2).filter (fun l => !isQuietLine ("mol_" ++ s) l) = [] := by
  simp only [thetaRotate]
  split_ifs
  · simpa [String.append_assoc] using h (env.fmt ((180 * (-1) * theta) / env.PI) ++ ",0.0000>")
  · simpa [String.append_assoc] using h (env.fmt (RAD2DEG env theta) ++ ",0.0000>")
  · rfl

theorem basBond_filter [LinearOrderedField α] (env : Env α) (s : String) (i : Nat)
    (bond : OBBond α) :
    (basBond env ("mol_" ++ s) i bond).filter (fun l => !isQuietLine ("mol_" ++ s) l)
      = [ "\t  translate " ++ ("mol_" ++ s) ++ "_pos_" ++ toString bond.beginIdx ] := by
  simp only [basBond, List.filter_append]
  rw [thetaRotate_filter_quiet _ _ _ _ _ _ _
    (fun t => by simp [isQuietLine, isTranslateMolLine, isObjectMolLine, isMolLine,
      isMolObjectLine, stripIndent, List.dropWhile, List.isPrefixOf])]
  split_ifs <;>
    simp [List.filter, isQuietLine, isTranslateMolLine, isObjectMolLine, isMolLine,
      isMolObjectLine, stripIndent, List.dropWhile, List.isPrefixOf, isPrefixOf_append_cancel]

theorem cstStartHalf_filter [LinearOrderedField α] (env : Env α) (s : String)
    (bond : OBBond α) :
    (cstStartHalf env ("mol_" ++ s) bond).filter (fun l => !isQuietLine ("mol_" ++ s) l)
      = [ "\t    translate " ++ ("mol_" ++ s) ++ "_pos_" ++ toString bond.beginIdx ] := by
  simp only [cstStartHalf, List.filter_append]
  rw [thetaRotate_filter_quiet _ _ _ _ _ _ _
    (fun t => by simp [isQuietLine, isTranslateMolLine, isObjectMolLine, isMolLine,
      isMolObjectLine, stripIndent, List.dropWhile, List.isPrefixOf])]
  split_ifs <;>
    simp [List.filter, isQuietLine, isTranslateMolLine, isObjectMolLine, isMolLine,
      isMolObjectLine, stripIndent, List.dropWhile, List.isPrefixOf, isPrefixOf_append_cancel]

theorem cstEndHalf_filter [LinearOrderedField α] (env : Env α) (s : String)
    (bond : OBBond α) :
    (cstEndHalf env ("mol_" ++ s) bond).filter (fun l => !isQuietLine ("mol_" ++ s) l)
      = [ "\t    translate " ++ ("mol_" ++ s) ++ "_pos_" ++ toString bond.endIdx ] := by
  simp only [cstEndHalf, List.filter_append]
  rw [thetaRotate_filter_quiet _ _ _ _ _ _ _
    (fun t => by simp [isQuietLine, isTranslateMolLine, isObjectMolLine, isMolLine,
      isMolObjectLine, stripIndent, List.dropWhile, List.isPrefixOf])]
  split_ifs <;>
    simp [List.filter, isQuietLine, isTranslateMolLine, isObjectMolLine, isMolLine,
      isMolObjectLine, stripIndent, List.dropWhile, List.isPrefixOf, isPrefixOf_append_cancel]

theorem cstBond_filter [LinearOrderedField α] (env : Env α) (s : String) (i : Nat)
    (bond : OBBond α) :
    (cstBond env ("mol_" ++ s) i bond).filter (fun l => !isQuietLine ("mol_" ++ s) l)
      = [ "\t    translate " ++ ("mol_" ++ s) ++ "_pos_" ++ toString bond.beginIdx,
          "\t    translate " ++ ("mol_" ++ s) ++ "_pos_" ++ toString bond.endIdx ] := by
  simp only [cstBond, List.filter_append, cstStartHalf_filter, cstEndHalf_filter]
  simp [List.filter, isQuietLine, isTranslateMolLine, isObjectMolLine, isMolLine,
    isMolObjectLine, stripIndent, List.dropWhile, List.isPrefixOf, isPrefixOf_append_cancel]

theorem translate_line_declared (s ind n id : String) (ctx : List String)
    (hind : stripIndent (ind ++ "translate " ++ ("mol_" ++ s) ++ "_pos_" ++ n)
      = ("translate " ++ ("mol_" ++ s ++ "_pos_" ++ n)).data)
    (h : Declared ctx ("mol_" ++ s ++ "_pos_" ++ n))
    (hg : Generated ("mol_" ++ s) id)
    (hu : UsesIdent ("mol_" ++ s) id (ind ++ "translate " ++ ("mol_" ++ s) ++ "_pos_" ++ n)) :
    Declared ctx id := by
  rw [uses_translate s _ id _ hind hg hu]
  exact h

theorem basBond_scoped [LinearOrderedField α] (env : Env α) (s : String) (i : Nat)
    (bond : OBBond α) (ctx : List String)
    (h : Declared ctx ("mol_" ++ s ++ "_pos_" ++ toString bond.beginIdx)) :
    ScopedIn ("mol_" ++ s) ctx (basBond env ("mol_" ++ s) i bond) := by
  apply scopedIn_of_filter
  rw [basBond_filter]
  intro l hl id hg hu
  rw [List.mem_singleton] at hl
  subst hl
  generalize toString bond.beginIdx = n at h hu
  exact translate_line_declared s "\t  " n id ctx (by simp [stripIndent, List.dropWhile]) h hg hu

theorem cstBond_scoped [LinearOrderedField α] (env : Env α) (s : String) (i : Nat)
    (bond : OBBond α) (ctx : List String)
    (h1 : Declared ctx ("mol_" ++ s ++ "_pos_" ++ toString bond.beginIdx))
    (h2 : Declared ctx ("mol_" ++ s ++ "_pos_" ++ toString bond.endIdx)) :
    ScopedIn ("mol_" ++ s) ctx (cstBond env ("mol_" ++ s) i bond) := by
  apply scopedIn_of_filter
  rw [cstBond_filter]
  intro l hl id hg hu
  simp only [List.mem_cons, List.mem_singleton, List.not_mem_nil, or_false] at hl
  rcases hl with hl | hl
  · subst hl
    generalize toString bond.beginIdx = n at h1 hu
    exact translate_line_declared s "\t    " n id ctx (by simp [stripIndent, List.dropWhile])
      h1 hg hu
  · subst hl
    generalize toString bond.endIdx = n at h2 hu
    exact translate_line_declared s "\t    " n id ctx (by simp [stripIndent, List.dropWhile])
      h2 hg hu

theorem basBondLoop_scoped [LinearOrderedField α] (env : Env α) (s : String) (i : Nat)
    (bonds : List (OBBond α)) (ctx : List String)
    (h : ∀ b ∈ bonds, Declared ctx ("mol_" ++ s ++ "_pos_" ++ toString b.beginIdx)) :
    ScopedIn ("mol_" ++ s) ctx (basBondLoop env ("mol_" ++ s) i bonds) := by
  induction bonds generalizing i ctx with
  | nil => exact scopedIn_nil _ _
  | cons b rest ih =>
    rw [basBondLoop]
    apply scopedIn_append
    · exact basBond_scoped env s i b ctx (h b (List.mem_cons_self _ _))
    · apply ih
      intro b' hb'
      exact declared_append_left _ _ _ (h b' (List.mem_cons_of_mem _ hb'))

theorem cstBondLoop_scoped [LinearOrderedField α] (env : Env α) (s : String) (i : Nat)
    (bonds : List (OBBond α)) (ctx : List String)
    (h : ∀ b ∈ bonds, Declared ctx ("mol_" ++ s ++ "_pos_" ++ toString b.beginIdx)
      ∧ Declared ctx ("mol_" ++ s ++ "_pos_" ++ toString b.endIdx)) :
    ScopedIn ("mol_" ++ s) ctx (cstBondLoop env ("mol_" ++ s) i bonds) := by
  induction bonds generalizing i ctx with
  | nil => exact scopedIn_nil _ _
  | cons b rest ih =>
    rw [cstBondLoop]
    apply scopedIn_append
    · exact cstBond_scoped env s i b ctx (h b (List.mem_cons_self _ _)).1
        (h b (List.mem_cons_self _ _)).2
    · apply ih
      intro b' hb'
      exact ⟨declared_append_left _ _ _ (h b' (List.mem_cons_of_mem _ hb')).1,
        declared_append_left _ _ _ (h b' (List.mem_cons_of_mem _ hb')).2⟩

theorem basBondLoop_declared [LinearOrderedField α] (env : Env α) (pfx : String) (i : Nat)
    (bonds : List (OBBond α)) (k : Nat) (hk : k < bonds.length) :
    Declared (basBondLoop env pfx i bonds) (pfx ++ "_bond" ++ toString (i + k)) := by
  induction bonds generalizing i k with
  | nil => simp at hk
  | cons b rest ih =>
    rw [basBondLoop]
    cases k with
    | zero =>
      apply declared_append_left
      refine ⟨"#declare " ++ pfx ++ "_bond" ++ toString i ++ " = object \x7b", ?_, ?_⟩
      · simp [basBond]
      · simp [declaresName, List.isPrefixOf, isPrefixOf_append_cancel]
    | succ k =>
      apply declared_append_right
      rw [show i + (k + 1) = i + 1 + k by omega]
      exact ih (i + 1) k (by simpa using hk)

theorem bondDeclarations_scoped [LinearOrderedField α] (env : Env α) (mol : OBMol α)
    (s : String) (ctx : List String)
    (h : ∀ b ∈ mol.bonds, Declared ctx ("mol_" ++ s ++ "_pos_" ++ toString b.beginIdx)
      ∧ Declared ctx ("mol_" ++ s ++ "_pos_" ++ toString b.endIdx)) :
    ScopedIn ("mol_" ++ s) ctx (bondDeclarations env mol ("mol_" ++ s)) := by
  simp only [bondDeclarations, OutputBASBonds, OutputCSTBonds]
  split_ifs
  · apply scopedIn_append
    · apply scopedIn_append
      · apply scopedIn_append
        · apply scopedIn_append
          · apply scopedIn_of_quiet
            simp [isQuietLine, isTranslateMolLine, isObjectMolLine, isMolLine,
              isMolObjectLine, stripIndent, List.dropWhile, List.isPrefixOf]
          · apply basBondLoop_scoped
            intro b hb
            exact declared_append_left _ _ _ (h b hb).1
        · apply scopedIn_of_quiet
          simp [isQuietLine, isTranslateMolLine, isObjectMolLine, isMolLine,
            isMolObjectLine, stripIndent, List.dropWhile, List.isPrefixOf]
      · apply cstBondLoop_scoped
        intro b hb
        exact ⟨declared_append_left _ _ _ (h b hb).1, declared_append_left _ _ _ (h b hb).2⟩
    · apply scopedIn_of_quiet
      simp [isQuietLine, isTranslateMolLine, isObjectMolLine, isMolLine,
        isMolObjectLine, stripIndent, List.dropWhile, List.isPrefixOf]
  · exact scopedIn_nil _ _

theorem bondDeclarations_declared [LinearOrderedField α] (env : Env α) (mol : OBMol α)
    (pfx : String) (k : Nat) (hk : k < mol.NumBonds) :
    Declared (bondDeclarations env mol pfx) (pfx ++ "_bond" ++ toString k) := by
  have hpos : mol.NumBonds > 0 := by omega
  simp only [bondDeclarations, OutputBASBonds, if_pos hpos]
  apply declared_append_left
  apply declared_append_left
  apply declared_append_left
  apply declared_append_right
  have := basBondLoop_declared env pfx 0 mol.bonds k hk
  rwa [Nat.zero_add] at this

end ScopeProofs4

section ScopeProofs5

variable {α : Type}

theorem objectRef_line_declared (s ind x id : String) (ctx : List String)
    (hind : stripIndent (ind ++ "object\x7b" ++ ("mol_" ++ s) ++ x ++ "\x7d")
      = ("object\x7b" ++ ("mol_" ++ s ++ x) ++ "\x7d").data)
    (h : Declared ctx ("mol_" ++ s ++ x))
    (hg : Generated ("mol_" ++ s) id)
    (hu : UsesIdent ("mol_" ++ s) id (ind ++ "object\x7b" ++ ("mol_" ++ s) ++ x ++ "\x7d")) :
    Declared ctx id := by
  rw [uses_objectRef s _ id _ hind hg hu]
  exact h

theorem unionAtomLoop_scoped (s : String) (i n : Nat) (ctx : List String)
    (h : ∀ k, k < n → Declared ctx ("mol_" ++ s ++ "_atom" ++ toString (i + k))) :
    ScopedIn ("mol_" ++ s) ctx (unionAtomLoop ("mol_" ++ s) i n) := by
  induction n generalizing i ctx with
  | zero => exact scopedIn_nil _ _
  | succ n ih =>
    rw [unionAtomLoop]
    apply scopedIn_cons
    · intro id hg hu
      have h0 := h 0 (by omega)
      rw [Nat.add_zero] at h0
      generalize toString i = m at h0 hu
      have hu' : UsesIdent ("mol_" ++ s) id
          ("\t  " ++ "object\x7b" ++ ("mol_" ++ s) ++ ("_atom" ++ m) ++ "\x7d") := by
        simpa [String.append_assoc] using hu
      exact objectRef_line_declared s "\t  " ("_atom" ++ m) id ctx
        (by simp [stripIndent, List.dropWhile]) (by simpa [String.append_assoc] using h0) hg hu'
    · apply ih
      intro k hk
      apply declared_append_left
      rw [show i + 1 + k = i + (k + 1) by omega]
      exact h (k + 1) (by omega)

theorem unionBondLoop_scoped (s : String) (i n : Nat) (ctx : List String)
    (h : ∀ k, k < n → Declared ctx ("mol_" ++ s ++ "_bond" ++ toString (i + k))) :
    ScopedIn ("mol_" ++ s) ctx (unionBondLoop ("mol_" ++ s) i n) := by
  induction n generalizing i ctx with
  | zero => exact scopedIn_nil _ _
  | succ n ih =>
    rw [unionBondLoop]
    apply scopedIn_cons
    · intro id hg hu
      have h0 := h 0 (by omega)
      rw [Nat.add_zero] at h0
      generalize toString i = m at h0 hu
      have hu' : UsesIdent ("mol_" ++ s) id
          ("\t  " ++ "object\x7b" ++ ("mol_" ++ s) ++ ("_bond" ++ m) ++ "\x7d") := by
        simpa [String.append_assoc] using hu
      exact objectRef_line_declared s "\t  " ("_bond" ++ m) id ctx
        (by simp [stripIndent, List.dropWhile]) (by simpa [String.append_assoc] using h0) hg hu'
    · apply ih
      intro k hk
      apply declared_append_left
      rw [show i + 1 + k = i + (k + 1) by omega]
      exact h (k + 1) (by omega)

theorem OutputUnions_scoped [LinearOrderedField α] (mol : OBMol α) (s : String)
    (ctx : List String)
    (ha : ∀ j, 1 ≤ j → j ≤ mol.NumAtoms → Declared ctx ("mol_" ++ s ++ "_atom" ++ toString j))
    (hb : ∀ k, k < mol.NumBonds → Declared ctx ("mol_" ++ s ++ "_bond" ++ toString k)) :
    ScopedIn ("mol_" ++ s) ctx (OutputUnions mol ("mol_" ++ s)) := by
  simp only [OutputUnions]
  apply scopedIn_append
  · apply scopedIn_append
    · apply scopedIn_append
      · apply scopedIn_of_quiet
        simp [isQuietLine, isTranslateMolLine, isObjectMolLine, isMolLine,
          isMolObjectLine, stripIndent, List.dropWhile, List.isPrefixOf,
          isPrefixOf_append_cancel]
      · apply unionAtomLoop_scoped
        intro k hk
        exact declared_append_left _ _ _ (ha (1 + k) (by omega) (by omega))
    · apply scopedIn_of_quiet
      simp [isQuietLine, isTranslateMolLine, isObjectMolLine, isMolLine,
        isMolObjectLine, stripIndent, List.dropWhile, List.isPrefixOf]
  · split_ifs
    · apply scopedIn_append
      · apply scopedIn_append
        · apply scopedIn_of_quiet
          simp [isQuietLine, isTranslateMolLine, isObjectMolLine, isMolLine,
            isMolObjectLine, stripIndent, List.dropWhile, List.isPrefixOf,
            isPrefixOf_append_cancel]
        · apply unionBondLoop_scoped
          intro k hk
          rw [Nat.zero_add]
          exact declared_append_left _ _ _ (declared_append_left _ _ _ (hb k hk))
      · apply scopedIn_of_quiet
        simp [isQuietLine, isTranslateMolLine, isObjectMolLine, isMolLine,
          isMolObjectLine, stripIndent, List.dropWhile, List.isPrefixOf]
    · exact scopedIn_nil _ _

theorem OutputUnions_declared_atoms [LinearOrderedField α] (mol : OBMol α) (pfx : String) :
    Declared (OutputUnions mol pfx) (pfx ++ "_atoms") := by
  refine ⟨"#declare " ++ pfx ++ "_atoms = merge \x7b", ?_, ?_⟩
  · simp [OutputUnions]
  · simp [declaresName, List.isPrefixOf, isPrefixOf_append_cancel]

theorem OutputUnions_declared_bonds [LinearOrderedField α] (mol : OBMol α) (pfx : String)
    (h : mol.NumBonds > 0) : Declared (OutputUnions mol pfx) (pfx ++ "_bonds") := by
  refine ⟨"#declare " ++ pfx ++ "_bonds = union \x7b", ?_, ?_⟩
  · simp [OutputUnions, h]
  · simp [declaresName, List.isPrefixOf, isPrefixOf_append_cancel]

theorem bare_line_declared (s ind x id : String) (ctx : List String)
    (hind : stripIndent (ind ++ ("mol_" ++ s) ++ x) = ("mol_" ++ (s ++ x)).data)
    (h : Declared ctx ("mol_" ++ s ++ x))
    (hu : UsesIdent ("mol_" ++ s) id (ind ++ ("mol_" ++ s) ++ x)) :
    Declared ctx id := by
  rw [uses_bare s _ id _ hind hu]
  simpa [String.append_assoc] using h

theorem OutputMoleculeBonds_filter [LinearOrderedField α] (env : Env α) (s : String)
    (b : BoundingBox α) :
    (OutputMoleculeBonds env ("mol_" ++ s) b).filter (fun l => !isQuietLine ("mol_" ++ s) l)
      = [ "\t  " ++ ("mol_" ++ s) ++ "_atoms",
          "\t  object\x7b" ++ ("mol_" ++ s) ++ "_atoms\x7d",
          "\t   object\x7b" ++ ("mol_" ++ s) ++ "_bonds\x7d",
          "\t   object\x7b" ++ ("mol_" ++ s) ++ "_atoms\x7d",
          "\t  object\x7b" ++ ("mol_" ++ s) ++ "_bonds\x7d" ] := by
  simp [OutputMoleculeBonds, List.filter, isQuietLine, isTranslateMolLine, isObjectMolLine,
    isMolLine, isMolObjectLine, stripIndent, List.dropWhile, List.isPrefixOf,
    isPrefixOf_append_cancel]

theorem OutputMoleculeBonds_scoped [LinearOrderedField α] (env : Env α) (s : String)
    (b : BoundingBox α) (ctx : List String)
    (ha : Declared ctx ("mol_" ++ s ++ "_atoms")) (hb : Declared ctx ("mol_" ++ s ++ "_bonds")) :
    ScopedIn ("mol_" ++ s) ctx (OutputMoleculeBonds env ("mol_" ++ s) b) := by
  apply scopedIn_of_filter
  rw [OutputMoleculeBonds_filter]
  intro l hl id hg hu
  simp only [List.mem_cons, List.mem_singleton, List.not_mem_nil, or_false] at hl
  rcases hl with hl | hl | hl | hl | hl <;> subst hl
  · exact bare_line_declared s "\t  " "_atoms" id ctx (by simp [stripIndent, List.dropWhile])
      ha hu
  · exact objectRef_line_declared s "\t  " "_atoms" id ctx
      (by simp [stripIndent, List.dropWhile]) ha hg (by simpa [String.append_assoc] using hu)
  · exact objectRef_line_declared s "\t   " "_bonds" id ctx
      (by simp [stripIndent, List.dropWhile]) hb hg (by simpa [String.append_assoc] using hu)
  · exact objectRef_line_declared s "\t   " "_atoms" id ctx
      (by simp [stripIndent, List.dropWhile]) ha hg (by simpa [String.append_assoc] using hu)
  · exact objectRef_line_declared s "\t  " "_bonds" id ctx
      (by simp [stripIndent, List.dropWhile]) hb hg (by simpa [String.append_assoc] using hu)

theorem OutputMoleculeNoBonds_scoped (s : String) (ctx : List String)
    (ha : Declared ctx ("mol_" ++ s ++ "_atoms")) :
    ScopedIn ("mol_" ++ s) ctx (OutputMoleculeNoBonds ("mol_" ++ s)) := by
  apply scopedIn_of_filter
  have hf : (OutputMoleculeNoBonds ("mol_" ++ s)).filter
      (fun l => !isQuietLine ("mol_" ++ s) l)
      = [ "#declare " ++ ("mol_" ++ s) ++ " = object \x7b" ++ ("mol_" ++ s ++ "_atoms")
          ++ "\x7d" ] := by
    simp [OutputMoleculeNoBonds, List.filter, isQuietLine, isTranslateMolLine, isObjectMolLine,
      isMolLine, isMolObjectLine, stripIndent, List.dropWhile, List.isPrefixOf,
      isPrefixOf_append_cancel]
    exact string_eq_of_data_eq _ _ (by simp)
  rw [hf]
  intro l hl id hg hu
  rw [List.mem_singleton] at hl
  subst hl
  rw [uses_molObject s id _ hg hu]
  exact ha

theorem moleculeDefinition_scoped [LinearOrderedField α] (env : Env α) (mol : OBMol α)
    (s : String) (ctx : List String)
    (ha : Declared ctx ("mol_" ++ s ++ "_atoms"))
    (hb : mol.NumBonds > 0 → Declared ctx ("mol_" ++ s ++ "_bonds")) :
    ScopedIn ("mol_" ++ s) ctx (moleculeDefinition env mol ("mol_" ++ s)) := by
  simp only [moleculeDefinition]
  split_ifs with h
  · exact OutputMoleculeBonds_scoped env s _ ctx ha (hb h)
  · exact OutputMoleculeNoBonds_scoped s ctx ha

theorem moleculeDefinition_declared [LinearOrderedField α] (env : Env α) (mol : OBMol α)
    (pfx : String) : Declared (moleculeDefinition env mol pfx) pfx := by
  simp only [moleculeDefinition]
  split_ifs
  · refine ⟨"#declare " ++ pfx ++ " = object\x7b", ?_, ?_⟩
    · simp [OutputMoleculeBonds]
    · simp [declaresName, List.isPrefixOf, isPrefixOf_append_cancel]
  · refine ⟨"#declare " ++ pfx ++ " = object \x7b" ++ pfx ++ "_atoms\x7d", ?_, ?_⟩
    · simp [OutputMoleculeNoBonds]
    · simp [declaresName, List.isPrefixOf, isPrefixOf_append_cancel]

theorem OutputCenterComment_quiet [LinearOrderedField α] (env : Env α) (s : String)
    (b : BoundingBox α) :
    (OutputCenterComment env ("mol_" ++ s) b).all (isQuietLine ("mol_" ++ s)) = true := by
  simp [OutputCenterComment, isQuietLine, isTranslateMolLine, isObjectMolLine, isMolLine,
    isMolObjectLine, stripIndent, List.dropWhile, List.isPrefixOf, isPrefixOf_append_cancel]

theorem final_line_scoped (s : String) (ctx : List String) (h : Declared ctx ("mol_" ++ s)) :
    ScopedIn ("mol_" ++ s) ctx [ "mol_" ++ s ] := by
  apply scopedIn_cons _ _ _ _ _ (scopedIn_nil _ _)
  intro id hg hu
  have hu' : UsesIdent ("mol_" ++ s) id ("" ++ ("mol_" ++ s) ++ "") := by simpa using hu
  exact bare_line_declared s "" "" id ctx (by simp [stripIndent, List.dropWhile])
    (by simpa using h) hu'

end ScopeProofs5

section ScopeProofs6

variable {α : Type}

theorem molPrefix_eq (num : Nat) :
    molPrefix num = "mol_" ++ (if num = 0 then toString num else toString num ++ toString num) := by
  simp only [molPrefix]
  split_ifs
  · rfl
  · exact String.append_assoc _ _ _

theorem WriteMoleculeBody_scoped [LinearOrderedField α] (env : Env α) (mol : OBMol α)
    (s : String) (ctx : List String) (hv : BondIndicesValid mol) :
    ScopedIn ("mol_" ++ s) ctx (WriteMoleculeBody env mol ("mol_" ++ s)) := by
  simp only [WriteMoleculeBody]
  apply scopedIn_append
  · apply scopedIn_append
    · apply scopedIn_append
      · apply scopedIn_append
        · apply scopedIn_append
          · exact OutputAtoms_scoped env mol s ctx
          · apply bondDeclarations_scoped
            intro b hb
            obtain ⟨⟨h1, h2⟩, h3, h4⟩ := hv b hb
            exact ⟨declared_append_right _ _ _ (OutputAtoms_declared_pos env mol _ _ h1 h2),
              declared_append_right _ _ _ (OutputAtoms_declared_pos env mol _ _ h3 h4)⟩
        · apply OutputUnions_scoped
          · intro j h1 h2
            exact declared_append_right _ _ _
              (declared_append_left _ _ _ (OutputAtoms_declared_atom env mol _ j h1 h2))
          · intro k hk
            exact declared_append_right _ _ _
              (declared_append_right _ _ _ (bondDeclarations_declared env mol _ k hk))
      · apply moleculeDefinition_scoped
        · exact declared_append_right _ _ _
            (declared_append_right _ _ _ (OutputUnions_declared_atoms mol _))
        · intro h
          exact declared_append_right _ _ _
            (declared_append_right _ _ _ (OutputUnions_declared_bonds mol _ h))
    · exact scopedIn_of_quiet _ _ _ (OutputCenterComment_quiet env s _)
  · apply final_line_scoped
    exact declared_append_right _ _ _
      (declared_append_left _ _ _
        (declared_append_right _ _ _ (moleculeDefinition_declared env mol _)))

theorem WriteMoleculeText_scoped [LinearOrderedField α] (env : Env α) (timestr : String)
    (pConv : OBConversion) (num : Nat) (mol : OBMol α) (hv : BondIndicesValid mol) :
    ScopedIn (molPrefix num) [] (WriteMoleculeText env timestr pConv num mol) := by
  simp only [WriteMoleculeText]
  rw [molPrefix_eq]
  apply scopedIn_append
  · split_ifs
    · apply scopedIn_of_quiet
      exact OutputHeader_quiet env (readOptions pConv) timestr mol _ _
        (resolveModelType_cases pConv.m)
    · exact scopedIn_nil _ _
  · exact WriteMoleculeBody_scoped env mol _ _ hv

/-- C1: for every molecule whose bonds have begin and end atom indices in
`1..N`, in the lines one call of `WriteMolecule` writes every use of a generated
identifier (`translate id`, `object\x7bid\x7d`, `id` alone on a line, or the
definition of the molecule as `object \x7bid\x7d`) comes after a line that
declares it with `#declare id`. -/
theorem C1_declared_before_use [LinearOrderedField α] (env : Env α) (timestr : String)
    (pConv : OBConversion) (num : Nat) (mol : OBMol α) (hv : BondIndicesValid mol) :
    DeclaredBeforeUse (molPrefix num) (WriteMoleculeText env timestr pConv num mol) := by
  intro pre l post id he hg hu
  have := WriteMoleculeText_scoped env timestr pConv num mol hv pre l post id he hg hu
  simpa using this

end ScopeProofs6

section BraceProofs

variable {α : Type}

theorem selectLines_append (f : Flags) (st : CondStack) (a b : List String) :
    selectLines f st (a ++ b) = selectLines f st a ++ selectLines f (stackAfter f st a) b := by
  induction a generalizing st with
  | nil => rfl
  | cons l a ih =>
    simp only [List.cons_append, selectLines, stackAfter, List.foldl_cons]
    by_cases hd : isDirective l = true
    · have hs : stackStep f st l = stackStep f st l := rfl
      simp only [hd, if_true]
      exact ih _
    · have hd' : isDirective l = false := by simpa using hd
      have hst : stackStep f st l = st := by
        simp only [isDirective, Bool.or_eq_false_iff] at hd'
        simp [stackStep, hd'.1.1, hd'.1.2, hd'.2]
      simp only [hd', Bool.false_eq_true, if_false, hst]
      split_ifs
      · exact congrArg (List.cons l) (ih st)
      · exact ih _

theorem stackAfter_append (f : Flags) (st : CondStack) (a b : List String) :
    stackAfter f st (a ++ b) = stackAfter f (stackAfter f st a) b := by
  simp [stackAfter, List.foldl_append]

theorem stackAfter_plain (f : Flags) (st : CondStack) (ls : List String)
    (h : ls.all (fun l => !isDirective l) = true) : stackAfter f st ls = st := by
  induction ls with
  | nil => rfl
  | cons l ls ih =>
    simp only [List.all_cons, Bool.and_eq_true, Bool.not_eq_true'] at h
    have hd := h.1
    simp only [isDirective, Bool.or_eq_false_iff] at hd
    have hst : stackStep f st l = st := by simp [stackStep, hd.1.1, hd.1.2, hd.2]
    simp only [stackAfter, List.foldl_cons, hst]
    exact ih h.2

theorem selectLines_plain (f : Flags) (st : CondStack) (ls : List String)
    (h : ls.all (fun l => !isDirective l) = true) :
    selectLines f st ls = if stackActive st then ls else [] := by
  induction ls with
  | nil => simp [selectLines]
  | cons l ls ih =>
    simp only [List.all_cons, Bool.and_eq_true, Bool.not_eq_true'] at h
    simp only [selectLines, h.1, Bool.false_eq_true, if_false, ih h.2]
    split_ifs <;> rfl

theorem textDepth_append (d : Option Nat) (a b : List String) :
    textDepth d (a ++ b) = textDepth (textDepth d a) b := by
  simp [textDepth, List.filter_append, List.foldl_append]

theorem braceDepth_append (d : Option Nat) (a b : List Char) :
    braceDepth d (a ++ b) = braceDepth (braceDepth d a) b := by
  simp [braceDepth, List.foldl_append]

theorem braceDepth_of_forall (cs : List Char) (d : Option Nat)
    (h : ∀ c ∈ cs, c ≠ '\x7b' ∧ c ≠ '\x7d') : braceDepth d cs = d := by
  induction cs generalizing d with
  | nil => rfl
  | cons c cs ih =>
    have hc := h c (List.mem_cons_self _ _)
    have hstep : braceStep d c = d := by
      cases d with
      | none => rfl
      | some n => simp [braceStep, hc.1, hc.2]
    simp only [braceDepth, List.foldl_cons, hstep]
    exact ih d (fun c' hc' => h c' (List.mem_cons_of_mem _ hc'))

theorem braceDepth_noBrace (s : String) (d : Option Nat) (h : NoBrace s) :
    braceDepth d s.data = d :=
  braceDepth_of_forall _ _ h

theorem digitChar_noBrace : ∀ k, k < 10 →
    Nat.digitChar k ≠ '\x7b' ∧ Nat.digitChar k ≠ '\x7d' := by
  decide

theorem toDigitsCore_noBrace (fuel n : Nat) (ds : List Char)
    (h : ∀ c ∈ ds, c ≠ '\x7b' ∧ c ≠ '\x7d') :
    ∀ c ∈ Nat.toDigitsCore 10 fuel n ds, c ≠ '\x7b' ∧ c ≠ '\x7d' := by
  induction fuel generalizing n ds with
  | zero => simpa [Nat.toDigitsCore] using h
  | succ fuel ih =>
    have hd := digitChar_noBrace (n % 10) (Nat.mod_lt _ (by norm_num))
    have hds : ∀ c ∈ Nat.digitChar (n % 10) :: ds, c ≠ '\x7b' ∧ c ≠ '\x7d' := by
      intro c hc
      rcases List.mem_cons.mp hc with rfl | hc
      · exact hd
      · exact h c hc
    simp only [Nat.toDigitsCore]
    split_ifs
    · exact hds
    · exact ih _ _ hds

theorem noBrace_toString (n : Nat) : NoBrace (toString n) := by
  intro c hc
  have : (toString n).data = Nat.toDigits 10 n := rfl
  rw [this] at hc
  exact toDigitsCore_noBrace _ _ [] (by simp) c hc

theorem noBrace_append (a b : String) (ha : NoBrace a) (hb : NoBrace b) : NoBrace (a ++ b) := by
  intro c hc
  simp only [String.data_append, List.mem_append] at hc
  rcases hc with hc | hc
  · exact ha c hc
  · exact hb c hc

theorem noBrace_molPrefix (num : Nat) : NoBrace (molPrefix num) := by
  simp only [molPrefix]
  have h0 : NoBrace "mol_" := by
    intro c hc
    simp only [List.mem_cons, List.mem_singleton, List.not_mem_nil, or_false] at hc
    rcases hc with rfl | rfl | rfl | rfl <;> decide
  split_ifs
  · exact noBrace_append _ _ h0 (noBrace_toString _)
  · exact noBrace_append _ _ (noBrace_append _ _ h0 (noBrace_toString _)) (noBrace_toString _)

theorem noBrace_eraseDots (s : String) (h : NoBrace s) : NoBrace (eraseDots s) := by
  intro c hc
  simp only [eraseDots, List.mem_filter] at hc
  exact h c hc.1

end BraceProofs

section BraceProofs2

variable {α : Type}

theorem braceDepth_nil (d : Option Nat) : braceDepth d [] = d := rfl

theorem braceDepth_cons_open (n : Nat) (cs : List Char) :
    braceDepth (some n) ('\x7b' :: cs) = braceDepth (some (n + 1)) cs := rfl

theorem braceDepth_cons_close (n : Nat) (cs : List Char) :
    braceDepth (some (n + 1)) ('\x7d' :: cs) = braceDepth (some n) cs := rfl

theorem braceDepth_cons_other (d : Option Nat) (c : Char) (cs : List Char)
    (h1 : c ≠ '\x7b') (h2 : c ≠ '\x7d') : braceDepth d (c :: cs) = braceDepth d cs := by
  cases d with
  | none => simp [braceDepth, braceStep]
  | some n => simp [braceDepth, braceStep, h1, h2]

theorem textDepth_nil (d : Option Nat) : textDepth d [] = d := rfl

theorem textDepth_cons (d : Option Nat) (l : String) (ls : List String) :
    textDepth d (l :: ls)
      = if isCommentLine l then textDepth d ls else textDepth (braceDepth d l.data) ls := by
  simp only [textDepth, List.filter_cons]
  split_ifs <;> simp_all

theorem atomPosLoop_textDepth [LinearOrderedField α] (env : Env α) (pfx : String) (i : Nat)
    (atoms : List (OBAtom α)) (d : Option Nat) (hp : NoBrace pfx)
    (hf : ∀ x, NoBrace (env.fmt x)) :
    textDepth d (atomPosLoop env pfx i atoms) = d := by
  induction atoms generalizing i with
  | nil => rfl
  | cons a rest ih =>
    have hl : braceDepth d (atomPosLine env pfx i a).data = d := by
      simp [atomPosLine, braceDepth_nil, braceDepth_cons_other,
        braceDepth_append, braceDepth_noBrace, hp, hf, noBrace_toString]
    rw [atomPosLoop, textDepth_cons, hl, ih]
    simp

theorem atomObject_textDepth [LinearOrderedField α] (pfx : String) (i : Nat) (atom : OBAtom α)
    (n : Nat) (hp : NoBrace pfx) (hs : NoBrace atom.symbol) :
    textDepth (some n) (atomObject pfx i atom) = some n := by
  simp [atomObject, textDepth_cons, textDepth_nil, isCommentLine, List.isPrefixOf,
    braceDepth_nil, braceDepth_cons_open, braceDepth_cons_close, braceDepth_cons_other,
    braceDepth_append, braceDepth_noBrace, hp, hs, noBrace_toString]

theorem atomObjectLoop_textDepth [LinearOrderedField α] (pfx : String) (i : Nat)
    (atoms : List (OBAtom α)) (n : Nat) (hp : NoBrace pfx)
    (hs : ∀ a ∈ atoms, NoBrace a.symbol) :
    textDepth (some n) (atomObjectLoop pfx i atoms) = some n := by
  induction atoms generalizing i with
  | nil => rfl
  | cons a rest ih =>
    rw [atomObjectLoop, textDepth_append,
      atomObject_textDepth pfx i a n hp (hs a (List.mem_cons_self _ _)),
      ih _ (fun b hb => hs b (List.mem_cons_of_mem _ hb))]

theorem thetaRotate_textDepth [LinearOrderedField α] (env : Env α) (ind : String) (g : Bool)
    (theta z1 z2 : α) (d : Option Nat)
    (h : ∀ v, textDepth d [ind ++ ("rotate <0.0000," ++ (env.fmt v ++ ",0.0000>"))] = d) :
    textDepth d (thetaRotate env ind g theta z1 z2) = d := by
  simp only [thetaRotate]
  split_ifs
  · simpa [String.append_assoc] using h ((180 * (-1) * theta) / env.PI)
  · simpa [String.append_assoc] using h (RAD2DEG env theta)
  · rfl

theorem basBond_textDepth [LinearOrderedField α] (env : Env α) (pfx : String) (i : Nat)
    (bond : OBBond α) (n : Nat) (hp : NoBrace pfx) (hf : ∀ x, NoBrace (env.fmt x)) :
    textDepth (some n) (basBond env pfx i bond) = some n := by
  have hrot := thetaRotate_textDepth env "\t  " (decide ((basGeometry env bond).theta ≥ EPSILON))
    (basGeometry env bond).theta bond.beginAtom.z bond.endAtom.z (some (n + 1))
    (fun v => by
      simp [textDepth_cons, textDepth_nil, isCommentLine, List.isPrefixOf,
        braceDepth_nil, braceDepth_cons_other, braceDepth_append, braceDepth_noBrace, hf])
  simp only [basBond, textDepth_append]
  have h1 : textDepth (some n) [ "#declare " ++ pfx ++ "_bond" ++ toString i ++ " = object \x7b",
      "\t  bond_" ++ toString bond.order ] = some (n + 1) := by
    simp [textDepth_cons, textDepth_nil, isCommentLine, List.isPrefixOf,
      braceDepth_nil, braceDepth_cons_open, braceDepth_cons_other,
      braceDepth_append, braceDepth_noBrace, hp, noBrace_toString]
  have h2 : textDepth (some (n + 1)) (if |(basGeometry env bond).dist| ≥ EPSILON then
      [ "\t  scale <" ++ env.fmt (basGeometry env bond).dist ++ ",1.0000,1.0000>" ] else [])
      = some (n + 1) := by
    split_ifs
    · simp [textDepth_cons, textDepth_nil, isCommentLine, List.isPrefixOf,
        braceDepth_nil, braceDepth_cons_other, braceDepth_append, braceDepth_noBrace, hf]
    · rfl
  have h3 : textDepth (some (n + 1))
      (if |RAD2DEG env (-(basGeometry env bond).phi) + 90| ≥ EPSILON then
        [ "\t  rotate <0.0000,0.0000," ++ env.fmt (RAD2DEG env (-(basGeometry env bond).phi) + 90)
            ++ ">" ] else [])
      = some (n + 1) := by
    split_ifs
    · simp [textDepth_cons, textDepth_nil, isCommentLine, List.isPrefixOf,
        braceDepth_nil, braceDepth_cons_other, braceDepth_append, braceDepth_noBrace, hf]
    · rfl
  have h4 : textDepth (some (n + 1))
      [ "\t  translate " ++ pfx ++ "_pos_" ++ toString bond.beginIdx, "\t \x7d" ] = some n := by
    simp [textDepth_cons, textDepth_nil, isCommentLine, List.isPrefixOf,
      braceDepth_nil, braceDepth_cons_close, braceDepth_cons_other,
      braceDepth_append, braceDepth_noBrace, hp, noBrace_toString]
  rw [h1, h2, h3, hrot, h4]

theorem basBondLoop_textDepth [LinearOrderedField α] (env : Env α) (pfx : String) (i : Nat)
    (bonds : List (OBBond α)) (n : Nat) (hp : NoBrace pfx) (hf : ∀ x, NoBrace (env.fmt x)) :
    textDepth (some n) (basBondLoop env pfx i bonds) = some n := by
  induction bonds generalizing i with
  | nil => rfl
  | cons b rest ih => rw [basBondLoop, textDepth_append, basBond_textDepth env pfx i b n hp hf, ih]

end BraceProofs2

section BraceProofs3

variable {α : Type}

theorem cstHalf_textDepth [LinearOrderedField α] (env : Env α) (pfx ty : String)
    (order idx : Nat) (n : Nat) (c1 c2 g : Bool) (v1 v2 theta z1 z2 : α)
    (hp : NoBrace pfx) (hf : ∀ x, NoBrace (env.fmt x)) (ht : NoBrace ty) :
    textDepth (some n)
      ([ "\t   object \x7b",
         "\t    bond_" ++ toString order,
         "\t    pigment\x7bcolor Color_" ++ ty ++ "\x7d" ]
        ++ (if c1 = true then [ "\t    scale <" ++ env.fmt v1 ++ ",1.0000,1.0000>" ] else [])
        ++ (if c2 = true then [ "\t    rotate <0.0000,0.0000," ++ env.fmt v2 ++ ">" ] else [])
        ++ thetaRotate env "\t    " g theta z1 z2
        ++ [ "\t    translate " ++ pfx ++ "_pos_" ++ toString idx, "\t   \x7d" ]) = some n := by
  have hrot := thetaRotate_textDepth env "\t    " g theta z1 z2 (some (n + 1))
    (fun v => by
      simp [textDepth_cons, textDepth_nil, isCommentLine, List.isPrefixOf,
        braceDepth_nil, braceDepth_cons_other, braceDepth_append, braceDepth_noBrace, hf])
  have h1 : textDepth (some n) [ "\t   object \x7b", "\t    bond_" ++ toString order,
      "\t    pigment\x7bcolor Color_" ++ ty ++ "\x7d" ] = some (n + 1) := by
    simp [textDepth_cons, textDepth_nil, isCommentLine, List.isPrefixOf,
      braceDepth_nil, braceDepth_cons_open, braceDepth_cons_close, braceDepth_cons_other,
      braceDepth_append, braceDepth_noBrace, ht, noBrace_toString]
  have h2 : textDepth (some (n + 1))
      (if c1 = true then [ "\t    scale <" ++ env.fmt v1 ++ ",1.0000,1.0000>" ] else [])
      = some (n + 1) := by
    split_ifs
    · simp [textDepth_cons, textDepth_nil, isCommentLine, List.isPrefixOf,
        braceDepth_nil, braceDepth_cons_other, braceDepth_append, braceDepth_noBrace, hf]
    · rfl
  have h3 : textDepth (some (n + 1))
      (if c2 = true then [ "\t    rotate <0.0000,0.0000," ++ env.fmt v2 ++ ">" ] else [])
      = some (n + 1) := by
    split_ifs
    · simp [textDepth_cons, textDepth_nil, isCommentLine, List.isPrefixOf,
        braceDepth_nil, braceDepth_cons_other, braceDepth_append, braceDepth_noBrace, hf]
    · rfl
  have h4 : textDepth (some (n + 1))
      [ "\t    translate " ++ pfx ++ "_pos_" ++ toString idx, "\t   \x7d" ] = some n := by
    simp [textDepth_cons, textDepth_nil, isCommentLine, List.isPrefixOf,
      braceDepth_nil, braceDepth_cons_close, braceDepth_cons_other,
      braceDepth_append, braceDepth_noBrace, hp, noBrace_toString]
  rw [textDepth_append, textDepth_append, textDepth_append, textDepth_append, h1, h2, h3, hrot, h4]

theorem cstStartHalf_textDepth [LinearOrderedField α] (env : Env α) (pfx : String)
    (bond : OBBond α) (n : Nat) (hp : NoBrace pfx) (hf : ∀ x, NoBrace (env.fmt x))
    (ht : NoBrace bond.beginAtom.type) :
    textDepth (some n) (cstStartHalf env pfx bond) = some n := by
  have := cstHalf_textDepth env pfx (eraseDots bond.beginAtom.type) bond.order bond.beginIdx n
    (decide (|2 * (cstGeometry env bond).dist| ≥ EPSILON))
    (decide (|RAD2DEG env (-(cstGeometry env bond).phi) + 90| ≥ EPSILON))
    (decide ((cstGeometry env bond).theta ≥ EPSILON))
    (0.5 * (cstGeometry env bond).dist) (RAD2DEG env (-(cstGeometry env bond).phi) + 90)
    (cstGeometry env bond).theta bond.beginAtom.z bond.endAtom.z hp hf (noBrace_eraseDots _ ht)
  simpa only [cstStartHalf, decide_eq_true_eq] using this

theorem cstEndHalf_textDepth [LinearOrderedField α] (env : Env α) (pfx : String)
    (bond : OBBond α) (n : Nat) (hp : NoBrace pfx) (hf : ∀ x, NoBrace (env.fmt x))
    (ht : NoBrace bond.endAtom.type) :
    textDepth (some n) (cstEndHalf env pfx bond) = some n := by
  have := cstHalf_textDepth env pfx (eraseDots bond.endAtom.type) bond.order bond.endIdx n
    (decide (|2 * (cstGeometry env bond).dist| ≥ EPSILON))
    (decide (|RAD2DEG env (-(cstGeometry env bond).phi) + 270| ≥ EPSILON))
    (decide (|(cstGeometry env bond).theta| ≥ EPSILON))
    (0.5 * (cstGeometry env bond).dist) ((RAD2DEG env (-(cstGeometry env bond).phi) + 90) + 180)
    (cstGeometry env bond).theta bond.beginAtom.z bond.endAtom.z hp hf (noBrace_eraseDots _ ht)
  simpa only [cstEndHalf, decide_eq_true_eq] using this

theorem cstBond_textDepth [LinearOrderedField α] (env : Env α) (pfx : String) (i : Nat)
    (bond : OBBond α) (n : Nat) (hp : NoBrace pfx) (hf : ∀ x, NoBrace (env.fmt x))
    (ht : NoBrace bond.beginAtom.type ∧ NoBrace bond.endAtom.type) :
    textDepth (some n) (cstBond env pfx i bond) = some n := by
  have h1 : textDepth (some n) [ "#declare " ++ pfx ++ "_bond" ++ toString i ++ " = object \x7b",
      "\t  union \x7b" ] = some (n + 2) := by
    simp [textDepth_cons, textDepth_nil, isCommentLine, List.isPrefixOf,
      braceDepth_nil, braceDepth_cons_open, braceDepth_cons_other,
      braceDepth_append, braceDepth_noBrace, hp, noBrace_toString]
  have h2 : textDepth (some (n + 2)) [ "\t  \x7d", "\t \x7d", "" ] = some n := by
    simp [textDepth_cons, textDepth_nil, isCommentLine, List.isPrefixOf,
      braceDepth_nil, braceDepth_cons_close, braceDepth_cons_other]
  rw [cstBond, textDepth_append, textDepth_append, textDepth_append, h1,
    cstStartHalf_textDepth env pfx bond _ hp hf ht.1,
    cstEndHalf_textDepth env pfx bond _ hp hf ht.2, h2]

theorem cstBondLoop_textDepth [LinearOrderedField α] (env : Env α) (pfx : String) (i : Nat)
    (bonds : List (OBBond α)) (n : Nat) (hp : NoBrace pfx) (hf : ∀ x, NoBrace (env.fmt x))
    (ht : ∀ b ∈ bonds, NoBrace b.beginAtom.type ∧ NoBrace b.endAtom.type) :
    textDepth (some n) (cstBondLoop env pfx i bonds) = some n := by
  induction bonds generalizing i with
  | nil => rfl
  | cons b rest ih =>
    rw [cstBondLoop, textDepth_append,
      cstBond_textDepth env pfx i b n hp hf (ht b (List.mem_cons_self _ _)),
      ih _ (fun b' hb' => ht b' (List.mem_cons_of_mem _ hb'))]

theorem unionAtomLoop_textDepth (pfx : String) (i k n : Nat) (hp : NoBrace pfx) :
    textDepth (some n) (unionAtomLoop pfx i k) = some n := by
  induction k generalizing i with
  | zero => rfl
  | succ k ih =>
    have hl : braceDepth (some n)
        ("\t  object\x7b" ++ pfx ++ "_atom" ++ toString i ++ "\x7d").data = some n := by
      simp [braceDepth_nil, braceDepth_cons_open, braceDepth_cons_close, braceDepth_cons_other,
        braceDepth_append, braceDepth_noBrace, hp, noBrace_toString]
    rw [unionAtomLoop, textDepth_cons, hl, ih]
    simp

theorem unionBondLoop_textDepth (pfx : String) (i k n : Nat) (hp : NoBrace pfx) :
    textDepth (some n) (unionBondLoop pfx i k) = some n := by
  induction k generalizing i with
  | zero => rfl
  | succ k ih =>
    have hl : braceDepth (some n)
        ("\t  object\x7b" ++ pfx ++ "_bond" ++ toString i ++ "\x7d").data = some n := by
      simp [braceDepth_nil, braceDepth_cons_open, braceDepth_cons_close, braceDepth_cons_other,
        braceDepth_append, braceDepth_noBrace, hp, noBrace_toString]
    rw [unionBondLoop, textDepth_cons, hl, ih]
    simp

theorem thetaRotate_nodir [LinearOrderedField α] (env : Env α) (ind : String) (g : Bool)
    (theta z1 z2 : α)
    (h : ∀ s, isDirective (ind ++ ("rotate <0.0000," ++ s)) = false) :
    (thetaRotate env ind g theta z1 z2).all (fun l => !isDirective l) = true := by
  simp only [thetaRotate]
  split_ifs
  · simpa [String.append_assoc] using h (env.fmt ((180 * (-1) * theta) / env.PI) ++ ",0.0000>")
  · simpa [String.append_assoc] using h (env.fmt (RAD2DEG env theta) ++ ",0.0000>")
  · rfl

theorem atomPosLoop_nodir [LinearOrderedField α] (env : Env α) (pfx : String) (i : Nat)
    (atoms : List (OBAtom α)) :
    (atomPosLoop env pfx i atoms).all (fun l => !isDirective l) = true := by
  induction atoms generalizing i with
  | nil => rfl
  | cons a rest ih =>
    simp only [atomPosLoop, List.all_cons, ih, Bool.and_true, atomPosLine]
    simp [isDirective, isIfLine, isElseLine, isEndLine, List.isPrefixOf]

theorem atomObjectLoop_nodir [LinearOrderedField α] (pfx : String) (i : Nat)
    (atoms : List (OBAtom α)) :
    (atomObjectLoop pfx i atoms).all (fun l => !isDirective l) = true := by
  induction atoms generalizing i with
  | nil => rfl
  | cons a rest ih =>
    simp only [atomObjectLoop, List.all_append, ih, Bool.and_true, atomObject]
    simp [isDirective, isIfLine, isElseLine, isEndLine, List.isPrefixOf]

theorem basBond_nodir [LinearOrderedField α] (env : Env α) (pfx : String) (i : Nat)
    (bond : OBBond α) : (basBond env pfx i bond).all (fun l => !isDirective l) = true := by
  simp only [basBond, List.all_append]
  rw [thetaRotate_nodir _ _ _ _ _ _
    (fun s => by simp [isDirective, isIfLine, isElseLine, isEndLine, List.isPrefixOf])]
  split_ifs <;> simp [isDirective, isIfLine, isElseLine, isEndLine, List.isPrefixOf]

theorem basBondLoop_nodir [LinearOrderedField α] (env : Env α) (pfx : String) (i : Nat)
    (bonds : List (OBBond α)) :
    (basBondLoop env pfx i bonds).all (fun l => !isDirective l) = true := by
  induction bonds generalizing i with
  | nil => rfl
  | cons b rest ih => simp only [basBondLoop, List.all_append, ih, basBond_nodir, Bool.and_true]

theorem cstStartHalf_nodir [LinearOrderedField α] (env : Env α) (pfx : String)
    (bond : OBBond α) : (cstStartHalf env pfx bond).all (fun l => !isDirective l) = true := by
  simp only [cstStartHalf, List.all_append]
  rw [thetaRotate_nodir _ _ _ _ _ _
    (fun s => by simp [isDirective, isIfLine, isElseLine, isEndLine, List.isPrefixOf])]
  split_ifs <;> simp [isDirective, isIfLine, isElseLine, isEndLine, List.isPrefixOf]

theorem cstEndHalf_nodir [LinearOrderedField α] (env : Env α) (pfx : String)
    (bond : OBBond α) : (cstEndHalf env pfx bond).all (fun l => !isDirective l) = true := by
  simp only [cstEndHalf, List.all_append]
  rw [thetaRotate_nodir _ _ _ _ _ _
    (fun s => by simp [isDirective, isIfLine, isElseLine, isEndLine, List.isPrefixOf])]
  split_ifs <;> simp [isDirective, isIfLine, isElseLine, isEndLine, List.isPrefixOf]

theorem cstBond_nodir [LinearOrderedField α] (env : Env α) (pfx : String) (i : Nat)
    (bond : OBBond α) : (cstBond env pfx i bond).all (fun l => !isDirective l) = true := by
  simp only [cstBond, List.all_append, cstStartHalf_nodir, cstEndHalf_nodir]
  simp [isDirective, isIfLine, isElseLine, isEndLine, List.isPrefixOf]

theorem cstBondLoop_nodir [LinearOrderedField α] (env : Env α) (pfx : String) (i : Nat)
    (bonds : List (OBBond α)) :
    (cstBondLoop env pfx i bonds).all (fun l => !isDirective l) = true := by
  induction bonds generalizing i with
  | nil => rfl
  | cons b rest ih => simp only [cstBondLoop, List.all_append, ih, cstBond_nodir, Bool.and_true]

theorem unionAtomLoop_nodir (pfx : String) (i n : Nat) :
    (unionAtomLoop pfx i n).all (fun l => !isDirective l) = true := by
  induction n generalizing i with
  | zero => rfl
  | succ n ih =>
    simp only [unionAtomLoop, List.all_cons, ih, Bool.and_true]
    simp [isDirective, isIfLine, isElseLine, isEndLine, List.isPrefixOf]

theorem unionBondLoop_nodir (pfx : String) (i n : Nat) :
    (unionBondLoop pfx i n).all (fun l => !isDirective l) = true := by
  induction n generalizing i with
  | zero => rfl
  | succ n ih =>
    simp only [unionBondLoop, List.all_cons, ih, Bool.and_true]
    simp [isDirective, isIfLine, isElseLine, isEndLine, List.isPrefixOf]

end BraceProofs3

section BraceProofs4

variable {α : Type}

theorem sectionEffect_append (f : Flags) (x y : List String) (a b c : Nat)
    (h1 : SectionEffect f x a b) (h2 : SectionEffect f y b c) :
    SectionEffect f (x ++ y) a c := by
  constructor
  · rw [stackAfter_append, h1.1, h2.1]
  · intro n
    rw [selectLines_append, h1.1, textDepth_append, h1.2, h2.2]

theorem sectionEffect_plain (f : Flags) (ls : List String) (a b : Nat)
    (hd : ls.all (fun l => !isDirective l) = true)
    (h : ∀ n, textDepth (some (n + a)) ls = some (n + b)) : SectionEffect f ls a b := by
  constructor
  · exact stackAfter_plain f [] ls hd
  · intro n
    rw [selectLines_plain f [] ls hd]
    exact h n

theorem sectionEffect_nil (f : Flags) (a : Nat) : SectionEffect f [] a a :=
  ⟨rfl, fun _ => rfl⟩

theorem sectionEffect_block (f : Flags) (i e : String) (body : List String)
    (hi : isIfLine i = true) (he : isEndLine e = true) (hee : isElseLine e = false)
    (hd : body.all (fun l => !isDirective l) = true)
    (h : ∀ n, textDepth (some n) body = some n) :
    SectionEffect f ([i] ++ body ++ [e]) 0 0 := by
  have hie : isIfLine e = false := by
    cases hx : isIfLine e with
    | false => rfl
    | true => rw [isEndLine_of_isIfLine e hx] at he; cases he
  have hdi : isDirective i = true := by simp [isDirective, hi]
  have hde : isDirective e = true := by simp [isDirective, he]
  have hsi : stackStep f [] i = [(true, evalCond f i)] := by simp [stackStep, hi, stackActive]
  have hse : stackStep f [(true, evalCond f i)] e = [] := by
    simp [stackStep, hie, hee, he]
  constructor
  · rw [List.append_assoc, List.singleton_append, stackAfter, List.foldl_cons, hsi,
      List.foldl_append]
    have := stackAfter_plain f [(true, evalCond f i)] body hd
    rw [stackAfter] at this
    rw [this]
    simp [hse]
  · intro n
    rw [List.append_assoc, List.singleton_append, selectLines]
    simp only [hdi, if_true, hsi]
    rw [selectLines_append, selectLines_plain f _ body hd, stackAfter_plain f _ body hd,
      selectLines]
    simp only [hde, if_true, selectLines, List.append_nil, Nat.add_zero]
    split_ifs
    · exact h n
    · rfl

end BraceProofs4

section BraceProofs5

variable {α : Type}

theorem sectionEffect_OutputAtoms [LinearOrderedField α] (f : Flags) (env : Env α)
    (mol : OBMol α) (pfx : String) (hp : NoBrace pfx) (hf : ∀ x, NoBrace (env.fmt x))
    (hs : ∀ a ∈ mol.atoms, NoBrace a.symbol) :
    SectionEffect f (OutputAtoms env mol pfx) 0 0 := by
  apply sectionEffect_plain
  · simp only [OutputAtoms, List.all_append, atomPosLoop_nodir, atomObjectLoop_nodir]
    simp [isDirective, isIfLine, isElseLine, isEndLine, List.isPrefixOf]
  · intro n
    simp only [OutputAtoms, textDepth_append, Nat.add_zero]
    have h1 : textDepth (some n) [ "//Coodinates of atoms 1 - " ++ toString mol.NumAtoms ]
        = some n := by
      simp [textDepth_cons, textDepth_nil, isCommentLine, List.isPrefixOf]
    have h2 : textDepth (some n)
        [ "", "//Povray-description of atoms 1 - " ++ toString mol.NumAtoms ] = some n := by
      simp [textDepth_cons, textDepth_nil, isCommentLine, List.isPrefixOf, braceDepth_nil]
    have h3 : textDepth (some n) [ "" ] = some n := by
      simp [textDepth_cons, textDepth_nil, isCommentLine, List.isPrefixOf, braceDepth_nil]
    rw [h1, atomPosLoop_textDepth env pfx 1 mol.atoms _ hp hf, h2,
      atomObjectLoop_textDepth pfx 1 mol.atoms n hp hs, h3]

theorem sectionEffect_single_plain (f : Flags) (l : String) (a : Nat)
    (hd : isDirective l = false) (h : ∀ d, textDepth d [l] = d) :
    SectionEffect f [l] a a :=
  sectionEffect_plain f [l] a a (by simp [hd]) (fun n => h _)

theorem sectionEffect_bondDeclarations [LinearOrderedField α] (f : Flags) (env : Env α)
    (mol : OBMol α) (pfx : String) (hp : NoBrace pfx) (hf : ∀ x, NoBrace (env.fmt x))
    (ht : ∀ b ∈ mol.bonds, NoBrace b.beginAtom.type ∧ NoBrace b.endAtom.type) :
    SectionEffect f (bondDeclarations env mol pfx) 0 0 := by
  simp only [bondDeclarations, OutputBASBonds, OutputCSTBonds]
  split_ifs
  · have hre : [ "//Povray-description of bonds 1 - " ++ toString mol.NumBonds, "#if (BAS)" ]
          ++ basBondLoop env pfx 0 mol.bonds ++ [ "#end //(BAS-Bonds)", "", "#if (CST)" ]
          ++ cstBondLoop env pfx 0 mol.bonds ++ [ "#end // (CST-Bonds)", "" ]
        = [ "//Povray-description of bonds 1 - " ++ toString mol.NumBonds ]
          ++ (([ "#if (BAS)" ] ++ basBondLoop env pfx 0 mol.bonds ++ [ "#end //(BAS-Bonds)" ])
          ++ ([ "" ]
          ++ (([ "#if (CST)" ] ++ cstBondLoop env pfx 0 mol.bonds ++ [ "#end // (CST-Bonds)" ])
          ++ [ "" ]))) := by
      simp [List.append_assoc]
    rw [hre]
    apply sectionEffect_append f _ _ 0 0 0
    · apply sectionEffect_single_plain
      · simp [isDirective, isIfLine, isElseLine, isEndLine, List.isPrefixOf]
      · intro d
        simp [textDepth_cons, textDepth_nil, isCommentLine, List.isPrefixOf]
    · apply sectionEffect_append f _ _ 0 0 0
      · exact sectionEffect_block f _ _ _ (by decide) (by decide) (by decide)
          (basBondLoop_nodir env pfx 0 mol.bonds)
          (fun n => basBondLoop_textDepth env pfx 0 mol.bonds n hp hf)
      · apply sectionEffect_append f _ _ 0 0 0
        · apply sectionEffect_single_plain
          · decide
          · intro d
            simp [textDepth_cons, textDepth_nil, isCommentLine, List.isPrefixOf, braceDepth_nil]
        · apply sectionEffect_append f _ _ 0 0 0
          · exact sectionEffect_block f _ _ _ (by decide) (by decide) (by decide)
              (cstBondLoop_nodir env pfx 0 mol.bonds)
              (fun n => cstBondLoop_textDepth env pfx 0 mol.bonds n hp hf ht)
          · apply sectionEffect_single_plain
            · decide
            · intro d
              simp [textDepth_cons, textDepth_nil, isCommentLine, List.isPrefixOf,
                braceDepth_nil]
  · exact sectionEffect_nil f 0

theorem sectionEffect_unionsHead (f : Flags) (pfx : String) (hp : NoBrace pfx) :
    SectionEffect f
      [ "",
        "//All atoms of molecule " ++ pfx,
        "#ifdef (TRANS)",
        "#declare " ++ pfx ++ "_atoms = merge \x7b",
        "#else",
        "#declare " ++ pfx ++ "_atoms = union \x7b",
        "#end //(End of TRANS)" ] 0 1 := by
  rcases f with ⟨spf, bas, cst, trans, dtrans⟩
  constructor
  · simp [stackAfter, stackStep, stackActive, isIfLine, isElseLine, isEndLine, List.isPrefixOf]
  · intro n
    cases dtrans <;>
      simp [selectLines, stackStep, stackActive, isDirective, isIfLine, isElseLine, isEndLine,
        evalCond, List.isPrefixOf, textDepth_cons, textDepth_nil, isCommentLine,
        braceDepth_nil, braceDepth_cons_open, braceDepth_cons_other,
        braceDepth_append, braceDepth_noBrace, hp]

end BraceProofs5

section BraceProofs6

variable {α : Type}

theorem sectionEffect_OutputUnions [LinearOrderedField α] (f : Flags) (mol : OBMol α)
    (pfx : String) (hp : NoBrace pfx) : SectionEffect f (OutputUnions mol pfx) 0 0 := by
  have hclose : SectionEffect f [ "\t \x7d", "" ] 1 0 := by
    apply sectionEffect_plain
    · decide
    · intro n
      simp [textDepth_cons, textDepth_nil, isCommentLine, List.isPrefixOf,
        braceDepth_nil, braceDepth_cons_close, braceDepth_cons_other]
  have hloop : SectionEffect f (unionAtomLoop pfx 1 mol.NumAtoms) 1 1 :=
    sectionEffect_plain f _ 1 1 (unionAtomLoop_nodir pfx 1 mol.NumAtoms)
      (fun n => unionAtomLoop_textDepth pfx 1 mol.NumAtoms (n + 1) hp)
  simp only [OutputUnions]
  apply sectionEffect_append f _ _ 0 0 0
  · apply sectionEffect_append f _ _ 0 1 0 _ hclose
    exact sectionEffect_append f _ _ 0 1 1 (sectionEffect_unionsHead f pfx hp) hloop
  · split_ifs
    · have hre : [ "//Bonds only needed for ball and sticks or capped sticks models",
            "#if (BAS | CST)", "#declare " ++ pfx ++ "_bonds = union \x7b" ]
            ++ unionBondLoop pfx 0 mol.NumBonds ++ [ "\t \x7d", "#end", "" ]
          = [ "//Bonds only needed for ball and sticks or capped sticks models" ]
            ++ (([ "#if (BAS | CST)" ]
              ++ ([ "#declare " ++ pfx ++ "_bonds = union \x7b" ]
                  ++ unionBondLoop pfx 0 mol.NumBonds ++ [ "\t \x7d" ])
              ++ [ "#end" ])
            ++ [ "" ]) := by
        simp [List.append_assoc]
      rw [hre]
      apply sectionEffect_append f _ _ 0 0 0
      · apply sectionEffect_single_plain
        · decide
        · intro d
          rfl
      · apply sectionEffect_append f _ _ 0 0 0
        · apply sectionEffect_block f _ _ _ (by decide) (by decide) (by decide)
          · simp only [List.all_append, unionBondLoop_nodir]
            simp [isDirective, isIfLine, isElseLine, isEndLine, List.isPrefixOf]
          · intro n
            have h1 : textDepth (some n) [ "#declare " ++ pfx ++ "_bonds = union \x7b" ]
                = some (n + 1) := by
              simp [textDepth_cons, textDepth_nil, isCommentLine, List.isPrefixOf,
                braceDepth_nil, braceDepth_cons_open, braceDepth_cons_other,
                braceDepth_append, braceDepth_noBrace, hp]
            have h2 : textDepth (some (n + 1)) [ "\t \x7d" ] = some n := by
              simp [textDepth_cons, textDepth_nil, isCommentLine, List.isPrefixOf,
                braceDepth_nil, braceDepth_cons_close, braceDepth_cons_other]
            rw [textDepth_append, textDepth_append, h1,
              unionBondLoop_textDepth pfx 0 mol.NumBonds (n + 1) hp, h2]
        · apply sectionEffect_single_plain
          · decide
          · intro d
            simp [textDepth_cons, textDepth_nil, isCommentLine, List.isPrefixOf, braceDepth_nil]
    · exact sectionEffect_nil f 0

theorem sectionEffect_OutputMoleculeBonds [LinearOrderedField α] (f : Flags) (env : Env α)
    (pfx : String) (b : BoundingBox α) (hp : NoBrace pfx) :
    SectionEffect f (OutputMoleculeBonds env pfx b) 0 0 := by
  rcases f with ⟨spf, bas, cst, trans, dtrans⟩
  constructor
  · simp [OutputMoleculeBonds, stackAfter, stackStep, stackActive, isIfLine, isElseLine,
      isEndLine, List.isPrefixOf]
  · intro n
    cases spf <;> cases bas <;> cases cst <;> cases trans <;>
      simp [OutputMoleculeBonds, selectLines, stackStep, stackActive, isDirective, isIfLine,
        isElseLine, isEndLine, evalCond, List.isPrefixOf, textDepth_cons, textDepth_nil,
        isCommentLine, braceDepth_nil, braceDepth_cons_open, braceDepth_cons_close,
        braceDepth_cons_other, braceDepth_append, braceDepth_noBrace, hp]

theorem sectionEffect_OutputMoleculeNoBonds (f : Flags) (pfx : String) (hp : NoBrace pfx) :
    SectionEffect f (OutputMoleculeNoBonds pfx) 0 0 := by
  apply sectionEffect_plain
  · simp [OutputMoleculeNoBonds, isDirective, isIfLine, isElseLine, isEndLine, List.isPrefixOf]
  · intro n
    simp [OutputMoleculeNoBonds, textDepth_cons, textDepth_nil, isCommentLine, List.isPrefixOf,
      braceDepth_nil, braceDepth_cons_open, braceDepth_cons_close, braceDepth_cons_other,
      braceDepth_append, braceDepth_noBrace, hp]

theorem sectionEffect_moleculeDefinition [LinearOrderedField α] (f : Flags) (env : Env α)
    (mol : OBMol α) (pfx : String) (hp : NoBrace pfx) :
    SectionEffect f (moleculeDefinition env mol pfx) 0 0 := by
  simp only [moleculeDefinition]
  split_ifs
  · exact sectionEffect_OutputMoleculeBonds f env pfx _ hp
  · exact sectionEffect_OutputMoleculeNoBonds f pfx hp

theorem sectionEffect_OutputCenterComment [LinearOrderedField α] (f : Flags) (env : Env α)
    (pfx : String) (b : BoundingBox α) (hp : NoBrace pfx) (hf : ∀ x, NoBrace (env.fmt x)) :
    SectionEffect f (OutputCenterComment env pfx b) 0 0 := by
  apply sectionEffect_plain
  · simp [OutputCenterComment, isDirective, isIfLine, isElseLine, isEndLine, List.isPrefixOf]
  · intro n
    simp [OutputCenterComment, textDepth_cons, textDepth_nil, isCommentLine, List.isPrefixOf,
      braceDepth_nil, braceDepth_cons_other, braceDepth_append, braceDepth_noBrace, hp, hf]

theorem sectionEffect_final (f : Flags) (num : Nat) :
    SectionEffect f [ molPrefix num ] 0 0 := by
  apply sectionEffect_plain
  · simp only [molPrefix]
    split_ifs <;> simp [isDirective, isIfLine, isElseLine, isEndLine, List.isPrefixOf]
  · intro n
    have hc : isCommentLine (molPrefix num) = false := by
      simp only [molPrefix]
      split_ifs <;> simp [isCommentLine, List.isPrefixOf]
    simp [textDepth_cons, textDepth_nil, hc, braceDepth_noBrace, noBrace_molPrefix]

theorem sectionEffect_WriteMoleculeBody [LinearOrderedField α] (f : Flags) (env : Env α)
    (mol : OBMol α) (num : Nat) (hf : ∀ x, NoBrace (env.fmt x)) (hm : MolBraceFree mol) :
    SectionEffect f (WriteMoleculeBody env mol (molPrefix num)) 0 0 := by
  have hp := noBrace_molPrefix num
  simp only [WriteMoleculeBody]
  apply sectionEffect_append f _ _ 0 0 0 _ (sectionEffect_final f num)
  apply sectionEffect_append f _ _ 0 0 0 _ (sectionEffect_OutputCenterComment f env _ _ hp hf)
  apply sectionEffect_append f _ _ 0 0 0 _ (sectionEffect_moleculeDefinition f env mol _ hp)
  apply sectionEffect_append f _ _ 0 0 0 _ (sectionEffect_OutputUnions f mol _ hp)
  apply sectionEffect_append f _ _ 0 0 0 _ (sectionEffect_bondDeclarations f env mol _ hp hf hm.2)
  exact sectionEffect_OutputAtoms f env mol _ hp hf (fun a ha => (hm.1 a ha).1)

/-- C3: for every molecule whose element symbols and atom types contain no
brace (numbers being written without braces), and for every truth assignment to
the flags `SPF`, `BAS`, `CST`, `TRANS`, with `TRANS` declared or not, the lines
written after the header that the flags select, comments left out, have balanced
and properly nested braces. -/
theorem C3_braces_balanced [LinearOrderedField α] (env : Env α) (mol : OBMol α) (num : Nat)
    (f : Flags) (hf : ∀ x, NoBrace (env.fmt x)) (hm : MolBraceFree mol) :
    BracesBalanced (selectLines f [] (WriteMoleculeBody env mol (molPrefix num))) := by
  have := (sectionEffect_WriteMoleculeBody f env mol num hf hm).2 0
  simpa [BracesBalanced] using this

end BraceProofs6

section Witnesses

theorem sampleEnv_fmt_noBrace (x : ℚ) : NoBrace (sampleEnv.fmt x) := by
  have h1 : NoBrace "-" := by
    intro c hc
    simp only [List.mem_singleton] at hc
    subst hc
    decide
  have h2 : NoBrace "" := by
    intro c hc
    cases hc
  have h3 : NoBrace "/" := by
    intro c hc
    simp only [List.mem_singleton] at hc
    subst hc
    decide
  simp only [sampleEnv]
  refine noBrace_append _ _ (noBrace_append _ _ (noBrace_append _ _ ?_ (noBrace_toString _)) h3)
    (noBrace_toString _)
  split_ifs
  · exact h1
  · exact h2

theorem sampleMol_braceFree : MolBraceFree sampleMol := by
  have hC : NoBrace "C" := by
    intro c hc
    simp only [List.mem_singleton] at hc
    subst hc
    decide
  have hC3 : NoBrace "C3" := by
    intro c hc
    simp only [List.mem_cons, List.mem_singleton, List.not_mem_nil, or_false] at hc
    rcases hc with rfl | rfl <;> decide
  constructor
  · intro a ha
    simp only [sampleMol, carbonAt, List.mem_cons, List.mem_singleton, List.not_mem_nil,
      or_false] at ha
    rcases ha with rfl | rfl <;> exact ⟨hC, hC3⟩
  · intro b hb
    simp only [sampleMol, bondFromOrigin, carbonAt, List.mem_singleton] at hb
    subst hb
    exact ⟨hC3, hC3⟩

theorem sampleMol_indicesValid : BondIndicesValid sampleMol := by
  intro b hb
  simp only [sampleMol, bondFromOrigin, List.mem_singleton] at hb
  subst hb
  simp [OBMol.NumAtoms, sampleMol]

/-- C1 at a concrete input: the sample molecule, written first in its stream. -/
theorem C1_declared_before_use_witness :
    BondIndicesValid sampleMol
    ∧ DeclaredBeforeUse (molPrefix 0) (WriteMoleculeText sampleEnv "" noOptions 0 sampleMol) :=
  ⟨sampleMol_indicesValid,
    C1_declared_before_use sampleEnv "" noOptions 0 sampleMol sampleMol_indicesValid⟩

/-- C3 at a concrete input: the sample molecule under the ball-and-stick flag. -/
theorem C3_braces_balanced_witness :
    (∀ x, NoBrace (sampleEnv.fmt x)) ∧ MolBraceFree sampleMol
    ∧ BracesBalanced
        (selectLines ⟨false, true, false, false, true⟩ []
          (WriteMoleculeBody sampleEnv sampleMol (molPrefix 0))) :=
  ⟨sampleEnv_fmt_noBrace, sampleMol_braceFree,
    C3_braces_balanced sampleEnv sampleMol 0 ⟨false, true, false, false, true⟩ sampleEnv_fmt_noBrace
      sampleMol_braceFree⟩

end Witnesses

section RealBondProofs

theorem thetaRotate_eq_spec {α : Type} [LinearOrderedField α] (env : Env α) (ind : String)
    (theta z1 z2 : α) :
    thetaRotate env ind (decide (theta ≥ EPSILON)) theta z1 z2
      = yRotateSpec env ind theta z1 z2 := by
  have h : (180 * (-1) * theta) / env.PI = RAD2DEG env (-theta) := by
    simp only [RAD2DEG]
    ring
  simp only [thetaRotate, yRotateSpec, decide_eq_true_eq, h]
  split_ifs <;> rfl

theorem basGeometry_dist_nonneg (acos : ℝ → ℝ) (PI : ℝ) (fmt : ℝ → String) (bond : OBBond ℝ) :
    0 ≤ (basGeometry ⟨Real.sqrt, acos, PI, fmt⟩ bond).dist :=
  Real.sqrt_nonneg _

theorem cstGeometry_theta_nonneg (PI : ℝ) (fmt : ℝ → String) (bond : OBBond ℝ) :
    0 ≤ (cstGeometry ⟨Real.sqrt, Real.arccos, PI, fmt⟩ bond).theta := by
  simp only [cstGeometry]
  split_ifs
  · exact Real.arccos_nonneg _
  · exact le_refl _

theorem basGeometry_along_x (fmt : ℝ → String) (bond : OBBond ℝ)
    (hy : bond.endAtom.y = bond.beginAtom.y) (hz : bond.endAtom.z = bond.beginAtom.z)
    (hx : bond.endAtom.x - bond.beginAtom.x ≥ 1 / 10000) :
    basGeometry ⟨Real.sqrt, Real.arccos, Real.pi, fmt⟩ bond
      = ⟨bond.endAtom.x - bond.beginAtom.x, bond.endAtom.x - bond.beginAtom.x,
          Real.pi / 2, 0⟩ := by
  have h0 : (0 : ℝ) ≤ bond.endAtom.x - bond.beginAtom.x := by linarith
  have hne : bond.endAtom.x - bond.beginAtom.x ≠ 0 := by
    intro h
    rw [h] at hx
    norm_num at hx
  have habs : |bond.endAtom.x - bond.beginAtom.x| ≥ EPSILON := by
    rw [abs_of_nonneg h0]
    simpa [EPSILON] using hx
  simp only [basGeometry, hy, hz, SQUARE, sub_self, mul_zero, add_zero,
    Real.sqrt_mul_self h0, if_pos habs, zero_div, Real.arccos_zero, div_self hne,
    Real.arccos_one]

/-- C11: for every bond along the x axis in the positive direction (`y2 = y1`,
`z2 = z1`, `x2 - x1 ≥ 1e-4`), over the reals with the exact `pi`, the angle
`RAD2DEG(-phi)+90` is `0` and `theta` is `0`, and the object `OutputBASBonds`
writes has the scale by `dist = x2 - x1` and the translate, and no rotate. -/
theorem C11_bond_along_x_axis (fmt : ℝ → String) (pfx : String) (i : Nat) (bond : OBBond ℝ)
    (hy : bond.endAtom.y = bond.beginAtom.y) (hz : bond.endAtom.z = bond.beginAtom.z)
    (hx : bond.endAtom.x - bond.beginAtom.x ≥ 1 / 10000) :
    (basGeometry ⟨Real.sqrt, Real.arccos, Real.pi, fmt⟩ bond).dist
        = bond.endAtom.x - bond.beginAtom.x
    ∧ RAD2DEG ⟨Real.sqrt, Real.arccos, Real.pi, fmt⟩
        (-(basGeometry ⟨Real.sqrt, Real.arccos, Real.pi, fmt⟩ bond).phi) + 90 = 0
    ∧ (basGeometry ⟨Real.sqrt, Real.arccos, Real.pi, fmt⟩ bond).theta = 0
    ∧ basBond ⟨Real.sqrt, Real.arccos, Real.pi, fmt⟩ pfx i bond
        = [ "#declare " ++ pfx ++ "_bond" ++ toString i ++ " = object \x7b",
            "\t  bond_" ++ toString bond.order,
            "\t  scale <" ++ fmt (bond.endAtom.x - bond.beginAtom.x) ++ ",1.0000,1.0000>",
            "\t  translate " ++ pfx ++ "_pos_" ++ toString bond.beginIdx,
            "\t \x7d" ]
    ∧ (basBond ⟨Real.sqrt, Real.arccos, Real.pi, fmt⟩ pfx i bond).filter isRotateLine = [] := by
  have hg := basGeometry_along_x fmt bond hy hz hx
  have h0 : (0 : ℝ) ≤ bond.endAtom.x - bond.beginAtom.x := by linarith
  have habs : |bond.endAtom.x - bond.beginAtom.x| ≥ EPSILON := by
    rw [abs_of_nonneg h0]
    simpa [EPSILON] using hx
  have ha : RAD2DEG ⟨Real.sqrt, Real.arccos, Real.pi, fmt⟩ (-(Real.pi / 2)) + 90 = 0 := by
    simp only [RAD2DEG]
    field_simp
    ring
  have hz0 : ¬ (|(0 : ℝ)| ≥ EPSILON) := by norm_num [EPSILON]
  have ht0 : ¬ ((0 : ℝ) ≥ EPSILON) := by norm_num [EPSILON]
  have hb : basBond ⟨Real.sqrt, Real.arccos, Real.pi, fmt⟩ pfx i bond
      = [ "#declare " ++ pfx ++ "_bond" ++ toString i ++ " = object \x7b",
          "\t  bond_" ++ toString bond.order,
          "\t  scale <" ++ fmt (bond.endAtom.x - bond.beginAtom.x) ++ ",1.0000,1.0000>",
          "\t  translate " ++ pfx ++ "_pos_" ++ toString bond.beginIdx,
          "\t \x7d" ] := by
    simp only [basBond, hg, ha, if_pos habs, if_neg hz0, thetaRotate, ht0, decide_False]
    simp
  refine ⟨by rw [hg], by rw [hg]; exact ha, by rw [hg], hb, ?_⟩
  rw [hb]
  simp [List.filter, isRotateLine, stripIndent, List.dropWhile, List.isPrefixOf]

/-- C11 at a concrete input: the bond from the origin to `(1,0,0)`. -/
theorem C11_bond_along_x_axis_witness :
    (bondFromOrigin (1 : ℝ) 0 0).endAtom.x - (bondFromOrigin (1 : ℝ) 0 0).beginAtom.x
        ≥ 1 / 10000
    ∧ (basBond ⟨Real.sqrt, Real.arccos, Real.pi, fun _ => "1"⟩ "mol_0" 0
          (bondFromOrigin 1 0 0)).filter isRotateLine = [] :=
  ⟨by norm_num [bondFromOrigin, carbonAt],
    (C11_bond_along_x_axis (fun _ => "1") "mol_0" 0 (bondFromOrigin 1 0 0) rfl rfl
      (by norm_num [bondFromOrigin, carbonAt])).2.2.2.2⟩

/-- C12: for every bond, over the reals, the object `OutputBASBonds` writes is,
in this order, the primitive `bond_<order>`, the scale by `dist` present iff
`dist ≥ 1e-4`, the rotation about z by `a = RAD2DEG(-phi)+90` present iff
`|a| ≥ 1e-4`, the rotation about y present iff `theta ≥ 1e-4` (by `-theta` in
degrees when `z2 - z1 ≥ 0`, by `+theta` otherwise), and the translate to
`<prefix>_pos_<begin atom index>`. -/
theorem C12_ball_and_stick_object (PI : ℝ) (fmt : ℝ → String) (pfx : String) (i : Nat)
    (bond : OBBond ℝ) :
    basBond ⟨Real.sqrt, Real.arccos, PI, fmt⟩ pfx i bond
      = basBondSpec ⟨Real.sqrt, Real.arccos, PI, fmt⟩ pfx i bond := by
  have hd := basGeometry_dist_nonneg Real.arccos PI fmt bond
  simp only [basBond, basBondSpec, thetaRotate_eq_spec, zRotateSpec, abs_of_nonneg hd]
  rfl

/-- C13: for every bond, over the reals, both capped-sticks halves carry the
same scale by `dist/2` and the same rotation about y; the end half is rotated
about z by the angle of the start half plus `180`; the start half is translated
to the position of the begin atom and the end half to that of the end atom. -/
theorem C13_capped_sticks_halves (PI : ℝ) (fmt : ℝ → String) (pfx : String)
    (bond : OBBond ℝ) :
    cstStartHalf ⟨Real.sqrt, Real.arccos, PI, fmt⟩ pfx bond
        = cstHalfSpec pfx bond.order bond.beginAtom.type
            (cstScaleSpec ⟨Real.sqrt, Real.arccos, PI, fmt⟩
              (cstGeometry ⟨Real.sqrt, Real.arccos, PI, fmt⟩ bond).dist)
            (zRotateSpec ⟨Real.sqrt, Real.arccos, PI, fmt⟩ "\t    "
              (RAD2DEG ⟨Real.sqrt, Real.arccos, PI, fmt⟩
                (-(cstGeometry ⟨Real.sqrt, Real.arccos, PI, fmt⟩ bond).phi) + 90))
            (yRotateSpec ⟨Real.sqrt, Real.arccos, PI, fmt⟩ "\t    "
              (cstGeometry ⟨Real.sqrt, Real.arccos, PI, fmt⟩ bond).theta
              bond.beginAtom.z bond.endAtom.z)
            bond.beginIdx
    ∧ cstEndHalf ⟨Real.sqrt, Real.arccos, PI, fmt⟩ pfx bond
        = cstHalfSpec pfx bond.order bond.endAtom.type
            (cstScaleSpec ⟨Real.sqrt, Real.arccos, PI, fmt⟩
              (cstGeometry ⟨Real.sqrt, Real.arccos, PI, fmt⟩ bond).dist)
            (zRotateSpec ⟨Real.sqrt, Real.arccos, PI, fmt⟩ "\t    "
              ((RAD2DEG ⟨Real.sqrt, Real.arccos, PI, fmt⟩
                (-(cstGeometry ⟨Real.sqrt, Real.arccos, PI, fmt⟩ bond).phi) + 90) + 180))
            (yRotateSpec ⟨Real.sqrt, Real.arccos, PI, fmt⟩ "\t    "
              (cstGeometry ⟨Real.sqrt, Real.arccos, PI, fmt⟩ bond).theta
              bond.beginAtom.z bond.endAtom.z)
            bond.endIdx := by
  have ht := cstGeometry_theta_nonneg PI fmt bond
  have hhalf : ∀ d : ℝ, (0.5 : ℝ) * d = d / 2 := fun d => by ring
  have h270 : ∀ a : ℝ, a + 270 = (a + 90) + 180 := fun a => by ring
  constructor
  · simp only [cstStartHalf, cstHalfSpec, cstScaleSpec, zRotateSpec, thetaRotate_eq_spec, hhalf]
    rfl
  · simp only [cstEndHalf, cstHalfSpec, cstScaleSpec, zRotateSpec, abs_of_nonneg ht,
      thetaRotate_eq_spec, hhalf, h270]
    rfl

end RealBondProofs

section PigmentProofs

variable {α : Type}

theorem thetaRotate_colorNames [LinearOrderedField α] (env : Env α) (ind : String) (g : Bool)
    (theta z1 z2 : α) (h : ∀ s, colorName? (ind ++ ("rotate <0.0000," ++ s)) = none) :
    (thetaRotate env ind g theta z1 z2).filterMap colorName? = [] := by
  simp only [thetaRotate]
  split_ifs
  · simpa [String.append_assoc] using h (env.fmt ((180 * (-1) * theta) / env.PI) ++ ",0.0000>")
  · simpa [String.append_assoc] using h (env.fmt (RAD2DEG env theta) ++ ",0.0000>")
  · rfl

theorem colorName_pigment (name : String) :
    colorName? ("\t    pigment\x7bcolor Color_" ++ name ++ "\x7d") = some name := by
  simp [colorName?, stripIndent, List.dropWhile, List.isPrefixOf]

theorem cstStartHalf_colorNames [LinearOrderedField α] (env : Env α) (pfx : String)
    (bond : OBBond α) :
    (cstStartHalf env pfx bond).filterMap colorName? = [ eraseDots bond.beginAtom.type ] := by
  simp only [cstStartHalf, List.filterMap_append]
  rw [thetaRotate_colorNames _ _ _ _ _ _
    (fun s => by simp [colorName?, stripIndent, List.dropWhile, List.isPrefixOf])]
  split_ifs <;>
    simp [List.filterMap_cons, colorName_pigment, colorName?, stripIndent, List.dropWhile,
      List.isPrefixOf, eraseDots]

theorem cstEndHalf_colorNames [LinearOrderedField α] (env : Env α) (pfx : String)
    (bond : OBBond α) :
    (cstEndHalf env pfx bond).filterMap colorName? = [ eraseDots bond.endAtom.type ] := by
  simp only [cstEndHalf, List.filterMap_append]
  rw [thetaRotate_colorNames _ _ _ _ _ _
    (fun s => by simp [colorName?, stripIndent, List.dropWhile, List.isPrefixOf])]
  split_ifs <;>
    simp [List.filterMap_cons, colorName_pigment, colorName?, stripIndent, List.dropWhile,
      List.isPrefixOf, eraseDots]

/-- C14, as stated, fails: the atom types `C.3` and `C3` differ, but the two
halves of a bond between such atoms carry the same color name, `C3`. -/
theorem C14_pigment_names_counterexample :
    dottedBond.beginAtom.type ≠ dottedBond.endAtom.type
    ∧ (cstStartHalf sampleEnv "mol_0" dottedBond).filterMap colorName?
        = (cstEndHalf sampleEnv "mol_0" dottedBond).filterMap colorName? := by
  constructor
  · decide
  · rw [cstStartHalf_colorNames, cstEndHalf_colorNames]
    decide

/-- C14, amended: the start half of a capped-sticks bond carries one pigment,
named by the type of the begin atom with every `.` erased, and the end half one,
named by the type of the end atom with every `.` erased; the two names differ
exactly when the types differ after the `.` are erased. -/
theorem C14_pigment_names [LinearOrderedField α] (env : Env α) (pfx : String)
    (bond : OBBond α) :
    (cstStartHalf env pfx bond).filterMap colorName? = [ eraseDots bond.beginAtom.type ]
    ∧ (cstEndHalf env pfx bond).filterMap colorName? = [ eraseDots bond.endAtom.type ]
    ∧ ((cstStartHalf env pfx bond).filterMap colorName?
          ≠ (cstEndHalf env pfx bond).filterMap colorName?
        ↔ eraseDots bond.beginAtom.type ≠ eraseDots bond.endAtom.type) := by
  refine ⟨cstStartHalf_colorNames env pfx bond, cstEndHalf_colorNames env pfx bond, ?_⟩
  rw [cstStartHalf_colorNames, cstEndHalf_colorNames]
  simp

end PigmentProofs

section PrefixProofs

/-- C15: the prefix is `mol_0` for the sequence number `0`, but for `1` and `2`
it is `mol_11` and `mol_22`: the number is appended a second time. -/
theorem C15_molPrefix_of_sequence_number :
    molPrefix 0 = "mol_0" ∧ molPrefix 1 = "mol_11" ∧ molPrefix 2 = "mol_22"
    ∧ molPrefix 1 ≠ "mol_" ++ toString 1 := by
  decide

theorem digitChar_toNat : ∀ k, k < 10 → (Nat.digitChar k).toNat - 48 = k := by
  decide

theorem foldl_toDigitsCore (fuel n : Nat) (ds : List Char) (h : n < fuel) :
    (Nat.toDigitsCore 10 fuel n ds).foldl (fun a c => 10 * a + (c.toNat - 48)) 0
      = ds.foldl (fun a c => 10 * a + (c.toNat - 48)) n := by
  induction fuel generalizing n ds with
  | zero => omega
  | succ fuel ih =>
    have hd := digitChar_toNat (n % 10) (Nat.mod_lt _ (by norm_num))
    simp only [Nat.toDigitsCore]
    split_ifs with h0
    · have hn : n % 10 = n := by omega
      rw [hn] at hd
      simp only [List.foldl_cons, hn, hd, Nat.mul_zero, Nat.zero_add]
    · rw [ih (n / 10) _ (by omega)]
      simp only [List.foldl_cons, hd]
      congr 1
      omega

theorem decimalValue_toString (n : Nat) : decimalValue (toString n).data = n := by
  have h : (toString n).data = Nat.toDigits 10 n := rfl
  rw [h, decimalValue, Nat.toDigits, foldl_toDigitsCore _ _ _ (Nat.lt_succ_self n)]
  rfl

theorem toString_injective (m n : Nat) (h : toString m = toString n) : m = n := by
  have := congrArg (fun s => decimalValue s.data) h
  simpa [decimalValue_toString] using this

theorem toDigitsCore_length_pos (fuel n : Nat) (ds : List Char) (h : n < fuel) :
    0 < (Nat.toDigitsCore 10 fuel n ds).length := by
  induction fuel generalizing n ds with
  | zero => omega
  | succ fuel ih =>
    simp only [Nat.toDigitsCore]
    split_ifs with h0
    · simp
    · exact ih _ _ (by omega)

theorem toString_length_pos (n : Nat) : 0 < (toString n).data.length := by
  have h : (toString n).data = Nat.toDigits 10 n := rfl
  rw [h, Nat.toDigits]
  exact toDigitsCore_length_pos _ _ _ (Nat.lt_succ_self n)

theorem molPrefix_injective (m n : Nat) (h : molPrefix m = molPrefix n) : m = n := by
  have hd := congrArg String.data h
  simp only [molPrefix] at hd
  by_cases hm : m = 0 <;> by_cases hn : n = 0
  · rw [hm, hn]
  · simp only [hm, hn, if_true, if_false, String.data_append, List.append_assoc,
      List.append_cancel_left_eq] at hd
    have hl := congrArg List.length hd
    have hp := toString_length_pos n
    simp only [List.length_append] at hl
    have h1 : (toString 0).data.length = 1 := rfl
    omega
  · simp only [hm, hn, if_true, if_false, String.data_append, List.append_assoc,
      List.append_cancel_left_eq] at hd
    have hl := congrArg List.length hd
    have hp := toString_length_pos m
    simp only [List.length_append] at hl
    have h1 : (toString 0).data.length = 1 := rfl
    omega
  · simp only [hm, hn, if_false, String.data_append, List.append_assoc,
      List.append_cancel_left_eq] at hd
    have hl := congrArg List.length hd
    simp only [List.length_append] at hl
    have hlen : (toString m).data.length = (toString n).data.length := by omega
    have := (List.append_inj hd hlen).1
    exact toString_injective m n (string_eq_of_data_eq _ _ this)

/-- C16: the prefixes of two distinct sequence numbers differ. -/
theorem C16_molPrefix_injective (m n : Nat) (h : m ≠ n) : molPrefix m ≠ molPrefix n :=
  fun he => h (molPrefix_injective m n he)

/-- C16 at a concrete input: the sequence numbers `1` and `11`. -/
theorem C16_molPrefix_injective_witness : 1 ≠ 11 ∧ molPrefix 1 ≠ molPrefix 11 :=
  ⟨by decide, C16_molPrefix_injective 1 11 (by decide)⟩

end PrefixProofs

section SequenceProofs

variable {α : Type}

theorem thetaRotate_noHeader [LinearOrderedField α] (env : Env α) (ind : String) (g : Bool)
    (theta z1 z2 : α) (h : ∀ s, isHeaderLine (ind ++ ("rotate <0.0000," ++ s)) = false) :
    (thetaRotate env ind g theta z1 z2).all (fun l => !isHeaderLine l) = true := by
  simp only [thetaRotate]
  split_ifs
  · simpa [String.append_assoc] using h (env.fmt ((180 * (-1) * theta) / env.PI) ++ ",0.0000>")
  · simpa [String.append_assoc] using h (env.fmt (RAD2DEG env theta) ++ ",0.0000>")
  · rfl

theorem atomPosLoop_noHeader [LinearOrderedField α] (env : Env α) (s : String) (i : Nat)
    (atoms : List (OBAtom α)) :
    (atomPosLoop env ("mol_" ++ s) i atoms).all (fun l => !isHeaderLine l) = true := by
  induction atoms generalizing i with
  | nil => rfl
  | cons a as ih =>
    simp only [atomPosLoop, List.all_cons, ih, Bool.and_true]
    simp [atomPosLine, isHeaderLine, List.isPrefixOf]

theorem atomObjectLoop_noHeader [LinearOrderedField α] (s : String) (i : Nat)
    (atoms : List (OBAtom α)) :
    (atomObjectLoop ("mol_" ++ s) i atoms).all (fun l => !isHeaderLine l) = true := by
  induction atoms generalizing i with
  | nil => rfl
  | cons a as ih =>
    simp only [atomObjectLoop, List.all_append, ih, Bool.and_true]
    simp [atomObject, isHeaderLine, List.isPrefixOf]

theorem OutputAtoms_noHeader [LinearOrderedField α] (env : Env α) (mol : OBMol α) (s : String) :
    (OutputAtoms env mol ("mol_" ++ s)).all (fun l => !isHeaderLine l) = true := by
  simp only [OutputAtoms, List.all_append, atomPosLoop_noHeader, atomObjectLoop_noHeader]
  simp [isHeaderLine, List.isPrefixOf]

theorem basBondLoop_noHeader [LinearOrderedField α] (env : Env α) (s : String) (i : Nat)
    (bonds : List (OBBond α)) :
    (basBondLoop env ("mol_" ++ s) i bonds).all (fun l => !isHeaderLine l) = true := by
  induction bonds generalizing i with
  | nil => rfl
  | cons b bs ih =>
    simp only [basBondLoop, List.all_append, ih, Bool.and_true, basBond]
    rw [thetaRotate_noHeader _ _ _ _ _ _ (fun s => by simp [isHeaderLine, List.isPrefixOf])]
    split_ifs <;> simp [isHeaderLine, List.isPrefixOf]

theorem cstBondLoop_noHeader [LinearOrderedField α] (env : Env α) (s : String) (i : Nat)
    (bonds : List (OBBond α)) :
    (cstBondLoop env ("mol_" ++ s) i bonds).all (fun l => !isHeaderLine l) = true := by
  induction bonds generalizing i with
  | nil => rfl
  | cons b bs ih =>
    simp only [cstBondLoop, List.all_append, ih, Bool.and_true, cstBond, cstStartHalf,
      cstEndHalf]
    rw [thetaRotate_noHeader _ _ _ _ _ _ (fun s => by simp [isHeaderLine, List.isPrefixOf]),
      thetaRotate_noHeader _ _ _ _ _ _ (fun s => by simp [isHeaderLine, List.isPrefixOf])]
    split_ifs <;> simp [isHeaderLine, List.isPrefixOf]

theorem bondDeclarations_noHeader [LinearOrderedField α] (env : Env α) (mol : OBMol α)
    (s : String) :
    (bondDeclarations env mol ("mol_" ++ s)).all (fun l => !isHeaderLine l) = true := by
  simp only [bondDeclarations, OutputBASBonds, OutputCSTBonds]
  split_ifs
  · simp only [List.all_append, basBondLoop_noHeader, cstBondLoop_noHeader]
    simp [isHeaderLine, List.isPrefixOf]
  · rfl

theorem unionAtomLoop_noHeader (pfx : String) (i n : Nat) :
    (unionAtomLoop pfx i n).all (fun l => !isHeaderLine l) = true := by
  induction n generalizing i with
  | zero => rfl
  | succ n ih =>
    simp only [unionAtomLoop, List.all_cons, ih, Bool.and_true]
    simp [isHeaderLine, List.isPrefixOf]

theorem unionBondLoop_noHeader (pfx : String) (i n : Nat) :
    (unionBondLoop pfx i n).all (fun l => !isHeaderLine l) = true := by
  induction n generalizing i with
  | zero => rfl
  | succ n ih =>
    simp only [unionBondLoop, List.all_cons, ih, Bool.and_true]
    simp [isHeaderLine, List.isPrefixOf]

theorem OutputUnions_noHeader [LinearOrderedField α] (mol : OBMol α) (s : String) :
    (OutputUnions mol ("mol_" ++ s)).all (fun l => !isHeaderLine l) = true := by
  simp only [OutputUnions]
  split_ifs <;>
    · simp only [List.all_append, unionAtomLoop_noHeader, unionBondLoop_noHeader]
      simp [isHeaderLine, List.isPrefixOf]

theorem moleculeDefinition_noHeader [LinearOrderedField α] (env : Env α) (mol : OBMol α)
    (s : String) :
    (moleculeDefinition env mol ("mol_" ++ s)).all (fun l => !isHeaderLine l) = true := by
  simp only [moleculeDefinition, OutputMoleculeBonds, OutputMoleculeNoBonds]
  split_ifs <;> simp [isHeaderLine, List.isPrefixOf]

theorem WriteMoleculeBody_noHeader [LinearOrderedField α] (env : Env α) (mol : OBMol α)
    (num : Nat) :
    (WriteMoleculeBody env mol (molPrefix num)).all (fun l => !isHeaderLine l) = true := by
  rw [molPrefix_eq]
  simp only [WriteMoleculeBody, List.all_append, OutputAtoms_noHeader, bondDeclarations_noHeader,
    OutputUnions_noHeader, moleculeDefinition_noHeader]
  simp [OutputCenterComment, isHeaderLine, List.isPrefixOf]

theorem OutputHeader_any_header [LinearOrderedField α] (env : Env α) (self : PovrayFormat)
    (timestr : String) (mol : OBMol α) (pfx : String) :
    (OutputHeader env self timestr mol pfx).any isHeaderLine = true := by
  simp [OutputHeader, headerTop, isHeaderLine, List.isPrefixOf]

theorem writeAll_num [LinearOrderedField α] (env : Env α) (calls : List (MolCall α))
    (w : World) : (writeAll env calls w).num = w.num + calls.length := by
  induction calls generalizing w with
  | nil => rfl
  | cons c cs ih =>
    rw [writeAll, ih]
    simp only [WriteMolecule, List.length_cons]
    omega

theorem writeAll_out [LinearOrderedField α] (env : Env α) (calls : List (MolCall α))
    (w : World) :
    (writeAll env calls w).out
      = w.out ++ ((calls.enumFrom w.num).map
          (fun p => WriteMoleculeText env p.2.timestr p.2.pConv p.1 p.2.mol)).flatten := by
  induction calls generalizing w with
  | nil => simp [writeAll]
  | cons c cs ih =>
    rw [writeAll, ih]
    simp [WriteMolecule, List.enumFrom, List.append_assoc]

/-- C17: a call of `WriteMolecule` on a molecule adds one to the counter and
appends the text for the sequence number the counter held; so, from the counter
`0`, after any sequence of calls on molecules the counter is the number of
calls and the stream holds, in order, the text of the k-th call written with
the sequence number k (k = 0, 1, 2, ...). The text of a call starts with the
header when the sequence number is `0` and is the body alone otherwise, and it
contains the first line of the header iff the sequence number is `0`. -/
theorem C17_counter_and_header [LinearOrderedField α] (env : Env α) :
    (∀ (timestr : String) (pConv : OBConversion) (mol : OBMol α) (w : World),
      (WriteMolecule env timestr (some mol) pConv w).2.num = w.num + 1
      ∧ (WriteMolecule env timestr (some mol) pConv w).2.out
          = w.out ++ WriteMoleculeText env timestr pConv w.num mol)
    ∧ (∀ calls : List (MolCall α),
        (writeAll env calls ⟨0, [], 0⟩).num = calls.length
        ∧ (writeAll env calls ⟨0, [], 0⟩).out
            = (calls.enum.map
                (fun p => WriteMoleculeText env p.2.timestr p.2.pConv p.1 p.2.mol)).flatten)
    ∧ (∀ (timestr : String) (pConv : OBConversion) (num : Nat) (mol : OBMol α),
        WriteMoleculeText env timestr pConv num mol
            = (if num = 0 then OutputHeader env (readOptions pConv) timestr mol "mol_0" else [])
              ++ WriteMoleculeBody env mol (molPrefix num)
        ∧ ((WriteMoleculeText env timestr pConv num mol).any isHeaderLine = true ↔ num = 0)) := by
  refine ⟨fun timestr pConv mol w => ⟨rfl, rfl⟩, fun calls => ⟨?_, ?_⟩,
    fun timestr pConv num mol => ⟨?_, ?_⟩⟩
  · simpa using writeAll_num env calls ⟨0, [], 0⟩
  · simpa [List.enum] using writeAll_out env calls ⟨0, [], 0⟩
  · simp only [WriteMoleculeText]
    split_ifs with h
    · subst h; rfl
    · rfl
  · have hb := WriteMoleculeBody_noHeader env mol num
    have hb' : (WriteMoleculeBody env mol (molPrefix num)).any isHeaderLine = false := by
      rw [List.any_eq_false]
      intro l hl
      have := (List.all_eq_true.mp hb) l hl
      simpa using this
    simp only [WriteMoleculeText, List.any_append, hb', Bool.or_false]
    split_ifs with h
    · simp [h, OutputHeader_any_header]
    · simp [h]

/-- C18: `WriteMolecule` returns false iff the object is not a molecule; then
the stream, the counter and the warnings are as before the call; for every
molecule, whatever the options, it returns true. -/
theorem C18_false_iff_not_a_molecule [LinearOrderedField α] (env : Env α) (timestr : String)
    (pOb : Option (OBMol α)) (pConv : OBConversion) (w : World) :
    ((WriteMolecule env timestr pOb pConv w).1 = false ↔ pOb = none)
    ∧ (pOb = none → (WriteMolecule env timestr pOb pConv w).2 = w)
    ∧ (∀ mol, pOb = some mol → (WriteMolecule env timestr pOb pConv w).1 = true) := by
  cases pOb with
  | none => simp [WriteMolecule]
  | some mol => simp [WriteMolecule]

/-- C19: without the option `m` the model type is `BAS` and no warning is
logged; with the option, the model type is the upper-cased value when that is
`BAS`, `SPF` or `CST`, without a warning, and `BAS` with one warning otherwise;
the model type is always one of the three names; the value `xyz` gives the model
type, the header line and the whole text that `BAS` gives, and one warning where
`BAS` gives none. -/
theorem C19_model_type_resolution [LinearOrderedField α] (env : Env α) :
    resolveModelType none = ("BAS", false)
    ∧ (∀ s : String,
        (toUpperStr s = "BAS" ∨ toUpperStr s = "SPF" ∨ toUpperStr s = "CST" →
          resolveModelType (some s) = (toUpperStr s, false))
        ∧ (¬ (toUpperStr s = "BAS" ∨ toUpperStr s = "SPF" ∨ toUpperStr s = "CST") →
          resolveModelType (some s) = ("BAS", true)))
    ∧ (∀ m : Option String,
        (resolveModelType m).1 = "BAS" ∨ (resolveModelType m).1 = "SPF"
          ∨ (resolveModelType m).1 = "CST")
    ∧ (∀ (m : Option String) (t s c f : Bool) (timestr : String) (mol : OBMol α) (w : World),
        (WriteMolecule env timestr (some mol) ⟨m, t, s, c, f⟩ w).2.warnings
          = w.warnings + (if (resolveModelType m).2 then 1 else 0)
        ∧ ("#declare " ++ (resolveModelType m).1 ++ " = true;")
            ∈ WriteMoleculeText env timestr ⟨m, t, s, c, f⟩ 0 mol)
    ∧ resolveModelType (some "bas") = ("BAS", false)
    ∧ resolveModelType (some "Spf") = ("SPF", false)
    ∧ resolveModelType (some "xyz") = ("BAS", true)
    ∧ (∀ (t s c f : Bool) (timestr : String) (num : Nat) (mol : OBMol α) (w : World),
        WriteMoleculeText env timestr ⟨some "xyz", t, s, c, f⟩ num mol
          = WriteMoleculeText env timestr ⟨some "BAS", t, s, c, f⟩ num mol
        ∧ (WriteMolecule env timestr (some mol) ⟨some "xyz", t, s, c, f⟩ w).2.out
          = (WriteMolecule env timestr (some mol) ⟨some "BAS", t, s, c, f⟩ w).2.out
        ∧ (WriteMolecule env timestr (some mol) ⟨some "xyz", t, s, c, f⟩ w).2.warnings
          = w.warnings + 1
        ∧ (WriteMolecule env timestr (some mol) ⟨some "BAS", t, s, c, f⟩ w).2.warnings
          = w.warnings) := by
  have hx : resolveModelType (some "xyz") = ("BAS", true) := by decide
  have hB : resolveModelType (some "BAS") = ("BAS", false) := by decide
  refine ⟨rfl, ?_, resolveModelType_cases, ?_, by decide, by decide, hx, ?_⟩
  · intro s
    constructor
    · intro h
      simp only [resolveModelType]
      rw [if_neg]
      intro hn
      rcases h with h | h | h
      · exact hn.1 h
      · exact hn.2.1 h
      · exact hn.2.2 h
    · intro h
      simp only [resolveModelType]
      rw [if_pos]
      exact ⟨fun h1 => h (Or.inl h1), fun h2 => h (Or.inr (Or.inl h2)),
        fun h3 => h (Or.inr (Or.inr h3))⟩
  · intro m t s c f timestr mol w
    refine ⟨rfl, ?_⟩
    simp [WriteMoleculeText, OutputHeader, headerTop, readOptions]
  · intro t s c f timestr num mol w
    have ht : ∀ n, WriteMoleculeText env timestr ⟨some "xyz", t, s, c, f⟩ n mol
        = WriteMoleculeText env timestr ⟨some "BAS", t, s, c, f⟩ n mol := by
      intro n
      simp only [WriteMoleculeText, readOptions, hx, hB]
    refine ⟨ht num, ?_, ?_, ?_⟩
    · simp only [WriteMolecule, ht]
    · simp only [WriteMolecule, hx, if_true]
    · simp only [WriteMolecule, hB]
      simp

end SequenceProofs

section TransparencyGuardProofs

variable {α : Type}

theorem headerTop_declares_TRANS [LinearOrderedField α] (env : Env α) (self : PovrayFormat)
    (timestr : String) (c : vector3 α) :
    ("#declare TRANS = " ++ (if self.trans_texture then "true" else "false") ++ ";")
        ∈ headerTop env self timestr c
    ∧ ifdefHolds (headerTop env self timestr c) "TRANS" = true := by
  constructor
  · simp [headerTop]
  · cases h : self.trans_texture <;>
      simp [ifdefHolds, headerTop, declaresName, List.isPrefixOf, h]

/-- C20: in the text of the first molecule of a stream, whether the option `t`
is set or not, the header declares `TRANS` (as `true` or as `false`) before the
guard `#ifdef (TRANS)` that `OutputUnions` writes around the declaration of
`mol_0_atoms`, with no conditional open in between; so `TRANS` is defined at
the guard and, whatever the values of the flags, the guard selects the line
`#declare mol_0_atoms = merge` and never the line with `union`, also when the
header declares `TRANS = false`. -/
theorem C20_atoms_composite_guard [LinearOrderedField α] (env : Env α) (timestr : String)
    (m : Option String) (t s c f : Bool) (mol : OBMol α) :
    ∃ pre post : List String,
      WriteMoleculeText env timestr ⟨m, t, s, c, f⟩ 0 mol
        = pre ++ [ "#ifdef (TRANS)",
                   "#declare mol_0_atoms = merge \x7b",
                   "#else",
                   "#declare mol_0_atoms = union \x7b",
                   "#end //(End of TRANS)" ] ++ post
      ∧ ("#declare TRANS = " ++ (if t then "true" else "false") ++ ";") ∈ pre
      ∧ ifdefHolds pre "TRANS" = true
      ∧ condDepth 0 pre = some 0
      ∧ ∀ spf bas cst trans : Bool,
          selectLines ⟨spf, bas, cst, trans, ifdefHolds pre "TRANS"⟩ []
              [ "#ifdef (TRANS)",
                "#declare mol_0_atoms = merge \x7b",
                "#else",
                "#declare mol_0_atoms = union \x7b",
                "#end //(End of TRANS)" ]
            = [ "#declare mol_0_atoms = merge \x7b" ] := by
  have hT := headerTop_declares_TRANS env (readOptions ⟨m, t, s, c, f⟩) timestr
    (my_center_coords mol.GetCoordinates mol.NumAtoms)
  have hdef : ifdefHolds
      (OutputHeader env (readOptions ⟨m, t, s, c, f⟩) timestr mol "mol_0"
        ++ OutputAtoms env mol "mol_0" ++ bondDeclarations env mol "mol_0"
        ++ [ "", "//All atoms of molecule mol_0" ]) "TRANS" = true := by
    have h2 := hT.2
    simp only [ifdefHolds] at h2 ⊢
    simp only [OutputHeader, List.any_append, h2, Bool.true_or]
  refine ⟨OutputHeader env (readOptions ⟨m, t, s, c, f⟩) timestr mol "mol_0"
      ++ OutputAtoms env mol "mol_0" ++ bondDeclarations env mol "mol_0"
      ++ [ "", "//All atoms of molecule mol_0" ],
    unionAtomLoop "mol_0" 1 mol.NumAtoms
      ++ [ "\t \x7d", "" ]
      ++ (if mol.NumBonds > 0 then
            [ "//Bonds only needed for ball and sticks or capped sticks models",
              "#if (BAS | CST)",
              "#declare mol_0_bonds = union \x7b" ]
              ++ unionBondLoop "mol_0" 0 mol.NumBonds
              ++ [ "\t \x7d", "#end", "" ]
          else [])
      ++ moleculeDefinition env mol "mol_0"
      ++ OutputCenterComment env "mol_0" (CalcBoundingBox mol)
      ++ [ "mol_0" ], ?_, ?_, hdef, ?_, ?_⟩
  · have hp : molPrefix 0 = "mol_0" := rfl
    have h0 : "mol_" ++ toString 0 = "mol_0" := rfl
    simp only [WriteMoleculeText, WriteMoleculeBody, OutputUnions, hp, h0, if_true,
      List.append_assoc, List.cons_append, List.nil_append]
    rfl
  · have h1 : ("#declare TRANS = " ++ (if t then "true" else "false") ++ ";")
        ∈ headerTop env (readOptions ⟨m, t, s, c, f⟩) timestr
            (my_center_coords mol.GetCoordinates mol.NumAtoms) := hT.1
    simp only [OutputHeader, List.mem_append]
    tauto
  · have h2 : condDepth 0 [ "", "//All atoms of molecule mol_0" ] = some 0 := rfl
    simp only [condDepth_append, condDepth_OutputHeader, condDepth_OutputAtoms,
      condDepth_bondDeclarations, h2, Option.some_bind]
  · intro spf bas cst trans
    rw [hdef]
    rfl

end TransparencyGuardProofs

section MoleculeDefinitionProofs

variable {α : Type}

theorem selectLines_OutputMoleculeBonds_SPF [LinearOrderedField α] (env : Env α)
    (pfx : String) (b : BoundingBox α) (bas cst trans dtrans : Bool) :
    selectLines ⟨true, bas, cst, trans, dtrans⟩ [] (OutputMoleculeBonds env pfx b)
      = [ "",
          "//Definition of molecule " ++ pfx,
          "#declare " ++ pfx ++ " = object\x7b",
          "\t  " ++ pfx ++ "_atoms" ] ++ moleculeTail env b := by
  cases bas <;> cases cst <;> cases trans <;>
    simp [OutputMoleculeBonds, moleculeTail, selectLines, stackStep, stackActive, isDirective,
      isIfLine, isElseLine, isEndLine, evalCond, List.isPrefixOf]

theorem selectLines_OutputMoleculeBonds_diff [LinearOrderedField α] (env : Env α)
    (pfx : String) (b : BoundingBox α) (bas cst dtrans : Bool) (h : (bas || cst) = true) :
    selectLines ⟨false, bas, cst, true, dtrans⟩ [] (OutputMoleculeBonds env pfx b)
      = [ "",
          "//Definition of molecule " ++ pfx,
          "#declare " ++ pfx ++ " = union \x7b",
          "\t  object\x7b" ++ pfx ++ "_atoms\x7d",
          "\t  difference \x7b",
          "\t   object\x7b" ++ pfx ++ "_bonds\x7d",
          "\t   object\x7b" ++ pfx ++ "_atoms\x7d",
          "\t  \x7d" ] ++ moleculeTail env b := by
  cases bas <;> cases cst <;> simp at h <;>
    simp [OutputMoleculeBonds, moleculeTail, selectLines, stackStep, stackActive, isDirective,
      isIfLine, isElseLine, isEndLine, evalCond, List.isPrefixOf]

theorem selectLines_OutputMoleculeBonds_plain [LinearOrderedField α] (env : Env α)
    (pfx : String) (b : BoundingBox α) (bas cst dtrans : Bool) (h : (bas || cst) = true) :
    selectLines ⟨false, bas, cst, false, dtrans⟩ [] (OutputMoleculeBonds env pfx b)
      = [ "",
          "//Definition of molecule " ++ pfx,
          "#declare " ++ pfx ++ " = union \x7b",
          "\t  object\x7b" ++ pfx ++ "_atoms\x7d",
          "\t  object\x7b" ++ pfx ++ "_bonds\x7d" ] ++ moleculeTail env b := by
  cases bas <;> cases cst <;> simp at h <;>
    simp [OutputMoleculeBonds, moleculeTail, selectLines, stackStep, stackActive, isDirective,
      isIfLine, isElseLine, isEndLine, evalCond, List.isPrefixOf]

theorem selectLines_OutputMoleculeBonds_none [LinearOrderedField α] (env : Env α)
    (pfx : String) (b : BoundingBox α) (trans dtrans : Bool) :
    selectLines ⟨false, false, false, trans, dtrans⟩ [] (OutputMoleculeBonds env pfx b)
      = [ "",
          "//Definition of molecule " ++ pfx,
          "#declare " ++ pfx ++ " = union \x7b",
          "\t  object\x7b" ++ pfx ++ "_atoms\x7d" ] ++ moleculeTail env b := by
  cases trans <;>
    simp [OutputMoleculeBonds, moleculeTail, selectLines, stackStep, stackActive, isDirective,
      isIfLine, isElseLine, isEndLine, evalCond, List.isPrefixOf]

theorem moleculeTail_quiet [LinearOrderedField α] (env : Env α) (b : BoundingBox α)
    (s : String) : (moleculeTail env b).all (isQuietLine ("mol_" ++ s)) = true := by
  simp [moleculeTail, isQuietLine, isTranslateMolLine, isObjectMolLine, isMolLine,
    isMolObjectLine, stripIndent, List.dropWhile, List.isPrefixOf]

theorem SPF_selection_no_bonds_use [LinearOrderedField α] (env : Env α) (s : String)
    (b : BoundingBox α) (bas cst trans dtrans : Bool) (l : String)
    (hl : l ∈ selectLines ⟨true, bas, cst, trans, dtrans⟩ []
      (OutputMoleculeBonds env ("mol_" ++ s) b)) :
    ¬ UsesIdent ("mol_" ++ s) ("mol_" ++ s ++ "_bonds") l := by
  have hg : Generated ("mol_" ++ s) ("mol_" ++ s ++ "_bonds") := ⟨"_bonds".data, by simp⟩
  rw [selectLines_OutputMoleculeBonds_SPF, List.mem_append] at hl
  rcases hl with hl | hl
  · simp only [List.mem_cons, List.mem_singleton, List.not_mem_nil, or_false] at hl
    rcases hl with rfl | rfl | rfl | rfl
    · exact noUse_of_quiet s _ _ (by
        simp [isQuietLine, isTranslateMolLine, isObjectMolLine, isMolLine, isMolObjectLine,
          stripIndent, List.dropWhile, List.isPrefixOf]) hg
    · exact noUse_of_quiet s _ _ (by
        simp [isQuietLine, isTranslateMolLine, isObjectMolLine, isMolLine, isMolObjectLine,
          stripIndent, List.dropWhile, List.isPrefixOf]) hg
    · exact noUse_of_quiet s _ _ (by
        simp [isQuietLine, isTranslateMolLine, isObjectMolLine, isMolLine, isMolObjectLine,
          stripIndent, List.dropWhile, List.isPrefixOf, isPrefixOf_append_cancel]) hg
    · intro hu
      have := uses_bare s _ _ (s ++ "_atoms") (by
        simp [stripIndent, List.dropWhile]) hu
      have hd := congrArg String.data this
      simp at hd
  · exact noUse_of_quiet s _ _ (List.all_eq_true.mp (moleculeTail_quiet env b s) l hl) hg

/-- C21: the conditionals of the definition `OutputMoleculeBonds` writes for the
molecule resolve, by the values of the flags, to these lines (before the comment
with the bounding box and the closing brace): when `SPF` is true, an object
holding `<prefix>_atoms` alone, in which no line uses `<prefix>_bonds`; when
`SPF` is false and `BAS` or `CST` is true, a union of `<prefix>_atoms` with the
difference of `<prefix>_bonds` and `<prefix>_atoms` if `TRANS` is true and with
`<prefix>_bonds` if `TRANS` is false; when none of the three is true, a union of
`<prefix>_atoms` alone. -/
theorem C21_molecule_definition_by_flags [LinearOrderedField α] (env : Env α) (num : Nat)
    (b : BoundingBox α) (bas cst trans dtrans : Bool) :
    selectLines ⟨true, bas, cst, trans, dtrans⟩ [] (OutputMoleculeBonds env (molPrefix num) b)
        = [ "",
            "//Definition of molecule " ++ molPrefix num,
            "#declare " ++ molPrefix num ++ " = object\x7b",
            "\t  " ++ molPrefix num ++ "_atoms" ] ++ moleculeTail env b
    ∧ (∀ l ∈ selectLines ⟨true, bas, cst, trans, dtrans⟩ []
          (OutputMoleculeBonds env (molPrefix num) b),
        ¬ UsesIdent (molPrefix num) (molPrefix num ++ "_bonds") l)
    ∧ ((bas || cst) = true →
        selectLines ⟨false, bas, cst, true, dtrans⟩ []
            (OutputMoleculeBonds env (molPrefix num) b)
          = [ "",
              "//Definition of molecule " ++ molPrefix num,
              "#declare " ++ molPrefix num ++ " = union \x7b",
              "\t  object\x7b" ++ molPrefix num ++ "_atoms\x7d",
              "\t  difference \x7b",
              "\t   object\x7b" ++ molPrefix num ++ "_bonds\x7d",
              "\t   object\x7b" ++ molPrefix num ++ "_atoms\x7d",
              "\t  \x7d" ] ++ moleculeTail env b)
    ∧ ((bas || cst) = true →
        selectLines ⟨false, bas, cst, false, dtrans⟩ []
            (OutputMoleculeBonds env (molPrefix num) b)
          = [ "",
              "//Definition of molecule " ++ molPrefix num,
              "#declare " ++ molPrefix num ++ " = union \x7b",
              "\t  object\x7b" ++ molPrefix num ++ "_atoms\x7d",
              "\t  object\x7b" ++ molPrefix num ++ "_bonds\x7d" ] ++ moleculeTail env b)
    ∧ selectLines ⟨false, false, false, trans, dtrans⟩ []
          (OutputMoleculeBonds env (molPrefix num) b)
        = [ "",
            "//Definition of molecule " ++ molPrefix num,
            "#declare " ++ molPrefix num ++ " = union \x7b",
            "\t  object\x7b" ++ molPrefix num ++ "_atoms\x7d" ] ++ moleculeTail env b
    ∧ (∀ mol : OBMol α, mol.NumBonds > 0 →
        moleculeDefinition env mol (molPrefix num)
          = OutputMoleculeBonds env (molPrefix num) (CalcBoundingBox mol)) := by
  refine ⟨selectLines_OutputMoleculeBonds_SPF env _ b bas cst trans dtrans, ?_,
    selectLines_OutputMoleculeBonds_diff env _ b bas cst dtrans,
    selectLines_OutputMoleculeBonds_plain env _ b bas cst dtrans,
    selectLines_OutputMoleculeBonds_none env _ b trans dtrans, ?_⟩
  · rw [molPrefix_eq]
    intro l hl
    exact SPF_selection_no_bonds_use env _ b bas cst trans dtrans l hl
  · intro mol h
    simp only [moleculeDefinition, if_pos h]

end MoleculeDefinitionProofs

section NoBondsProofs

variable {α : Type}

theorem atomPosLoop_all [LinearOrderedField α] (P : String → Bool) (env : Env α) (pfx : String)
    (h : ∀ i a, P (atomPosLine env pfx i a) = true) (i : Nat) (atoms : List (OBAtom α)) :
    (atomPosLoop env pfx i atoms).all P = true := by
  induction atoms generalizing i with
  | nil => rfl
  | cons a rest ih => simp only [atomPosLoop, List.all_cons, ih, h, Bool.and_true]

theorem atomObjectLoop_all [LinearOrderedField α] (P : String → Bool) (pfx : String)
    (h : ∀ i (a : OBAtom α), (atomObject pfx i a).all P = true) (i : Nat)
    (atoms : List (OBAtom α)) :
    (atomObjectLoop pfx i atoms).all P = true := by
  induction atoms generalizing i with
  | nil => rfl
  | cons a rest ih => simp only [atomObjectLoop, List.all_append, ih, h, Bool.and_true]

theorem unionAtomLoop_all (P : String → Bool) (pfx : String)
    (h : ∀ n : String, P ("\t  object\x7b" ++ pfx ++ "_atom" ++ n ++ "\x7d") = true)
    (i n : Nat) : (unionAtomLoop pfx i n).all P = true := by
  induction n generalizing i with
  | zero => rfl
  | succ n ih => simp only [unionAtomLoop, List.all_cons, ih, h, Bool.and_true]

theorem unionBondLoop_all (P : String → Bool) (pfx : String)
    (h : ∀ n : String, P ("\t  object\x7b" ++ pfx ++ "_bond" ++ n ++ "\x7d") = true)
    (i n : Nat) : (unionBondLoop pfx i n).all P = true := by
  induction n generalizing i with
  | zero => rfl
  | succ n ih => simp only [unionBondLoop, List.all_cons, ih, h, Bool.and_true]

theorem basBondLoop_all [LinearOrderedField α] (P : String → Bool) (env : Env α) (pfx : String)
    (h : ∀ i b, (basBond env pfx i b).all P = true) (i : Nat) (bonds : List (OBBond α)) :
    (basBondLoop env pfx i bonds).all P = true := by
  induction bonds generalizing i with
  | nil => rfl
  | cons b bs ih => simp only [basBondLoop, List.all_append, ih, h, Bool.and_true]

theorem cstBondLoop_all [LinearOrderedField α] (P : String → Bool) (env : Env α) (pfx : String)
    (h : ∀ i b, (cstBond env pfx i b).all P = true) (i : Nat) (bonds : List (OBBond α)) :
    (cstBondLoop env pfx i bonds).all P = true := by
  induction bonds generalizing i with
  | nil => rfl
  | cons b bs ih => simp only [cstBondLoop, List.all_append, ih, h, Bool.and_true]

theorem thetaRotate_all [LinearOrderedField α] (P : String → Bool) (env : Env α) (ind : String)
    (g : Bool) (theta z1 z2 : α) (h : ∀ s, P (ind ++ ("rotate <0.0000," ++ s)) = true) :
    (thetaRotate env ind g theta z1 z2).all P = true := by
  simp only [thetaRotate]
  split_ifs
  · simpa [String.append_assoc] using h (env.fmt ((180 * (-1) * theta) / env.PI) ++ ",0.0000>")
  · simpa [String.append_assoc] using h (env.fmt (RAD2DEG env theta) ++ ",0.0000>")
  · rfl

/-! The text of a molecule without bonds. -/

theorem OutputHeader_other [LinearOrderedField α] (env : Env α) (self : PovrayFormat)
    (timestr : String) (mol : OBMol α) (pfx s : String)
    (hmt : self.model_type = "BAS" ∨ self.model_type = "SPF" ∨ self.model_type = "CST") :
    (OutputHeader env self timestr mol pfx).all (isOtherLine ("mol_" ++ s)) = true := by
  have h1 : (headerTop env self timestr
      (my_center_coords mol.GetCoordinates mol.NumAtoms)).all (isOtherLine ("mol_" ++ s))
      = true := by
    rcases hmt with h | h | h <;>
      simp [headerTop, h, isOtherLine, isBondDeclLine, isBondBlockLine, declaresName,
        List.isPrefixOf]
  have h2 : (headerBackground self.sky).all (isOtherLine ("mol_" ++ s)) = true := by
    cases self.sky <;>
      simp [headerBackground, isOtherLine, isBondDeclLine, isBondBlockLine, declaresName,
        List.isPrefixOf]
  have h3 : (headerCamera env (my_center_coords mol.GetCoordinates mol.NumAtoms)).all
      (isOtherLine ("mol_" ++ s)) = true := by
    simp [headerCamera, isOtherLine, isBondDeclLine, isBondBlockLine, declaresName,
      List.isPrefixOf]
  have h4 : (headerSphere env self.sphere
      (my_center_coords mol.GetCoordinates mol.NumAtoms)).all (isOtherLine ("mol_" ++ s))
      = true := by
    cases self.sphere <;>
      simp [headerSphere, isOtherLine, isBondDeclLine, isBondBlockLine, declaresName,
        List.isPrefixOf]
  have h5 : (headerCheckerboard env self.checkerboard
      (my_center_coords mol.GetCoordinates mol.NumAtoms)).all (isOtherLine ("mol_" ++ s))
      = true := by
    cases self.checkerboard <;>
      simp [headerCheckerboard, isOtherLine, isBondDeclLine, isBondBlockLine, declaresName,
        List.isPrefixOf]
  have h6 : (headerNoBondsWarning mol).all (isOtherLine ("mol_" ++ s)) = true := by
    simp only [headerNoBondsWarning]
    split_ifs <;>
      simp [isOtherLine, isBondDeclLine, isBondBlockLine, declaresName, List.isPrefixOf]
  have h7 : (headerTail mol).all (isOtherLine ("mol_" ++ s)) = true := by
    simp [headerTail, isOtherLine, isBondDeclLine, isBondBlockLine, declaresName,
      List.isPrefixOf]
  simp only [OutputHeader, List.all_append, h1, h2, h3, h4, h5, h6, h7, Bool.and_true,
    Bool.true_and]
  simp [isOtherLine, isBondDeclLine, isBondBlockLine, declaresName, List.isPrefixOf]

theorem OutputAtoms_other [LinearOrderedField α] (env : Env α) (mol : OBMol α) (s : String) :
    (OutputAtoms env mol ("mol_" ++ s)).all (isOtherLine ("mol_" ++ s)) = true := by
  have h1 := atomPosLoop_all (isOtherLine ("mol_" ++ s)) env ("mol_" ++ s)
    (fun i a => by
      simp [atomPosLine, isOtherLine, isBondDeclLine, isBondBlockLine, declaresName,
        List.isPrefixOf, isPrefixOf_append_cancel]) 1 mol.atoms
  have h2 := atomObjectLoop_all (isOtherLine ("mol_" ++ s)) ("mol_" ++ s)
    (fun i (a : OBAtom α) => by
      simp [atomObject, isOtherLine, isBondDeclLine, isBondBlockLine, declaresName,
        List.isPrefixOf, isPrefixOf_append_cancel]) 1 mol.atoms
  simp only [OutputAtoms, List.all_append, h1, h2, Bool.and_true, Bool.true_and]
  simp [isOtherLine, isBondDeclLine, isBondBlockLine, declaresName, List.isPrefixOf]

theorem unionsNoBonds_other (s : String) (n : Nat) :
    ([ "",
       "//All atoms of molecule " ++ ("mol_" ++ s),
       "#ifdef (TRANS)",
       "#declare " ++ ("mol_" ++ s) ++ "_atoms = merge \x7b",
       "#else",
       "#declare " ++ ("mol_" ++ s) ++ "_atoms = union \x7b",
       "#end //(End of TRANS)" ]
      ++ unionAtomLoop ("mol_" ++ s) 1 n
      ++ [ "\t \x7d", "" ]).all (isOtherLine ("mol_" ++ s)) = true := by
  have h := unionAtomLoop_all (isOtherLine ("mol_" ++ s)) ("mol_" ++ s)
    (fun n => by
      simp [isOtherLine, isBondDeclLine, isBondBlockLine, declaresName, List.isPrefixOf]) 1 n
  simp only [List.all_append, h, Bool.and_true]
  simp [isOtherLine, isBondDeclLine, isBondBlockLine, declaresName, List.isPrefixOf,
    isPrefixOf_append_cancel]

theorem moleculeLine_not_bond (s : String) :
    isBondDeclLine ("mol_" ++ s)
        ("#declare " ++ ("mol_" ++ s) ++ " = object \x7b" ++ ("mol_" ++ s) ++ "_atoms\x7d") = false
    ∧ isBondBlockLine
        ("#declare " ++ ("mol_" ++ s) ++ " = object \x7b" ++ ("mol_" ++ s) ++ "_atoms\x7d") = false
    ∧ declaresName ("mol_" ++ s)
        ("#declare " ++ ("mol_" ++ s) ++ " = object \x7b" ++ ("mol_" ++ s) ++ "_atoms\x7d") = true := by
  simp [isBondDeclLine, isBondBlockLine, declaresName, List.isPrefixOf,
    isPrefixOf_append_cancel]

theorem condDepth_append4 (H A U L : List String) (hH : condDepth 0 H = some 0)
    (hA : condDepth 0 A = some 0) (hU : condDepth 0 U = some 0) (hL : condDepth 0 L = some 0) :
    condDepth 0 (H ++ A ++ U ++ L) = some 0 := by
  simp only [condDepth_append, hH, hA, hU, hL, Option.some_bind]

theorem all_append4 (P : String → Bool) (H A U L : List String) (hH : H.all P = true)
    (hA : A.all P = true) (hU : U.all P = true) (hL : L.all P = true) :
    (H ++ A ++ U ++ L).all P = true := by
  simp only [List.all_append, hH, hA, hU, hL, Bool.and_true]

theorem WriteMoleculeText_noBonds_split [LinearOrderedField α] (env : Env α)
    (timestr : String) (pConv : OBConversion) (num : Nat) (atoms : List (OBAtom α))
    (title : String) (s : String) (hs : molPrefix num = "mol_" ++ s) :
    ∃ pre post : List String,
      WriteMoleculeText env timestr pConv num ⟨atoms, [], title⟩
        = pre ++ [ "#declare " ++ ("mol_" ++ s) ++ " = object \x7b" ++ ("mol_" ++ s)
                    ++ "_atoms\x7d" ] ++ post
      ∧ condDepth 0 pre = some 0
      ∧ pre.all (isOtherLine ("mol_" ++ s)) = true
      ∧ post.all (isOtherLine ("mol_" ++ s)) = true := by
  refine ⟨(if num = 0 then
        OutputHeader env (readOptions pConv) timestr ⟨atoms, [], title⟩ ("mol_" ++ toString num)
      else [])
      ++ OutputAtoms env ⟨atoms, [], title⟩ ("mol_" ++ s)
      ++ ([ "",
            "//All atoms of molecule " ++ ("mol_" ++ s),
            "#ifdef (TRANS)",
            "#declare " ++ ("mol_" ++ s) ++ "_atoms = merge \x7b",
            "#else",
            "#declare " ++ ("mol_" ++ s) ++ "_atoms = union \x7b",
            "#end //(End of TRANS)" ]
          ++ unionAtomLoop ("mol_" ++ s) 1 atoms.length
          ++ [ "\t \x7d", "" ])
      ++ [ "", "//Definition of Molecule " ++ ("mol_" ++ s) ++ " (no bonds)" ],
    [ "" ] ++ OutputCenterComment env ("mol_" ++ s) (CalcBoundingBox ⟨atoms, [], title⟩)
      ++ [ "mol_" ++ s ], ?_, ?_, ?_, ?_⟩
  · simp only [WriteMoleculeText, WriteMoleculeBody, hs, bondDeclarations, OutputUnions,
      moleculeDefinition, OutputMoleculeNoBonds, OBMol.NumBonds, OBMol.NumAtoms,
      List.length_nil, gt_iff_lt, lt_self_iff_false, if_false, List.append_nil,
      List.append_assoc, List.cons_append, List.nil_append]
  · have hu : condDepth 0
        ([ "",
           "//All atoms of molecule " ++ ("mol_" ++ s),
           "#ifdef (TRANS)",
           "#declare " ++ ("mol_" ++ s) ++ "_atoms = merge \x7b",
           "#else",
           "#declare " ++ ("mol_" ++ s) ++ "_atoms = union \x7b",
           "#end //(End of TRANS)" ]
          ++ unionAtomLoop ("mol_" ++ s) 1 atoms.length
          ++ [ "\t \x7d", "" ]) = some 0 := by
      have := condDepth_OutputUnions (⟨atoms, [], title⟩ : OBMol α) ("mol_" ++ s) 0
      simpa [OutputUnions, OBMol.NumBonds, OBMol.NumAtoms] using this
    have hh : condDepth 0 (if num = 0 then
        OutputHeader env (readOptions pConv) timestr ⟨atoms, [], title⟩ ("mol_" ++ toString num)
      else []) = some 0 := by
      split_ifs
      · exact condDepth_OutputHeader _ _ _ _ _ _
      · rfl
    have hl : condDepth 0 [ "", "//Definition of Molecule " ++ ("mol_" ++ s) ++ " (no bonds)" ]
        = some 0 := by
      simp [condDepth, isIfLine, isEndLine, List.isPrefixOf]
    exact condDepth_append4 _ _ _ _ hh (condDepth_OutputAtoms _ _ _ _) hu hl
  · have hh : (if num = 0 then
        OutputHeader env (readOptions pConv) timestr ⟨atoms, [], title⟩ ("mol_" ++ toString num)
      else []).all (isOtherLine ("mol_" ++ s)) = true := by
      split_ifs
      · exact OutputHeader_other _ _ _ _ _ _ (resolveModelType_cases pConv.m)
      · rfl
    apply all_append4 _ _ _ _ _ hh (OutputAtoms_other _ _ _) (unionsNoBonds_other _ _)
    simp [isOtherLine, isBondDeclLine, isBondBlockLine, declaresName, List.isPrefixOf]
  · simp [OutputCenterComment, isOtherLine, isBondDeclLine, isBondBlockLine, declaresName,
      List.isPrefixOf, isPrefixOf_append_cancel]

end NoBondsProofs

section WarningProofs

variable {α : Type}

theorem OutputHeader_noWarning [LinearOrderedField α] (env : Env α) (self : PovrayFormat)
    (timestr : String) (mol : OBMol α) (pfx : String) (hb : mol.NumBonds ≠ 0) :
    (OutputHeader env self timestr mol pfx).all (fun l => !isWarningLine l) = true := by
  have h2 : (headerBackground self.sky).all (fun l => !isWarningLine l) = true := by
    cases self.sky <;> simp [headerBackground, isWarningLine, List.isPrefixOf]
  have h4 : (headerSphere env self.sphere
      (my_center_coords mol.GetCoordinates mol.NumAtoms)).all (fun l => !isWarningLine l)
      = true := by
    cases self.sphere <;> simp [headerSphere, isWarningLine, List.isPrefixOf]
  have h5 : (headerCheckerboard env self.checkerboard
      (my_center_coords mol.GetCoordinates mol.NumAtoms)).all (fun l => !isWarningLine l)
      = true := by
    cases self.checkerboard <;> simp [headerCheckerboard, isWarningLine, List.isPrefixOf]
  have h6 : headerNoBondsWarning mol = [] := by
    simp only [headerNoBondsWarning, if_neg hb]
  simp only [OutputHeader, List.all_append, h2, h4, h5, h6, Bool.and_true, Bool.true_and]
  simp [headerTop, headerCamera, headerTail, isWarningLine, List.isPrefixOf]

theorem OutputAtoms_noWarning [LinearOrderedField α] (env : Env α) (mol : OBMol α)
    (pfx : String) :
    (OutputAtoms env mol pfx).all (fun l => !isWarningLine l) = true := by
  have h1 := atomPosLoop_all (fun l => !isWarningLine l) env pfx
    (fun i a => by simp [atomPosLine, isWarningLine, List.isPrefixOf]) 1 mol.atoms
  have h2 := atomObjectLoop_all (fun l => !isWarningLine l) pfx
    (fun i (a : OBAtom α) => by simp [atomObject, isWarningLine, List.isPrefixOf]) 1 mol.atoms
  simp only [OutputAtoms, List.all_append, h1, h2, Bool.and_true, Bool.true_and]
  simp [isWarningLine, List.isPrefixOf]

theorem basBond_noWarning [LinearOrderedField α] (env : Env α) (pfx : String) (i : Nat)
    (b : OBBond α) : (basBond env pfx i b).all (fun l => !isWarningLine l) = true := by
  simp only [basBond, List.all_append]
  rw [thetaRotate_all _ _ _ _ _ _ _ (fun s => by simp [isWarningLine, List.isPrefixOf])]
  split_ifs <;> simp [isWarningLine, List.isPrefixOf]

theorem cstBond_noWarning [LinearOrderedField α] (env : Env α) (pfx : String) (i : Nat)
    (b : OBBond α) : (cstBond env pfx i b).all (fun l => !isWarningLine l) = true := by
  simp only [cstBond, cstStartHalf, cstEndHalf, List.all_append]
  rw [thetaRotate_all _ _ _ _ _ _ _ (fun s => by simp [isWarningLine, List.isPrefixOf]),
    thetaRotate_all _ _ _ _ _ _ _ (fun s => by simp [isWarningLine, List.isPrefixOf])]
  split_ifs <;> simp [isWarningLine, List.isPrefixOf]

theorem bondDeclarations_noWarning [LinearOrderedField α] (env : Env α) (mol : OBMol α)
    (pfx : String) :
    (bondDeclarations env mol pfx).all (fun l => !isWarningLine l) = true := by
  have h1 := basBondLoop_all (fun l => !isWarningLine l) env pfx
    (basBond_noWarning env pfx) 0 mol.bonds
  have h2 := cstBondLoop_all (fun l => !isWarningLine l) env pfx
    (cstBond_noWarning env pfx) 0 mol.bonds
  simp only [bondDeclarations, OutputBASBonds, OutputCSTBonds]
  split_ifs
  · simp only [List.all_append, h1, h2, Bool.and_true, Bool.true_and]
    simp [isWarningLine, List.isPrefixOf]
  · rfl

theorem OutputUnions_noWarning [LinearOrderedField α] (mol : OBMol α) (pfx : String) :
    (OutputUnions mol pfx).all (fun l => !isWarningLine l) = true := by
  have h1 := unionAtomLoop_all (fun l => !isWarningLine l) pfx
    (fun n => by simp [isWarningLine, List.isPrefixOf]) 1 mol.NumAtoms
  have h2 := unionBondLoop_all (fun l => !isWarningLine l) pfx
    (fun n => by simp [isWarningLine, List.isPrefixOf]) 0 mol.NumBonds
  simp only [OutputUnions]
  split_ifs <;>
    · simp only [List.all_append, h1, h2, Bool.and_true, Bool.true_and]
      simp [isWarningLine, List.isPrefixOf]

theorem WriteMoleculeBody_noWarning [LinearOrderedField α] (env : Env α) (mol : OBMol α)
    (s : String) :
    (WriteMoleculeBody env mol ("mol_" ++ s)).all (fun l => !isWarningLine l) = true := by
  have h : (moleculeDefinition env mol ("mol_" ++ s)).all (fun l => !isWarningLine l)
      = true := by
    simp only [moleculeDefinition, OutputMoleculeBonds, OutputMoleculeNoBonds]
    split_ifs <;> simp [isWarningLine, List.isPrefixOf]
  simp only [WriteMoleculeBody, List.all_append, OutputAtoms_noWarning,
    bondDeclarations_noWarning, OutputUnions_noWarning, h, Bool.true_and]
  simp [OutputCenterComment, isWarningLine, List.isPrefixOf]

theorem headerNoBondsWarning_split [LinearOrderedField α] (env : Env α) (self : PovrayFormat)
    (timestr : String) (mol : OBMol α) (pfx : String) (hb : mol.NumBonds = 0) :
    ∃ pre post : List String,
      OutputHeader env self timestr mol pfx
        = pre ++ [ "#if (BAS | CST)\"",
                   "#warning \"Molecule without bonds!\"",
                   "#warning \"You should do a spacefill-model\"",
                   "#end" ] ++ post
      ∧ condDepth 0 pre = some 0 := by
  refine ⟨headerTop env self timestr (my_center_coords mol.GetCoordinates mol.NumAtoms)
      ++ headerBackground self.sky
      ++ headerCamera env (my_center_coords mol.GetCoordinates mol.NumAtoms)
      ++ headerSphere env self.sphere (my_center_coords mol.GetCoordinates mol.NumAtoms)
      ++ headerCheckerboard env self.checkerboard
          (my_center_coords mol.GetCoordinates mol.NumAtoms)
      ++ [ "//Include header for povray", "#include \"babel_povray3.inc\"", "" ],
    [ "" ] ++ headerTail mol, ?_, ?_⟩
  · simp only [OutputHeader, headerNoBondsWarning, if_pos hb, List.append_assoc,
      List.cons_append, List.nil_append]
  · have h3 : ∀ d, condDepth d
        ["//Include header for povray", "#include \"babel_povray3.inc\"", ""] = some d :=
      fun d => rfl
    simp only [condDepth_append, condDepth_headerTop, condDepth_headerBackground,
      condDepth_headerCamera, condDepth_headerSphere, condDepth_headerCheckerboard, h3,
      Option.some_bind]

/-- C22: for every molecule without bonds, whatever the options and the
sequence number: no line of the text `WriteMolecule` writes declares a bond
identifier (`<prefix>_bond<i>` or `<prefix>_bonds`), opens a `#if (BAS)` or
`#if (CST)` block, or uses an identifier that starts with `<prefix>_bond`; the
text holds the line `#declare <prefix> = object \x7b<prefix>_atoms\x7d` outside
every conditional, and no other line declares `<prefix>`; the header holds the
block of four lines with the two warnings, outside every conditional. For a
molecule with at least one bond no line of the text is a warning directive. -/
theorem C22_molecule_without_bonds [LinearOrderedField α] (env : Env α) (timestr : String)
    (pConv : OBConversion) (num : Nat) (atoms : List (OBAtom α)) (title : String) :
    (∀ l ∈ WriteMoleculeText env timestr pConv num ⟨atoms, [], title⟩,
        isBondDeclLine (molPrefix num) l = false
        ∧ isBondBlockLine l = false
        ∧ ∀ id : String, (molPrefix num ++ "_bond").data <+: id.data →
            ¬ UsesIdent (molPrefix num) id l)
    ∧ (∃ pre post : List String,
        WriteMoleculeText env timestr pConv num ⟨atoms, [], title⟩
          = pre ++ [ "#declare " ++ molPrefix num ++ " = object \x7b" ++ molPrefix num
                      ++ "_atoms\x7d" ] ++ post
        ∧ condDepth 0 pre = some 0
        ∧ ∀ l ∈ pre ++ post, declaresName (molPrefix num) l = false)
    ∧ (∃ pre post : List String,
        OutputHeader env (readOptions pConv) timestr ⟨atoms, [], title⟩ "mol_0"
          = pre ++ [ "#if (BAS | CST)\"",
                     "#warning \"Molecule without bonds!\"",
                     "#warning \"You should do a spacefill-model\"",
                     "#end" ] ++ post
        ∧ condDepth 0 pre = some 0)
    ∧ (WriteMoleculeText env timestr pConv 0 ⟨atoms, [], title⟩
        = OutputHeader env (readOptions pConv) timestr ⟨atoms, [], title⟩ "mol_0"
          ++ WriteMoleculeBody env ⟨atoms, [], title⟩ (molPrefix 0))
    ∧ (∀ (b : OBBond α) (bs : List (OBBond α)),
        ∀ l ∈ WriteMoleculeText env timestr pConv num ⟨atoms, b :: bs, title⟩,
          isWarningLine l = false) := by
  obtain ⟨s, hs⟩ : ∃ s, molPrefix num = "mol_" ++ s := ⟨_, molPrefix_eq num⟩
  obtain ⟨pre, post, he, hc, hpre, hpost⟩ :=
    WriteMoleculeText_noBonds_split env timestr pConv num atoms title s hs
  have hml := moleculeLine_not_bond s
  have hother : ∀ l ∈ WriteMoleculeText env timestr pConv num ⟨atoms, [], title⟩,
      isBondDeclLine ("mol_" ++ s) l = false ∧ isBondBlockLine l = false := by
    intro l hl
    rw [he] at hl
    simp only [List.mem_append, List.mem_singleton] at hl
    rcases hl with (hl | hl) | hl
    · have := List.all_eq_true.mp hpre l hl
      simp only [isOtherLine, Bool.and_eq_true, Bool.not_eq_true'] at this
      exact ⟨this.1.1, this.1.2⟩
    · rw [hl]; exact ⟨hml.1, hml.2.1⟩
    · have := List.all_eq_true.mp hpost l hl
      simp only [isOtherLine, Bool.and_eq_true, Bool.not_eq_true'] at this
      exact ⟨this.1.1, this.1.2⟩
  rw [hs]
  refine ⟨?_, ⟨pre, post, he, hc, ?_⟩, ?_, ?_, ?_⟩
  · intro l hl
    refine ⟨(hother l hl).1, (hother l hl).2, ?_⟩
    intro id hid hu
    have hg : Generated ("mol_" ++ s) id := by
      obtain ⟨t, ht⟩ := hid
      exact ⟨"_bond".data ++ t, by rw [← ht]; simp⟩
    have hv : BondIndicesValid (⟨atoms, [], title⟩ : OBMol α) := by
      intro b hb
      cases hb
    have hsc := WriteMoleculeText_scoped env timestr pConv num ⟨atoms, [], title⟩ hv
    rw [hs] at hsc
    obtain ⟨p, q, hpq⟩ := List.append_of_mem hl
    obtain ⟨d, hd, hdecl⟩ := hsc p l q id hpq hg hu
    have hdm : d ∈ WriteMoleculeText env timestr pConv num ⟨atoms, [], title⟩ := by
      rw [hpq]
      simp only [List.nil_append] at hd
      exact List.mem_append_left _ hd
    have hnb := (hother d hdm).1
    have hp1 : ("#declare " ++ ("mol_" ++ s) ++ "_bond").data
        <+: ("#declare " ++ id ++ " ").data := by
      obtain ⟨t, ht⟩ := hid
      exact ⟨t ++ " ".data, by
        simp only [String.data_append, List.append_assoc] at ht ⊢
        rw [← ht]
        simp⟩
    have hp2 : ("#declare " ++ id ++ " ").data <+: d.data := by
      simpa [declaresName] using hdecl
    have hp3 := hp1.trans hp2
    have : isBondDeclLine ("mol_" ++ s) d = true := by
      simpa [isBondDeclLine] using hp3
    rw [this] at hnb
    cases hnb
  · intro l hl
    rw [List.mem_append] at hl
    rcases hl with hl | hl
    · have := List.all_eq_true.mp hpre l hl
      simp only [isOtherLine, Bool.and_eq_true, Bool.not_eq_true'] at this
      exact this.2
    · have := List.all_eq_true.mp hpost l hl
      simp only [isOtherLine, Bool.and_eq_true, Bool.not_eq_true'] at this
      exact this.2
  · exact headerNoBondsWarning_split env (readOptions pConv) timestr ⟨atoms, [], title⟩
      "mol_0" rfl
  · rfl
  · intro b bs l hl
    have hb : (⟨atoms, b :: bs, title⟩ : OBMol α).NumBonds ≠ 0 := by
      simp [OBMol.NumBonds]
    have hh : (if num = 0 then
          OutputHeader env (readOptions pConv) timestr ⟨atoms, b :: bs, title⟩
            ("mol_" ++ toString num)
        else []).all (fun l => !isWarningLine l) = true := by
      split_ifs
      · exact OutputHeader_noWarning _ _ _ _ _ hb
      · rfl
    have hall : (WriteMoleculeText env timestr pConv num ⟨atoms, b :: bs, title⟩).all
        (fun l => !isWarningLine l) = true := by
      simp only [WriteMoleculeText, hs, List.all_append, hh, WriteMoleculeBody_noWarning,
        Bool.and_true]
    have := List.all_eq_true.mp hall l hl
    simpa using this

end WarningProofs

section CenterProofs

variable {α : Type}

theorem centerVector_single [LinearOrderedField α] (a : OBAtom α) (bonds : List (OBBond α))
    (title : String) :
    centerVector (CalcBoundingBox ⟨[a], bonds, title⟩) = ⟨-(a.x / 2), -(a.y / 2), -(a.z / 2)⟩ := by
  have h : ∀ t : α, (-1) * ((if t < 0 then t else 0) + (if t > 0 then t else 0)) / 2
      = -(t / 2) := by
    intro t
    split_ifs with h1 h2 h2
    · exact absurd h2 (not_lt.mpr h1.le)
    · rw [add_zero]; ring
    · rw [zero_add]; ring
    · have : t = 0 := le_antisymm (not_lt.mp h2) (not_lt.mp h1)
      rw [this]; simp
  simp only [CalcBoundingBox, List.foldl_cons, List.foldl_nil, boxStep, centerVector, h]

/-- C23: for every molecule, the three components `OutputCenterComment` writes
in the declaration of `<prefix>_center` are, on each axis, `-(min + max)/2` of
the box `CalcBoundingBox` returns, and `WriteMolecule` writes that declaration
for the box of the molecule; for a molecule without atoms the vector is
`(0,0,0)`; for a single atom at `p` it is `-p/2`, which differs from `-p` on
every axis where `p` is not `0`. -/
theorem C23_center_is_negated_midpoint [LinearOrderedField α] (env : Env α) (mol : OBMol α)
    (pfx : String) :
    (centerVector (CalcBoundingBox mol)).x
        = -(((CalcBoundingBox mol).min_x + (CalcBoundingBox mol).max_x) / 2)
    ∧ (centerVector (CalcBoundingBox mol)).y
        = -(((CalcBoundingBox mol).min_y + (CalcBoundingBox mol).max_y) / 2)
    ∧ (centerVector (CalcBoundingBox mol)).z
        = -(((CalcBoundingBox mol).min_z + (CalcBoundingBox mol).max_z) / 2)
    ∧ ("#declare " ++ pfx ++ "_center = <"
          ++ env.fmt (-(((CalcBoundingBox mol).min_x + (CalcBoundingBox mol).max_x) / 2)) ++ ","
          ++ env.fmt (-(((CalcBoundingBox mol).min_y + (CalcBoundingBox mol).max_y) / 2)) ++ ","
          ++ env.fmt (-(((CalcBoundingBox mol).min_z + (CalcBoundingBox mol).max_z) / 2)) ++ ">;")
        ∈ WriteMoleculeBody env mol pfx
    ∧ (mol.atoms = [] → centerVector (CalcBoundingBox mol) = ⟨0, 0, 0⟩)
    ∧ (∀ a : OBAtom α, mol.atoms = [a] →
        centerVector (CalcBoundingBox mol) = ⟨-(a.x / 2), -(a.y / 2), -(a.z / 2)⟩
        ∧ (a.x ≠ 0 → (centerVector (CalcBoundingBox mol)).x ≠ -a.x)
        ∧ (a.y ≠ 0 → (centerVector (CalcBoundingBox mol)).y ≠ -a.y)
        ∧ (a.z ≠ 0 → (centerVector (CalcBoundingBox mol)).z ≠ -a.z)) := by
  have hx : (centerVector (CalcBoundingBox mol)).x
      = -(((CalcBoundingBox mol).min_x + (CalcBoundingBox mol).max_x) / 2) := by
    simp only [centerVector]; ring
  have hy : (centerVector (CalcBoundingBox mol)).y
      = -(((CalcBoundingBox mol).min_y + (CalcBoundingBox mol).max_y) / 2) := by
    simp only [centerVector]; ring
  have hz : (centerVector (CalcBoundingBox mol)).z
      = -(((CalcBoundingBox mol).min_z + (CalcBoundingBox mol).max_z) / 2) := by
    simp only [centerVector]; ring
  have hne : ∀ t : α, t ≠ 0 → -(t / 2) ≠ -t := by
    intro t ht h
    apply ht
    have h2 : t / 2 = t := neg_injective h
    linarith
  refine ⟨hx, hy, hz, ?_, ?_, ?_⟩
  · rw [← hx, ← hy, ← hz]
    simp [WriteMoleculeBody, OutputCenterComment]
  · intro h
    simp [CalcBoundingBox, h, centerVector]
  · intro a h
    have hm : mol = ⟨[a], mol.bonds, mol.title⟩ := by
      cases mol
      simp only at h
      simp [h]
    have hc := centerVector_single a mol.bonds mol.title
    rw [← hm] at hc
    refine ⟨hc, ?_, ?_, ?_⟩
    · rw [hc]; exact hne _
    · rw [hc]; exact hne _
    · rw [hc]; exact hne _

end CenterProofs

section AngleRangeProofs

theorem abs_sub_le_dist (fmt : ℝ → String) (bond : OBBond ℝ) :
    |bond.endAtom.y - bond.beginAtom.y|
      ≤ (basGeometry ⟨Real.sqrt, Real.arccos, Real.pi, fmt⟩ bond).dist := by
  simp only [basGeometry, SQUARE]
  apply Real.abs_le_sqrt
  nlinarith [mul_self_nonneg (bond.endAtom.x - bond.beginAtom.x),
    mul_self_nonneg (bond.endAtom.z - bond.beginAtom.z)]

theorem abs_sub_le_dy (fmt : ℝ → String) (bond : OBBond ℝ) :
    |bond.endAtom.x - bond.beginAtom.x|
      ≤ (basGeometry ⟨Real.sqrt, Real.arccos, Real.pi, fmt⟩ bond).dy := by
  simp only [basGeometry, SQUARE]
  apply Real.abs_le_sqrt
  nlinarith [mul_self_nonneg (bond.endAtom.z - bond.beginAtom.z)]

theorem dy_le_dist (fmt : ℝ → String) (bond : OBBond ℝ) :
    (basGeometry ⟨Real.sqrt, Real.arccos, Real.pi, fmt⟩ bond).dy
      ≤ (basGeometry ⟨Real.sqrt, Real.arccos, Real.pi, fmt⟩ bond).dist := by
  simp only [basGeometry, SQUARE]
  apply Real.sqrt_le_sqrt
  nlinarith [mul_self_nonneg (bond.endAtom.y - bond.beginAtom.y)]

theorem ratio_in_unit (a d : ℝ) (h : |a| ≤ d) (hd : 0 < d) : -1 ≤ a / d ∧ a / d ≤ 1 := by
  have h1 := abs_le.mp h
  constructor
  · rw [le_div_iff₀ hd]; linarith
  · rw [div_le_one hd]; exact h1.2

theorem cstGeometry_eq_basGeometry {α : Type} [LinearOrderedField α] (env : Env α)
    (bond : OBBond α) : cstGeometry env bond = basGeometry env bond := rfl

theorem phi_range (fmt : ℝ → String) (bond : OBBond ℝ) :
    0 ≤ (basGeometry ⟨Real.sqrt, Real.arccos, Real.pi, fmt⟩ bond).phi
    ∧ (basGeometry ⟨Real.sqrt, Real.arccos, Real.pi, fmt⟩ bond).phi ≤ Real.pi := by
  simp only [basGeometry]
  split_ifs
  · exact ⟨Real.arccos_nonneg _, Real.arccos_le_pi _⟩
  · exact ⟨le_refl _, Real.pi_pos.le⟩

theorem theta_range (fmt : ℝ → String) (bond : OBBond ℝ) :
    0 ≤ (basGeometry ⟨Real.sqrt, Real.arccos, Real.pi, fmt⟩ bond).theta
    ∧ (basGeometry ⟨Real.sqrt, Real.arccos, Real.pi, fmt⟩ bond).theta ≤ Real.pi := by
  simp only [basGeometry]
  split_ifs
  · exact ⟨Real.arccos_nonneg _, Real.arccos_le_pi _⟩
  · exact ⟨le_refl _, Real.pi_pos.le⟩

theorem RAD2DEG_neg_range (fmt : ℝ → String) (p : ℝ) (h0 : 0 ≤ p) (h1 : p ≤ Real.pi) :
    -180 ≤ RAD2DEG ⟨Real.sqrt, Real.arccos, Real.pi, fmt⟩ (-p)
    ∧ RAD2DEG ⟨Real.sqrt, Real.arccos, Real.pi, fmt⟩ (-p) ≤ 0 := by
  have hpi := Real.pi_pos
  have e : RAD2DEG ⟨Real.sqrt, Real.arccos, Real.pi, fmt⟩ (-p) = -(180 * (p / Real.pi)) := by
    simp only [RAD2DEG]; ring
  have r0 : 0 ≤ p / Real.pi := div_nonneg h0 hpi.le
  have r1 : p / Real.pi ≤ 1 := (div_le_one hpi).mpr h1
  rw [e]
  constructor <;> linarith

theorem theta_pos_dy (fmt : ℝ → String) (bond : OBBond ℝ)
    (h : (basGeometry ⟨Real.sqrt, Real.arccos, Real.pi, fmt⟩ bond).theta ≥ EPSILON) :
    (basGeometry ⟨Real.sqrt, Real.arccos, Real.pi, fmt⟩ bond).dy ≥ EPSILON := by
  by_contra hn
  have hdy : 0 ≤ (basGeometry ⟨Real.sqrt, Real.arccos, Real.pi, fmt⟩ bond).dy :=
    Real.sqrt_nonneg _
  have habs : ¬ |(basGeometry ⟨Real.sqrt, Real.arccos, Real.pi, fmt⟩ bond).dy| ≥ EPSILON := by
    rwa [abs_of_nonneg hdy]
  have ht : (basGeometry ⟨Real.sqrt, Real.arccos, Real.pi, fmt⟩ bond).theta = 0 := by
    simp only [basGeometry] at habs ⊢
    rw [if_neg habs]
  rw [ht] at h
  norm_num [EPSILON] at h

/-- C24: for every bond, over the reals with the exact `pi`: `|y2 - y1| ≤ dist`
and `|x2 - x1| ≤ dy`, so the argument of `acos` is in `[-1, 1]` whenever the
guard (`dist ≥ 1e-4`, resp. `dy ≥ 1e-4`) lets the call happen; `phi` and `theta`
are in `[0, pi]`; the angle `RAD2DEG(-phi)+90` is in `[-90, 90]`; `dy ≤ dist`,
and when the rotation about y is written (`theta ≥ 1e-4`) the ball-and-stick
object holds the scale statement too. The capped-sticks emitter computes the
same four values. -/
theorem C24_acos_arguments_and_angle_ranges (fmt : ℝ → String) (pfx : String) (i : Nat)
    (bond : OBBond ℝ) :
    cstGeometry ⟨Real.sqrt, Real.arccos, Real.pi, fmt⟩ bond
        = basGeometry ⟨Real.sqrt, Real.arccos, Real.pi, fmt⟩ bond
    ∧ |bond.endAtom.y - bond.beginAtom.y|
        ≤ (basGeometry ⟨Real.sqrt, Real.arccos, Real.pi, fmt⟩ bond).dist
    ∧ ((basGeometry ⟨Real.sqrt, Real.arccos, Real.pi, fmt⟩ bond).dist ≥ EPSILON →
        -1 ≤ (bond.endAtom.y - bond.beginAtom.y)
              / (basGeometry ⟨Real.sqrt, Real.arccos, Real.pi, fmt⟩ bond).dist
        ∧ (bond.endAtom.y - bond.beginAtom.y)
              / (basGeometry ⟨Real.sqrt, Real.arccos, Real.pi, fmt⟩ bond).dist ≤ 1)
    ∧ |bond.endAtom.x - bond.beginAtom.x|
        ≤ (basGeometry ⟨Real.sqrt, Real.arccos, Real.pi, fmt⟩ bond).dy
    ∧ ((basGeometry ⟨Real.sqrt, Real.arccos, Real.pi, fmt⟩ bond).dy ≥ EPSILON →
        -1 ≤ (bond.endAtom.x - bond.beginAtom.x)
              / (basGeometry ⟨Real.sqrt, Real.arccos, Real.pi, fmt⟩ bond).dy
        ∧ (bond.endAtom.x - bond.beginAtom.x)
              / (basGeometry ⟨Real.sqrt, Real.arccos, Real.pi, fmt⟩ bond).dy ≤ 1)
    ∧ (0 ≤ (basGeometry ⟨Real.sqrt, Real.arccos, Real.pi, fmt⟩ bond).phi
        ∧ (basGeometry ⟨Real.sqrt, Real.arccos, Real.pi, fmt⟩ bond).phi ≤ Real.pi)
    ∧ (0 ≤ (basGeometry ⟨Real.sqrt, Real.arccos, Real.pi, fmt⟩ bond).theta
        ∧ (basGeometry ⟨Real.sqrt, Real.arccos, Real.pi, fmt⟩ bond).theta ≤ Real.pi)
    ∧ (-90 ≤ RAD2DEG ⟨Real.sqrt, Real.arccos, Real.pi, fmt⟩
              (-(basGeometry ⟨Real.sqrt, Real.arccos, Real.pi, fmt⟩ bond).phi) + 90
        ∧ RAD2DEG ⟨Real.sqrt, Real.arccos, Real.pi, fmt⟩
              (-(basGeometry ⟨Real.sqrt, Real.arccos, Real.pi, fmt⟩ bond).phi) + 90 ≤ 90)
    ∧ (basGeometry ⟨Real.sqrt, Real.arccos, Real.pi, fmt⟩ bond).dy
        ≤ (basGeometry ⟨Real.sqrt, Real.arccos, Real.pi, fmt⟩ bond).dist
    ∧ ((basGeometry ⟨Real.sqrt, Real.arccos, Real.pi, fmt⟩ bond).theta ≥ EPSILON →
        (basGeometry ⟨Real.sqrt, Real.arccos, Real.pi, fmt⟩ bond).dist ≥ EPSILON
        ∧ ("\t  scale <"
              ++ fmt (basGeometry ⟨Real.sqrt, Real.arccos, Real.pi, fmt⟩ bond).dist
              ++ ",1.0000,1.0000>")
            ∈ basBond ⟨Real.sqrt, Real.arccos, Real.pi, fmt⟩ pfx i bond) := by
  have hE : (0 : ℝ) < EPSILON := by norm_num [EPSILON]
  have hy := abs_sub_le_dist fmt bond
  have hx := abs_sub_le_dy fmt bond
  have hle := dy_le_dist fmt bond
  have hp := phi_range fmt bond
  have hr := RAD2DEG_neg_range fmt _ hp.1 hp.2
  refine ⟨rfl, hy, ?_, hx, ?_, hp, theta_range fmt bond, ⟨by linarith [hr.1], by linarith [hr.2]⟩,
    hle, ?_⟩
  · intro hd
    exact ratio_in_unit _ _ hy (lt_of_lt_of_le hE hd)
  · intro hd
    exact ratio_in_unit _ _ hx (lt_of_lt_of_le hE hd)
  · intro ht
    have hdy := theta_pos_dy fmt bond ht
    have hd : (basGeometry ⟨Real.sqrt, Real.arccos, Real.pi, fmt⟩ bond).dist ≥ EPSILON :=
      le_trans hdy hle
    have hd0 : 0 ≤ (basGeometry ⟨Real.sqrt, Real.arccos, Real.pi, fmt⟩ bond).dist :=
      le_trans hE.le hd
    have habs : |(basGeometry ⟨Real.sqrt, Real.arccos, Real.pi, fmt⟩ bond).dist| ≥ EPSILON := by
      rwa [abs_of_nonneg hd0]
    refine ⟨hd, ?_⟩
    simp only [basBond, if_pos habs]
    simp

/-- C25: for every bond, over the reals with the exact `pi`, the quantity
`RAD2DEG(-phi)+270` the end half tests is in `[90, 270]`, so its absolute value
reaches the tolerance and the end half always holds its rotation about z; the
angle written, `(RAD2DEG(-phi)+90)+180`, is in `[90, 270]`. -/
theorem C25_end_half_z_rotation_always_written (fmt : ℝ → String) (pfx : String)
    (bond : OBBond ℝ) :
    (90 ≤ RAD2DEG ⟨Real.sqrt, Real.arccos, Real.pi, fmt⟩
            (-(cstGeometry ⟨Real.sqrt, Real.arccos, Real.pi, fmt⟩ bond).phi) + 270
      ∧ RAD2DEG ⟨Real.sqrt, Real.arccos, Real.pi, fmt⟩
            (-(cstGeometry ⟨Real.sqrt, Real.arccos, Real.pi, fmt⟩ bond).phi) + 270 ≤ 270)
    ∧ |RAD2DEG ⟨Real.sqrt, Real.arccos, Real.pi, fmt⟩
            (-(cstGeometry ⟨Real.sqrt, Real.arccos, Real.pi, fmt⟩ bond).phi) + 270| ≥ EPSILON
    ∧ ("\t    rotate <0.0000,0.0000,"
          ++ fmt ((RAD2DEG ⟨Real.sqrt, Real.arccos, Real.pi, fmt⟩
              (-(cstGeometry ⟨Real.sqrt, Real.arccos, Real.pi, fmt⟩ bond).phi) + 90) + 180)
          ++ ">")
        ∈ cstEndHalf ⟨Real.sqrt, Real.arccos, Real.pi, fmt⟩ pfx bond
    ∧ (90 ≤ (RAD2DEG ⟨Real.sqrt, Real.arccos, Real.pi, fmt⟩
            (-(cstGeometry ⟨Real.sqrt, Real.arccos, Real.pi, fmt⟩ bond).phi) + 90) + 180
      ∧ (RAD2DEG ⟨Real.sqrt, Real.arccos, Real.pi, fmt⟩
            (-(cstGeometry ⟨Real.sqrt, Real.arccos, Real.pi, fmt⟩ bond).phi) + 90) + 180
          ≤ 270) := by
  have hp := phi_range fmt bond
  rw [← cstGeometry_eq_basGeometry] at hp
  have hr := RAD2DEG_neg_range fmt _ hp.1 hp.2
  have h90 : 90 ≤ RAD2DEG ⟨Real.sqrt, Real.arccos, Real.pi, fmt⟩
      (-(cstGeometry ⟨Real.sqrt, Real.arccos, Real.pi, fmt⟩ bond).phi) + 270 := by
    linarith [hr.1]
  have habs : |RAD2DEG ⟨Real.sqrt, Real.arccos, Real.pi, fmt⟩
      (-(cstGeometry ⟨Real.sqrt, Real.arccos, Real.pi, fmt⟩ bond).phi) + 270| ≥ EPSILON := by
    rw [abs_of_nonneg (by linarith)]
    have : (EPSILON : ℝ) ≤ 90 := by norm_num [EPSILON]
    linarith
  refine ⟨⟨h90, by linarith [hr.2]⟩, habs, ?_, ⟨by linarith [hr.1], by linarith [hr.2]⟩⟩
  simp only [cstEndHalf, if_pos habs]
  simp

end AngleRangeProofs

end Povray
